import Mathlib

/-!
VoyageHub: planner, recommendation screens and Supabase service

A shallow embedding of the business logic of the VoyageHub React Native client:

* `frontend/src/screens/Main/Planner/PlannerScreen.js`: currency conversion, budget tier,
  date validation and the guards of `handleGenerate`;
* the four `*DetailScreen.js` files: the recommendation fetch and its JSON slicing;
* `frontend/src/services/supabase.js`: the `Trips` and `favorites` queries.

Conventions of the embedding.

* A JavaScript string is a `List Char`; a `Date` is its time value, an `Int` number of
  milliseconds since the epoch.
* The numbers the planner computes with are integers or infinities (`parseInt` results,
  day counts, member counts, amounts returned by `Math.round`); they are embedded as `Int`,
  an infinity as `2 ^ 1024` with its sign. What the program computes in binary64 with a
  rounding is embedded with that rounding: the value `parseInt` returns, the rate of a
  currency, the quotient of the budget by the rate, the quotient of the budget by the
  person-day count.
* React state is a structure; a handler returns the next state together with the alerts it
  raised and the actions it started.
-/

namespace VoyageHub

/-! ## JavaScript primitives -/

/-- Code points of the ECMAScript `WhiteSpace` and `LineTerminator` productions, the
characters removed by `String.prototype.trim` and skipped by `parseInt`. -/
def isWhiteSpace (c : Char) : Bool :=
  let n := c.toNat
  n == 0x09 || n == 0x0A || n == 0x0B || n == 0x0C || n == 0x0D || n == 0x20 ||
  n == 0xA0 || n == 0x1680 || (0x2000 ≤ n && n ≤ 0x200A) || n == 0x2028 ||
  n == 0x2029 || n == 0x202F || n == 0x205F || n == 0x3000 || n == 0xFEFF

/-- `String.prototype.trimStart`. -/
def trimStart (s : List Char) : List Char :=
  s.dropWhile isWhiteSpace

/-- `String.prototype.trimEnd`. -/
def trimEnd (s : List Char) : List Char :=
  (s.reverse.dropWhile isWhiteSpace).reverse

/-- `String.prototype.trim`. -/
def trim (s : List Char) : List Char :=
  trimEnd (trimStart s)

/-! ### Numbers

A JavaScript Number that is an integer or an infinity is embedded as an `Int`: a finite
integer as itself, `Infinity` as `2 ^ 1024` and `-Infinity` as `-2 ^ 1024`, one step above
every finite binary64 value, so that the order of `Int` is the order of the Numbers. `NaN`
is `none`. The two divisions of the planner, by the currency rate and by the person-day
count, are carried out in binary64 with round-to-nearest, ties to even. -/

/-- Number of binary digits of `n`, computed with `fuel` halvings at most. -/
def bitLengthAux : Nat → Nat → Nat
  | 0, _ => 0
  | fuel + 1, n => if n = 0 then 0 else bitLengthAux fuel (n / 2) + 1

/-- Number of binary digits of `n`: `2 ^ (bitLength n - 1) ≤ n < 2 ^ bitLength n`. -/
def bitLength (n : Nat) : Nat :=
  bitLengthAux n n

/-- The integer nearest to `a / b`, a tie going to the even one. -/
def roundHalfEven (a b : Nat) : Nat :=
  if 2 * (a % b) < b then a / b
  else if b < 2 * (a % b) then a / b + 1
  else if (a / b) % 2 = 0 then a / b else a / b + 1

/-- The binade of the positive ratio `a / b`: the `l` with `2 ^ l ≤ a / b < 2 ^ (l + 1)`. -/
def binade (a b : Nat) : Int :=
  let l : Int := (bitLength a : Int) - (bitLength b : Int)
  if 0 ≤ l then (if b <<< l.toNat ≤ a then l else l - 1)
  else (if b ≤ a <<< (-l).toNat then l else l - 1)

/-- A non-negative binary64 value `mantissa * 2 ^ exponent` before the check for overflow:
the mantissa has at most 53 bits (it is `2 ^ 53` when rounding carried into the next
binade) and the exponent is at least `-1074`. -/
structure Binary64 where
  mantissa : Nat
  exponent : Int
  deriving DecidableEq, Repr

/-- The rational value of a binary64 number, the mantissa times two to the exponent. -/
def Binary64.value (d : Binary64) : ℚ :=
  (d.mantissa : ℚ) * (2 : ℚ) ^ d.exponent

/-- The positive ratio `a / b` rounded to binary64: 53 significant bits, round to nearest,
ties to even, subnormal below `2 ^ (-1022)`. -/
def roundToBinary64 (a b : Nat) : Binary64 :=
  if a = 0 then { mantissa := 0, exponent := 0 }
  else
    let e := max (binade a b - 52) (-1074)
    if 0 ≤ e then { mantissa := roundHalfEven a (b <<< e.toNat), exponent := e }
    else { mantissa := roundHalfEven (a <<< (-e).toNat) b, exponent := e }

/-- The embedding of `Infinity`, `2 ^ 1024`. -/
def infinity : Int :=
  ((1 <<< 1024 : Nat) : Int)

/-- Overflow of binary64: a value of magnitude `2 ^ 1024` or more is an infinity. -/
def clampInfinity (v : Int) : Int :=
  if infinity ≤ v then infinity else if v ≤ -infinity then -infinity else v

/-- `Math.round` of the binary64 value `d`, taken negative when `negative` is set:
`⌊x + 1/2⌋`, an infinity staying as it is. -/
def mathRound (negative : Bool) (d : Binary64) : Int :=
  let m : Int := if negative then -(d.mantissa : Int) else (d.mantissa : Int)
  if 0 ≤ d.exponent then clampInfinity (m * ((1 <<< d.exponent.toNat : Nat) : Int))
  else
    (m + ((1 <<< ((-d.exponent).toNat - 1) : Nat) : Int))
      / ((1 <<< (-d.exponent).toNat : Nat) : Int)

/-- `Math.round (a / r)` for a Number `a` that is an integer or an infinity and a positive
binary64 divisor `r`: the quotient is rounded to binary64, then `Math.round` is applied. -/
def roundedQuotient (a : Int) (r : Binary64) : Int :=
  if infinity ≤ a then infinity
  else if a ≤ -infinity then -infinity
  else if 0 ≤ r.exponent then
    mathRound (decide (a < 0)) (roundToBinary64 a.natAbs (r.mantissa <<< r.exponent.toNat))
  else
    mathRound (decide (a < 0)) (roundToBinary64 (a.natAbs <<< (-r.exponent).toNat) r.mantissa)

/-- The Number value of a mathematical integer: the nearest binary64 value, an infinity on
overflow. -/
def toNumber (n : Int) : Int :=
  mathRound (decide (n < 0)) (roundToBinary64 n.natAbs 1)

/-- Value of a character as a digit in radix up to 36. -/
def digitValue (c : Char) : Option Nat :=
  let n := c.toNat
  if 48 ≤ n ∧ n ≤ 57 then some (n - 48)
  else if 97 ≤ n ∧ n ≤ 122 then some (n - 97 + 10)
  else if 65 ≤ n ∧ n ≤ 90 then some (n - 65 + 10)
  else none

/-- Value of a character as a digit of the given radix, if it is one. -/
def radixDigit (radix : Nat) (c : Char) : Option Nat :=
  match digitValue c with
  | some d => if d < radix then some d else none
  | none => none

/-- The digits of the longest leading run of radix digits. -/
def leadingDigits (radix : Nat) : List Char → List Nat
  | [] => []
  | c :: cs =>
    match radixDigit radix c with
    | some d => d :: leadingDigits radix cs
    | none => []

/-- Sign step of `parseInt`: a leading `-` or `+` is consumed. -/
def splitSign : List Char → Int × List Char
  | '-' :: r => (-1, r)
  | '+' :: r => (1, r)
  | s => (1, s)

/-- Radix step of `parseInt` called without a radix: a leading `0x` or `0X` selects
radix 16, everything else radix 10. -/
def splitRadix : List Char → Nat × List Char
  | '0' :: 'x' :: r => (16, r)
  | '0' :: 'X' :: r => (16, r)
  | s => (10, s)

/-- Global `parseInt(string)` without a radix argument: the Number value of the integer
the digits denote. `none` stands for `NaN`. -/
def parseInt (s : List Char) : Option Int :=
  let signed := splitSign (trimStart s)
  let based := splitRadix signed.2
  let digits := leadingDigits based.1 based.2
  if digits = [] then none
  else some (toNumber (signed.1 * (digits.foldl (fun acc d => acc * based.1 + d) 0 : Nat)))

/-- `Math.ceil (a / b)` for integers `a` and `b` with `0 < b`. -/
def ceilDiv (a b : Int) : Int :=
  -((-a) / b)

/-- `Math.round (a / (num / den))` for an integer `a` and a positive ratio `num / den`,
the quotient being taken exactly: the nearest integer, halves going up. For a quotient of
two integers `a / num` with `a` below `2 ^ 52` in magnitude it is what binary64 gives
(`mathRound_exact` below). -/
def roundDiv (a num den : Int) : Int :=
  (2 * a * den + num) / (2 * num)

/-! ## Planner screen -/

/-- An entry of `CURRENCIES`; `rate` is the decimal literal `rateNum / rateDen`. -/
structure Currency where
  code : String
  symbol : String
  label : String
  rateNum : Nat
  rateDen : Nat
  deriving DecidableEq, Repr

/-- The rate of a currency as a rational number. -/
def Currency.rate (c : Currency) : ℚ :=
  (c.rateNum : ℚ) / (c.rateDen : ℚ)

/-- The rate of a currency as the program holds it: the binary64 value of the decimal
literal. -/
def Currency.rateDouble (c : Currency) : Binary64 :=
  roundToBinary64 c.rateNum c.rateDen

/-- The currency table of the planner. -/
def CURRENCIES : List Currency :=
  [ { code := "USD", symbol := "$", label := "US Dollar", rateNum := 1, rateDen := 1 },
    { code := "INR", symbol := "₹", label := "Indian Rupee", rateNum := 835, rateDen := 10 },
    { code := "EUR", symbol := "€", label := "Euro", rateNum := 92, rateDen := 100 },
    { code := "GBP", symbol := "£", label := "British Pound", rateNum := 79, rateDen := 100 },
    { code := "JPY", symbol := "¥", label := "Japanese Yen", rateNum := 1495, rateDen := 10 },
    { code := "AUD", symbol := "A$", label := "Australian Dollar", rateNum := 153, rateDen := 100 },
    { code := "CAD", symbol := "C$", label := "Canadian Dollar", rateNum := 136, rateDen := 100 },
    { code := "SGD", symbol := "S$", label := "Singapore Dollar", rateNum := 134, rateDen := 100 },
    { code := "AED", symbol := "د.إ", label := "UAE Dirham", rateNum := 367, rateDen := 100 },
    { code := "THB", symbol := "฿", label := "Thai Baht", rateNum := 351, rateDen := 10 } ]

/-- The state hooks of `PlannerScreen` that its logic reads or writes. -/
structure PlannerState where
  destination : List Char
  interests : List Char
  loading : Bool
  budget : List Char
  budgetError : String
  startDate : Int
  endDate : Int
  showStartPicker : Bool
  showEndPicker : Bool
  groupType : String
  members : Nat
  selectedCurrency : Currency
  deriving DecidableEq, Repr

/-- What a button of an alert, or the handler itself, starts. -/
inductive Action where
  | navigate (screen : String)
  | generateItinerary (days : Int) (budgetUSD : Int)
  deriving DecidableEq, Repr

/-- A button passed to `Alert.alert`. -/
structure Button where
  text : String
  onPress : Option Action
  deriving DecidableEq, Repr

/-- A call of `Alert.alert (title, message, buttons)`. -/
structure AlertDialog where
  title : String
  message : String
  buttons : List Button
  deriving DecidableEq, Repr

/-- The value returned by `getBudgetTier`. -/
structure Tier where
  label : String
  color : String
  ppd : Int
  deriving DecidableEq, Repr

/-- Milliseconds in a day, `1000 * 60 * 60 * 24`. -/
def msPerDay : Int := 1000 * 60 * 60 * 24

/-- `calculateDays`. -/
def calculateDays (s : PlannerState) : Int :=
  let diffTime := |s.endDate - s.startDate|
  let diffDays := ceilDiv diffTime msPerDay
  if diffDays = 0 then 1 else diffDays

/-- `getBudgetInUSD`. -/
def getBudgetInUSD (s : PlannerState) : Int :=
  match parseInt s.budget with
  | none => 0
  | some raw => roundedQuotient raw s.selectedCurrency.rateDouble

/-- `Math.round (budgetUSD / (days * members))` of `getBudgetTier`, for the person-day
count `n = days * members`: the quotient is rounded to binary64, then `Math.round` is
applied. The program keeps `n` below `4 * 10 ^ 9`, a number it holds exactly: the two dates
of the planner are at most `2 * 10 ^ 8` days apart, the range of `Date`, and
`incrementMembers` stops at 20 travellers. For a count of `2 ^ 44 = 17592186044416` or
more, which the program does not reach, the exact quotient stands for the binary64 one. -/
def perPersonPerDay (budgetUSD n : Int) : Int :=
  if n < 17592186044416 then
    roundedQuotient budgetUSD { mantissa := n.toNat, exponent := 0 }
  else roundDiv budgetUSD n 1

/-- `getBudgetTier`; `primary` is `theme.primary`. -/
def getBudgetTier (primary : String) (s : PlannerState) : Option Tier :=
  let days := calculateDays s
  let budgetUSD := getBudgetInUSD s
  if budgetUSD = 0 ∨ days = 0 ∨ s.members = 0 then none
  else
    let ppd := perPersonPerDay budgetUSD (days * s.members)
    if ppd < 15 then some { label := "⚠️ Very Tight", color := "#ff3b30", ppd := ppd }
    else if ppd < 50 then some { label := "🎒 Budget Travel", color := "#00c853", ppd := ppd }
    else if ppd < 150 then some { label := "✈️ Mid-Range", color := primary, ppd := ppd }
    else some { label := "💎 Luxury", color := "#ff9500", ppd := ppd }

/-- `onEndDateChange (event, selectedDate)`: the next state and the alerts raised.
`selectedDate = none` is the picker dismissed without a date. -/
def onEndDateChange (s : PlannerState) (selectedDate : Option Int) :
    PlannerState × List AlertDialog :=
  let s1 := { s with showEndPicker := false }
  match selectedDate with
  | none => (s1, [])
  | some d =>
    let diffDays := ceilDiv (d - s.startDate) msPerDay
    if diffDays < 1 then
      (s1, [{ title := "Invalid Date", message := "End date must be after start date.",
              buttons := [] }])
    else ({ s1 with endDate := d }, [])

/-- A signed-in Supabase user, as returned by `getCurrentUser`. -/
structure User where
  id : String
  deriving DecidableEq, Repr

/-- What a handler of the planner leaves behind: the next state, the alerts raised, and
the actions the handler itself started (not those behind alert buttons). -/
structure Outcome where
  state : PlannerState
  alerts : List AlertDialog
  started : List Action
  deriving DecidableEq, Repr

/-- `validateBudget`: the next state (with `budgetError` set) and the returned boolean. -/
def validateBudget (s : PlannerState) : PlannerState × Bool :=
  if s.budget = [] ∨ trim s.budget = [] then
    ({ s with budgetError := "Budget is required" }, false)
  else
    match parseInt s.budget with
    | none => ({ s with budgetError := "Enter a valid amount" }, false)
    | some raw =>
      if raw ≤ 0 then ({ s with budgetError := "Enter a valid amount" }, false)
      else ({ s with budgetError := "" }, true)

/-- The message of the budget alert of `handleGenerate`. -/
def budgetTooLowMessage (days : Int) (members : Nat) (minBudget budgetUSD : Int) : String :=
  "For " ++ toString days ++ " day" ++ (if days > 1 then "s" else "") ++ " with " ++
  toString members ++ " " ++ (if members = 1 then "person" else "people") ++
  ", the minimum recommended budget is $" ++ toString minBudget ++
  " ($15/person/day).\n\nYour budget: $" ++ toString budgetUSD ++
  " USD\n\nWant to continue with a tight budget?"

/-- `handleGenerate`; `user` is what `getCurrentUser ()` resolved to. -/
def handleGenerate (s : PlannerState) (user : Option User) : Outcome :=
  if trim s.destination = [] then
    { state := s, started := [],
      alerts := [{ title := "Missing Destination",
                   message := "Please enter a destination first.", buttons := [] }] }
  else
    match user with
    | none =>
      { state := s, started := [],
        alerts := [{ title := "Login Required ✈️",
                     message := "Create a free account to generate and save your itinerary. It only takes 30 seconds!",
                     buttons := [{ text := "Not Now", onPress := none },
                                 { text := "Login / Sign Up",
                                   onPress := some (Action.navigate "Profile") }] }] }
    | some _ =>
      let v := validateBudget s
      if v.2 = false then
        { state := v.1, started := [],
          alerts := [{ title := "Budget Required",
                       message := "Please enter your total budget to continue.",
                       buttons := [] }] }
      else
        let days := calculateDays v.1
        let budgetUSD := getBudgetInUSD v.1
        let minBudget := days * (s.members : Int) * 15
        if budgetUSD < minBudget then
          { state := v.1, started := [],
            alerts := [{ title := "Budget Too Low ⚠️",
                         message := budgetTooLowMessage days s.members minBudget budgetUSD,
                         buttons := [{ text := "Adjust Budget", onPress := none },
                                     { text := "Continue Anyway",
                                       onPress := some (Action.generateItinerary days budgetUSD) }] }] }
        else if days < 2 then
          { state := v.1, started := [],
            alerts := [{ title := "Too Short! ⏱️",
                         message := "Pick at least 2 days to explore a city!",
                         buttons := [{ text := "OK, fix dates", onPress := none }] }] }
        else
          { state := v.1, alerts := [], started := [Action.generateItinerary days budgetUSD] }

/-- The action behind the button the user presses in an alert; `none` is the alert
dismissed without a button, a number is the position of the pressed button. -/
def pressButton (a : AlertDialog) (choice : Option Nat) : List Action :=
  match choice with
  | none => []
  | some i =>
    match a.buttons.get? i with
    | some b => b.onPress.toList
    | none => []

/-- Every action started by `handleGenerate` once the user has answered its alerts. -/
def actionsAfterChoice (s : PlannerState) (user : Option User) (choice : Option Nat) :
    List Action :=
  let o := handleGenerate s user
  o.started ++ o.alerts.flatMap (fun a => pressButton a choice)

/-- An action is a start of `generateItinerary`. -/
def Action.isGenerate : Action → Bool
  | Action.generateItinerary _ _ => true
  | Action.navigate _ => false

/-- A planner state used to evaluate the definitions: Paris, one day, one traveller,
a budget of 10 US dollars. -/
def sampleState : PlannerState :=
  { destination := "Paris".toList, interests := [], loading := false,
    budget := "10".toList, budgetError := "", startDate := 1700000000000,
    endDate := 1700000000000, showStartPicker := false, showEndPicker := false,
    groupType := "Solo", members := 1,
    selectedCurrency :=
      { code := "USD", symbol := "$", label := "US Dollar", rateNum := 1, rateDen := 1 } }

/-- A second sample state: 4879 Canadian dollars for 2 days and 12 travellers. -/
def sampleCanadianState : PlannerState :=
  { sampleState with
    budget := "4879".toList, endDate := 1700172800000, members := 12,
    selectedCurrency := { code := "CAD", symbol := "C$", label := "Canadian Dollar",
                          rateNum := 136, rateDen := 100 } }

/-! ## Recommendation screens -/

/-- `String.prototype.indexOf` for a one-character search string, scanning from position
`i` of the whole text; `-1` when the character does not occur. -/
def indexOfFrom (c : Char) : List Char → Nat → Int
  | [], _ => -1
  | x :: xs, i => if x = c then (i : Int) else indexOfFrom c xs (i + 1)

/-- `raw.indexOf (c)`. -/
def indexOf (c : Char) (raw : List Char) : Int :=
  indexOfFrom c raw 0

/-- `String.prototype.lastIndexOf` for a one-character search string: the scan keeps the
latest position at which the character was seen, starting from `found`. -/
def lastIndexOfFrom (c : Char) : List Char → Nat → Int → Int
  | [], _, found => found
  | x :: xs, i, found => lastIndexOfFrom c xs (i + 1) (if x = c then (i : Int) else found)

/-- `raw.lastIndexOf (c)`; `-1` when the character does not occur. -/
def lastIndexOf (c : Char) (raw : List Char) : Int :=
  lastIndexOfFrom c raw 0 (-1)

/-- `String.prototype.substring (a, b)`: both positions are clamped to the text and
swapped when `a` is the larger one. -/
def substring (raw : List Char) (a b : Int) : List Char :=
  let len : Int := raw.length
  let a1 := max 0 (min a len)
  let b1 := max 0 (min b len)
  let lo := min a1 b1
  let hi := max a1 b1
  (raw.drop lo.toNat).take (hi - lo).toNat

/-- The slicing shared by the four fetch functions: from the first `opening` to the last
`closing` when both occur, the text itself otherwise. -/
def sliceBetween (opening closing : Char) (raw : List Char) : List Char :=
  let start := indexOf opening raw
  let stop := lastIndexOf closing raw
  if start ≠ -1 ∧ stop ≠ -1 then substring raw start (stop + 1) else raw

/-- The `route.params` a detail screen reads. -/
structure RouteParams where
  destination : String
  budget : Int
  days : Int
  members : Option Int
  deriving DecidableEq, Repr

/-- A `POST /recommendations` request; `kind` is the `type` field of the body and
`members` is present only where the screen sends it. -/
structure Request where
  url : String
  method : String
  destination : String
  kind : String
  budget : Int
  days : Int
  members : Option Int
  deriving DecidableEq, Repr

/-- The parsed response body: `success` is the truthiness of `json.success`; `data` is
`json.data` when it is a string and `none` when it is missing. -/
structure ResponseBody where
  success : Bool
  data : Option (List Char)
  deriving DecidableEq, Repr

/-- What the backend does with the single request of a fetch. -/
inductive BackendOutcome where
  | networkFailure
  | nonJsonBody
  | json (body : ResponseBody)
  deriving DecidableEq, Repr

/-- The state hooks of a detail screen; `result` is `hotels`, `restaurants`,
`aiAttractions` or `data`, a parsed JSON value of type `J`. -/
structure DetailState (J : Type) where
  result : J
  loading : Bool
  error : Option String

/-- The state a fetch leaves and the requests it sent. -/
structure FetchResult (J : Type) where
  state : DetailState J
  sent : List Request

/-- The backend URL of the detail screens. -/
def API_URL : String := "https://voyagehub-backend.onrender.com"

/-- `fetchHotels` of `AccommodationDetailScreen`; `parse` is `JSON.parse`, `none` when it
throws. -/
def fetchHotels {J : Type} (parse : List Char → Option J) (p : RouteParams)
    (outcome : BackendOutcome) (s : DetailState J) : FetchResult J :=
  let s1 : DetailState J := { s with loading := true, error := none }
  let req : Request :=
    { url := API_URL ++ "/recommendations", method := "POST", destination := p.destination,
      kind := "hotels", budget := p.budget, days := p.days, members := none }
  let s2 : DetailState J :=
    match outcome with
    | BackendOutcome.networkFailure => { s1 with error := some "Network error — check backend" }
    | BackendOutcome.nonJsonBody => { s1 with error := some "Network error — check backend" }
    | BackendOutcome.json body =>
      if body.success then
        match body.data with
        | none => { s1 with error := some "Network error — check backend" }
        | some raw =>
          match parse (sliceBetween '[' ']' raw) with
          | some v => { s1 with result := v }
          | none => { s1 with error := some "Network error — check backend" }
      else { s1 with error := some "Could not load hotels" }
  { state := { s2 with loading := false }, sent := [req] }

/-- `fetchFood` of `FoodDetailScreen`. -/
def fetchFood {J : Type} (parse : List Char → Option J) (p : RouteParams)
    (outcome : BackendOutcome) (s : DetailState J) : FetchResult J :=
  let s1 : DetailState J := { s with loading := true, error := none }
  let req : Request :=
    { url := API_URL ++ "/recommendations", method := "POST", destination := p.destination,
      kind := "food", budget := p.budget, days := p.days, members := some (p.members.getD 1) }
  let s2 : DetailState J :=
    match outcome with
    | BackendOutcome.networkFailure => { s1 with error := some "Network error — check backend" }
    | BackendOutcome.nonJsonBody => { s1 with error := some "Network error — check backend" }
    | BackendOutcome.json body =>
      if body.success then
        match body.data with
        | none => { s1 with error := some "Network error — check backend" }
        | some raw =>
          match parse (sliceBetween '[' ']' raw) with
          | some v => { s1 with result := v }
          | none => { s1 with error := some "Network error — check backend" }
      else { s1 with error := some "Could not load restaurants" }
  { state := { s2 with loading := false }, sent := [req] }

/-- `fetchActivities` of `ActivitesDetailScreen`. -/
def fetchActivities {J : Type} (parse : List Char → Option J) (p : RouteParams)
    (outcome : BackendOutcome) (s : DetailState J) : FetchResult J :=
  let s1 : DetailState J := { s with loading := true, error := none }
  let req : Request :=
    { url := API_URL ++ "/recommendations", method := "POST", destination := p.destination,
      kind := "activities", budget := p.budget, days := p.days, members := none }
  let s2 : DetailState J :=
    match outcome with
    | BackendOutcome.networkFailure => { s1 with error := some "Network error — check backend" }
    | BackendOutcome.nonJsonBody => { s1 with error := some "Network error — check backend" }
    | BackendOutcome.json body =>
      if body.success then
        match body.data with
        | none => { s1 with error := some "Network error — check backend" }
        | some raw =>
          match parse (sliceBetween '[' ']' raw) with
          | some v => { s1 with result := v }
          | none => { s1 with error := some "Network error — check backend" }
      else { s1 with error := some "Could not load activities" }
  { state := { s2 with loading := false }, sent := [req] }

/-- `fetchTransport` of `TransportDetailScreen`. -/
def fetchTransport {J : Type} (parse : List Char → Option J) (p : RouteParams)
    (outcome : BackendOutcome) (s : DetailState J) : FetchResult J :=
  let s1 : DetailState J := { s with loading := true, error := none }
  let req : Request :=
    { url := API_URL ++ "/recommendations", method := "POST", destination := p.destination,
      kind := "transport", budget := p.budget, days := p.days,
      members := some (p.members.getD 1) }
  let s2 : DetailState J :=
    match outcome with
    | BackendOutcome.networkFailure => { s1 with error := some "Network error — check backend" }
    | BackendOutcome.nonJsonBody => { s1 with error := some "Network error — check backend" }
    | BackendOutcome.json body =>
      if body.success then
        match body.data with
        | none => { s1 with error := some "Network error — check backend" }
        | some raw =>
          match parse (sliceBetween '\x7b' '\x7d' raw) with
          | some v => { s1 with result := v }
          | none => { s1 with error := some "Network error — check backend" }
      else { s1 with error := some "Could not load transport info" }
  { state := { s2 with loading := false }, sent := [req] }

/-! ## Supabase service -/

/-- A column value sent to or received from a table. -/
inductive Value where
  | null
  | text (s : String)
  | num (n : Int)
  deriving DecidableEq, Repr

/-- A row: its columns with their values. -/
abbrev Row := List (String × Value)

/-- The verb of a query built with the Supabase client: `insert (rows).select ()`,
`select (columns)` (with `countOnly` for the option `count: "exact", head: true`), or
`delete ()`. -/
inductive Verb where
  | insert (rows : List Row)
  | select (columns : String) (countOnly : Bool)
  | delete
  deriving DecidableEq, Repr

/-- A query as it is awaited: table, verb, the `.eq (column, value)` filters in the order
they were added, and the `.order (column, ascending)` clause. -/
structure Query where
  table : String
  verb : Verb
  filters : List (String × Value)
  order : Option (String × Bool)
  deriving DecidableEq, Repr

/-- What `supabase.auth.getUser ()` does: it rejects, or resolves with `data.user`. -/
inductive AuthReply where
  | rejected
  | resolved (user : Option User)
  deriving DecidableEq, Repr

/-- What an awaited query does: it rejects with an error, or resolves with `data`,
`count` and `error`. -/
inductive DbReply where
  | rejected (e : String)
  | resolved (data : Option (List Row)) (count : Option Nat) (error : Option String)
  deriving DecidableEq, Repr

/-- A call of a service function: the queries it issued and what it returned (`ok`) or
threw (`error`). -/
structure Call (α : Type) where
  queries : List Query
  result : Except String α

/-- `getCurrentUser`. -/
def getCurrentUser (auth : AuthReply) : Option User :=
  match auth with
  | AuthReply.rejected => none
  | AuthReply.resolved user => user

/-- `saveTrip (destination, days, itinerary)`. -/
def saveTrip (auth : AuthReply) (destination : String) (days : Int) (itinerary : String)
    (reply : DbReply) : Call (Option (List Row)) :=
  let userId : Value :=
    match getCurrentUser auth with
    | some u => if u.id ≠ "" then Value.text u.id else Value.null
    | none => Value.null
  let q : Query :=
    { table := "Trips",
      verb := Verb.insert [[("destination", Value.text destination), ("days", Value.num days),
                            ("itinerary", Value.text itinerary), ("user_id", userId)]],
      filters := [], order := none }
  { queries := [q],
    result :=
      match reply with
      | DbReply.rejected e => Except.error e
      | DbReply.resolved _ _ (some e) => Except.error e
      | DbReply.resolved data _ none => Except.ok data }

/-- `getTrips`. -/
def getTrips (auth : AuthReply) (reply : DbReply) : Call (List Row) :=
  let base : Query :=
    { table := "Trips", verb := Verb.select "*" false, filters := [],
      order := some ("created_at", false) }
  let query : Query :=
    match getCurrentUser auth with
    | some u =>
      if u.id ≠ "" then { base with filters := base.filters ++ [("user_id", Value.text u.id)] }
      else base
    | none => base
  { queries := [query],
    result :=
      match reply with
      | DbReply.rejected _ => Except.ok []
      | DbReply.resolved _ _ (some _) => Except.ok []
      | DbReply.resolved data _ none => Except.ok (data.getD []) }

/-- `deleteTrip (id)`. -/
def deleteTrip (id : Value) (reply : DbReply) : Call Bool :=
  let q : Query :=
    { table := "Trips", verb := Verb.delete, filters := [("id", id)], order := none }
  { queries := [q],
    result :=
      match reply with
      | DbReply.rejected e => Except.error e
      | DbReply.resolved _ _ (some e) => Except.error e
      | DbReply.resolved _ _ none => Except.ok true }

/-- `getTripCount`. -/
def getTripCount (auth : AuthReply) (reply : DbReply) : Call Nat :=
  let base : Query :=
    { table := "Trips", verb := Verb.select "id" true, filters := [], order := none }
  let query : Query :=
    match getCurrentUser auth with
    | some u =>
      if u.id ≠ "" then { base with filters := base.filters ++ [("user_id", Value.text u.id)] }
      else base
    | none => base
  { queries := [query],
    result :=
      match reply with
      | DbReply.rejected _ => Except.ok 0
      | DbReply.resolved _ _ (some _) => Except.ok 0
      | DbReply.resolved _ count none => Except.ok (count.getD 0) }

/-- `addFavorite (destinationId, destinationName)`. -/
def addFavorite (auth : AuthReply) (destinationId : Value) (destinationName : String)
    (reply : DbReply) : Call (Option (List Row)) :=
  match getCurrentUser auth with
  | none => { queries := [], result := Except.error "Not logged in" }
  | some u =>
    let q : Query :=
      { table := "favorites",
        verb := Verb.insert [[("user_id", Value.text u.id), ("destination_id", destinationId),
                              ("destination_name", Value.text destinationName)]],
        filters := [], order := none }
    { queries := [q],
      result :=
        match reply with
        | DbReply.rejected e => Except.error e
        | DbReply.resolved _ _ (some e) => Except.error e
        | DbReply.resolved data _ none => Except.ok data }

/-- `removeFavorite (destinationId)`. -/
def removeFavorite (auth : AuthReply) (destinationId : Value) (reply : DbReply) : Call Bool :=
  match getCurrentUser auth with
  | none => { queries := [], result := Except.error "Not logged in" }
  | some u =>
    let q : Query :=
      { table := "favorites", verb := Verb.delete,
        filters := [("user_id", Value.text u.id), ("destination_id", destinationId)],
        order := none }
    { queries := [q],
      result :=
        match reply with
        | DbReply.rejected e => Except.error e
        | DbReply.resolved _ _ (some e) => Except.error e
        | DbReply.resolved _ _ none => Except.ok true }

/-- `getFavorites`; the returned `data` may be `null`, here `none`. -/
def getFavorites (auth : AuthReply) (reply : DbReply) : Call (Option (List Row)) :=
  match getCurrentUser auth with
  | none => { queries := [], result := Except.ok (some []) }
  | some u =>
    let q : Query :=
      { table := "favorites", verb := Verb.select "*" false,
        filters := [("user_id", Value.text u.id)], order := some ("created_at", false) }
    { queries := [q],
      result :=
        match reply with
        | DbReply.rejected _ => Except.ok (some [])
        | DbReply.resolved _ _ (some _) => Except.ok (some [])
        | DbReply.resolved data _ none => Except.ok data }

/-- `getFavoriteCount`. -/
def getFavoriteCount (auth : AuthReply) (reply : DbReply) : Call Nat :=
  match getCurrentUser auth with
  | none => { queries := [], result := Except.ok 0 }
  | some u =>
    let q : Query :=
      { table := "favorites", verb := Verb.select "id" true,
        filters := [("user_id", Value.text u.id)], order := none }
    { queries := [q],
      result :=
        match reply with
        | DbReply.rejected _ => Except.ok 0
        | DbReply.resolved _ _ (some _) => Except.ok 0
        | DbReply.resolved _ count none => Except.ok (count.getD 0) }

/-- A query is scoped to the user id `uid`: an insert carries `user_id = uid` in every row,
any other verb filters on `user_id = uid`. -/
def Query.scopedTo (uid : String) (q : Query) : Bool :=
  match q.verb with
  | Verb.insert rows => rows.all (fun r => decide (("user_id", Value.text uid) ∈ r))
  | Verb.select _ _ => decide (("user_id", Value.text uid) ∈ q.filters)
  | Verb.delete => decide (("user_id", Value.text uid) ∈ q.filters)

/-! ## Tier and type filters of the recommendation screens -/

/-- A recommendation as the screens read it: a parsed JSON object of which only these
fields are looked at; `none` is a field that is absent. -/
structure Recommendation where
  name : String
  tier : Option String
  dietary : Option String
  type : Option String
  deriving DecidableEq, Repr

namespace AccommodationDetail

/-- The constant `tiers` of `AccommodationDetailScreen`. -/
def tiers : List String := ["all", "budget", "midrange", "luxury"]

/-- The constant `filtered` of `AccommodationDetailScreen`. -/
def filtered (hotels : List Recommendation) (selectedTier : String) : List Recommendation :=
  if selectedTier = "all" then hotels
  else hotels.filter (fun h => decide (h.tier = some selectedTier))

end AccommodationDetail

namespace FoodDetail

/-- The constant `tiers` of `FoodDetailScreen`. -/
def tiers : List String := ["all", "affordable", "midrange", "finedining"]

/-- The constant `diets` of `FoodDetailScreen`. -/
def diets : List String := ["Both", "Veg", "Non-Veg"]

/-- The constant `filtered` of `FoodDetailScreen`. -/
def filtered (restaurants : List Recommendation) (selectedTier selectedDiet : String) :
    List Recommendation :=
  restaurants.filter (fun r =>
    let tierMatch := decide (selectedTier = "all") || decide (r.tier = some selectedTier)
    let dietMatch := decide (selectedDiet = "Both") || decide (r.dietary = some selectedDiet) ||
      decide (r.dietary = some "Both")
    tierMatch && dietMatch)

end FoodDetail

namespace ActivitiesDetail

/-- The constant `types` of `ActivitesDetailScreen`: "All" followed by the distinct
`type` values of the attractions in order of first occurrence. -/
def types (attractions : List Recommendation) : List (Option String) :=
  some "All" :: (attractions.map (fun a => a.type)).eraseDups

/-- The constant `filtered` of `ActivitesDetailScreen`. -/
def filtered (attractions : List Recommendation) (selectedType : String) :
    List Recommendation :=
  if selectedType = "All" then attractions
  else attractions.filter (fun a => decide (a.type = some selectedType))

end ActivitiesDetail

/-! ## Favourite toggles -/

/-- The destination a card or detail screen shows: its numeric `id` and its `city`. -/
structure DestinationRef where
  id : Int
  city : String
  deriving DecidableEq, Repr

namespace DestinationDetail

/-- The state hooks of `DestinationDetailScreen` that `handleSave` reads or writes. -/
structure State where
  currentUser : Option User
  isSaved : Bool
  deriving DecidableEq, Repr

/-- What `handleSave` leaves: the next state, the alerts raised, the queries issued. -/
structure SaveOutcome where
  state : State
  alerts : List AlertDialog
  queries : List Query
  deriving DecidableEq, Repr

/-- `handleSave`; `auth` and `reply` are what Supabase answers to the service call. -/
def handleSave (s : State) (destination : DestinationRef) (auth : AuthReply)
    (reply : DbReply) : SaveOutcome :=
  match s.currentUser with
  | none =>
    { state := s, queries := [],
      alerts := [{ title := "Sign In Required", message := "Please sign in to save favourites.",
                   buttons := [{ text := "Cancel", onPress := none },
                               { text := "Sign In",
                                 onPress := some (Action.navigate "Login") }] }] }
  | some _ =>
    if s.isSaved then
      let call := removeFavorite auth (Value.text (toString destination.id)) reply
      match call.result with
      | Except.ok _ =>
        { state := { s with isSaved := false }, queries := call.queries,
          alerts := [{ title := "Removed",
                       message := destination.city ++ " removed from favourites.",
                       buttons := [] }] }
      | Except.error _ =>
        { state := { s with isSaved := !s.isSaved }, queries := call.queries,
          alerts := [{ title := "Error", message := "Could not update favourites.",
                       buttons := [] }] }
    else
      let call := addFavorite auth (Value.text (toString destination.id)) destination.city reply
      match call.result with
      | Except.ok _ =>
        { state := { s with isSaved := true }, queries := call.queries,
          alerts := [{ title := "❤️ Saved!",
                       message := destination.city ++ " added to favourites!",
                       buttons := [] }] }
      | Except.error _ =>
        { state := { s with isSaved := !s.isSaved }, queries := call.queries,
          alerts := [{ title := "Error", message := "Could not update favourites.",
                       buttons := [] }] }

end DestinationDetail

namespace Explore

/-- `Set.prototype.add` on a set of ids kept in insertion order. -/
def setAdd (ids : List String) (id : String) : List String :=
  if id ∈ ids then ids else ids ++ [id]

/-- `Set.prototype.delete` on a set of ids kept in insertion order. -/
def setDelete (ids : List String) (id : String) : List String :=
  ids.filter (fun x => decide (x ≠ id))

/-- The state hooks of `ExploreScreen` that `handleToggleFavorite` reads or writes. -/
structure State where
  currentUser : Option User
  favoriteIds : List String
  deriving DecidableEq, Repr

/-- What `handleToggleFavorite` leaves. -/
structure ToggleOutcome where
  state : State
  alerts : List AlertDialog
  queries : List Query
  deriving DecidableEq, Repr

/-- `handleToggleFavorite (destination)`. -/
def handleToggleFavorite (s : State) (destination : DestinationRef) (auth : AuthReply)
    (reply : DbReply) : ToggleOutcome :=
  match s.currentUser with
  | none =>
    { state := s, queries := [],
      alerts := [{ title := "Sign In Required", message := "Please sign in to save favourites.",
                   buttons := [{ text := "Cancel", onPress := none },
                               { text := "Sign In",
                                 onPress := some (Action.navigate "Profile") }] }] }
  | some _ =>
    let isFav := decide (toString destination.id ∈ s.favoriteIds)
    if isFav then
      let newFavIds := setDelete s.favoriteIds (toString destination.id)
      let call := removeFavorite auth (Value.text (toString destination.id)) reply
      match call.result with
      | Except.ok _ =>
        { state := { s with favoriteIds := newFavIds }, queries := call.queries, alerts := [] }
      | Except.error _ =>
        { state := { s with favoriteIds := s.favoriteIds }, queries := call.queries,
          alerts := [{ title := "Error", message := "Could not update favourites.",
                       buttons := [] }] }
    else
      let newFavIds := setAdd s.favoriteIds (toString destination.id)
      let call := addFavorite auth (Value.text (toString destination.id)) destination.city reply
      match call.result with
      | Except.ok _ =>
        { state := { s with favoriteIds := newFavIds }, queries := call.queries, alerts := [] }
      | Except.error _ =>
        { state := { s with favoriteIds := s.favoriteIds }, queries := call.queries,
          alerts := [{ title := "Error", message := "Could not update favourites.",
                       buttons := [] }] }

end Explore

/-! ## Trip detail screen -/

/-- A JSON value, as `JSON.parse` returns it. -/
inductive Json where
  | null
  | bool (b : Bool)
  | num (n : Int)
  | str (s : String)
  | arr (items : List Json)
  | obj (fields : List (String × Json))

/-- The value of `trip.itinerary`: a string, an already parsed JSON value, or absent. -/
inductive ItineraryValue where
  | text (s : List Char)
  | value (v : Json)
  | undefined

/-- The fields of a `Trips` row that `TripDetailScreen` reads; `none` is an absent or
`null` column. -/
structure Trip where
  destination : String
  days : Int
  budget : Option Int
  num_people : Option Int
  group_type : Option String
  itinerary : ItineraryValue

/-- A call of `navigation.navigate (screen, params)`. -/
structure Navigation where
  screen : String
  params : RouteParams
  deriving DecidableEq, Repr

namespace TripDetail

/-- The variable `days` after the `try` block of `TripDetailScreen`. `parse` is
`JSON.parse` (`none` when it throws) and `stringify` is `JSON.stringify` on a JSON value;
for an absent itinerary `JSON.stringify` gives `undefined` and `raw.indexOf` throws. -/
def days (parse : List Char → Option Json) (stringify : Json → List Char) (trip : Trip) :
    Json :=
  let raw : Option (List Char) :=
    match trip.itinerary with
    | ItineraryValue.text s => some s
    | ItineraryValue.value v => some (stringify v)
    | ItineraryValue.undefined => none
  match raw with
  | none => Json.arr []
  | some raw =>
    let start := indexOf '[' raw
    let stop := lastIndexOf ']' raw
    if start ≠ -1 ∧ stop ≠ -1 then
      match parse (substring raw start (stop + 1)) with
      | some v => v
      | none => Json.arr []
    else Json.arr []

/-- The constant `budget`, `trip.budget || 1000`. -/
def budget (trip : Trip) : Int :=
  match trip.budget with
  | some b => if b ≠ 0 then b else 1000
  | none => 1000

/-- The constant `members`, `trip.num_people || 1`. -/
def members (trip : Trip) : Int :=
  match trip.num_people with
  | some n => if n ≠ 0 then n else 1
  | none => 1

/-- The `screen` fields of `pills`. -/
def pillScreens : List String :=
  ["AccommodationDetail", "FoodDetail", "ActivitiesDetail", "TransportDetail"]

/-- `navigateToDetail (screen)`; `Math.round (budget * 0.25)` is the rounding of
`budget / 4`. -/
def navigateToDetail (trip : Trip) (screen : String) : Navigation :=
  { screen := screen,
    params := { destination := trip.destination, budget := roundDiv (budget trip) 4 1,
                days := trip.days, members := some (members trip) } }

end TripDetail

/-! ## Theme context -/

namespace ThemeContext

/-- An entry of `THEMES`. -/
structure Theme where
  primary : String
  accent : String
  name : String
  deriving DecidableEq, Repr

/-- The own properties of the object literal `THEMES`. -/
def THEMES : List (String × Theme) :=
  [ ("default", { primary := "#6200ee", accent := "#00c853", name := "Classic Purple" }),
    ("warm", { primary := "#e65100", accent := "#ffb300", name := "Warm Sunset" }),
    ("cool", { primary := "#0277bd", accent := "#00bcd4", name := "Cool Ocean" }),
    ("rose", { primary := "#ad1457", accent := "#ff6f91", name := "Rose Gold" }),
    ("forest", { primary := "#2e7d32", accent := "#81c784", name := "Forest Green" }) ]

/-- The property names every object literal inherits from `Object.prototype`: the accessor
`__proto__`, the constructor `Object` and ten methods. Each of them reads as an object or
as a function, hence as a truthy value. -/
def objectPrototypeMembers : List String :=
  ["constructor", "__proto__", "hasOwnProperty", "isPrototypeOf", "propertyIsEnumerable",
   "toLocaleString", "toString", "valueOf", "__defineGetter__", "__defineSetter__",
   "__lookupGetter__", "__lookupSetter__"]

/-- What `THEMES[id]` evaluates to when it is not `undefined`: an own entry, the object
`Object.prototype` (for `__proto__`), or an inherited function. -/
inductive Member where
  | entry (t : Theme)
  | objectPrototype
  | method (name : String)
  deriving DecidableEq, Repr

/-- The property read `THEMES[id]`: an own entry, else an inherited member of
`Object.prototype`, else `undefined` (`none`). -/
def themesGet (id : String) : Option Member :=
  match THEMES.lookup id with
  | some t => some (Member.entry t)
  | none =>
    if id = "__proto__" then some Member.objectPrototype
    else if id ∈ objectPrototypeMembers then some (Member.method id)
    else none

/-- A primitive value that a call of an inherited function can return. -/
inductive Primitive where
  | text (s : String)
  | boolean (b : Bool)
  deriving DecidableEq, Repr

/-- A value of the `theme` hook: an entry of `THEMES` as long as only entries are set; the
other values arise from inherited members. `wrapper p` is the object `Object (p)`. -/
inductive ThemeValue where
  | entry (t : Theme)
  | objectPrototype
  | primitive (p : Primitive)
  | wrapper (p : Primitive)
  deriving DecidableEq, Repr

/-- The call `f (prev)` that React makes for `setTheme (f)` with a function `f`: the
inherited function `name` of `Object.prototype` applied to the previous state, `this` being
undefined. `none` is a thrown `TypeError`.

* `Object (prev)` is `prev` itself for an object and the wrapper object for a primitive.
* `toString` answers "[object Undefined]" for an undefined `this`.
* `isPrototypeOf (prev)` answers `false` for a primitive `prev`, before it reads `this`.
* Every other case reaches `ToObject (this)`, which throws for an undefined `this`. -/
def callUpdater (name : String) (prev : ThemeValue) : Option ThemeValue :=
  if name = "constructor" then
    match prev with
    | ThemeValue.primitive p => some (ThemeValue.wrapper p)
    | v => some v
  else if name = "toString" then
    some (ThemeValue.primitive (Primitive.text "[object Undefined]"))
  else if name = "isPrototypeOf" then
    match prev with
    | ThemeValue.primitive _ => some (ThemeValue.primitive (Primitive.boolean false))
    | _ => none
  else none

/-- The object `{ id: themeId, ...t }` as `JSON.stringify` writes it under the key
`selectedTheme`: the id, and the own enumerable properties of `t`, which are the three
colours of an entry and nothing for `Object.prototype` or a function. -/
structure StoredTheme where
  id : String
  fields : Option Theme
  deriving DecidableEq, Repr

/-- The properties that `...t` spreads into the stored object. -/
def Member.spread : Member → Option Theme
  | Member.entry t => some t
  | Member.objectPrototype => none
  | Member.method _ => none

/-- The state of `ThemeProvider`: the `theme` hook, the stored `selectedTheme`, and
whether a state update threw while the provider rendered, after which React has unmounted
the tree. -/
structure ProviderState where
  theme : ThemeValue
  stored : Option StoredTheme
  unmounted : Bool
  deriving DecidableEq, Repr

/-- The state of a fresh provider: `THEMES.default`, nothing stored. -/
def initial : ProviderState :=
  { theme := ThemeValue.entry
      { primary := "#6200ee", accent := "#00c853", name := "Classic Purple" },
    stored := none,
    unmounted := false }

/-- `setTheme (m)` and the render it schedules. A value that is not a function becomes the
state; a function is an updater, called with the previous state, and its result becomes the
state. An updater that throws makes the render of `ThemeProvider` throw. An unmounted
provider ignores the call. -/
def setTheme (m : Member) (s : ProviderState) : ProviderState :=
  if s.unmounted then s
  else
    match m with
    | Member.entry t => { s with theme := ThemeValue.entry t }
    | Member.objectPrototype => { s with theme := ThemeValue.objectPrototype }
    | Member.method name =>
      match callUpdater name s.theme with
      | some v => { s with theme := v }
      | none => { s with unmounted := true }

/-- `changeTheme (themeId)`. -/
def changeTheme (themeId : String) (s : ProviderState) : ProviderState :=
  match themesGet themeId with
  | some t => { setTheme t s with stored := some { id := themeId, fields := t.spread } }
  | none => s

/-- The effect of `ThemeProvider` that loads the stored theme; `savedId` is `saved.id`
of the parsed stored value, `none` when nothing is stored. -/
def loadStored (savedId : Option String) (s : ProviderState) : ProviderState :=
  match savedId with
  | none => s
  | some id =>
    match themesGet id with
    | some t => setTheme t s
    | none => s

/-- A call of `changeTheme` or a run of the loading effect. -/
inductive Event where
  | changeTheme (themeId : String)
  | load (savedId : Option String)
  deriving DecidableEq, Repr

/-- The id an event looks up in `THEMES`, if it has one. -/
def Event.id : Event → Option String
  | Event.changeTheme themeId => some themeId
  | Event.load savedId => savedId

/-- The provider after one event. -/
def step (s : ProviderState) : Event → ProviderState
  | Event.changeTheme themeId => changeTheme themeId s
  | Event.load savedId => loadStored savedId s

/-- The provider after a sequence of events. -/
def run (events : List Event) (s : ProviderState) : ProviderState :=
  events.foldl step s

/-- A sample sequence: a switch to "warm", a load of the unknown id "neon", a switch to
"neon". -/
def sampleEvents : List Event :=
  [Event.changeTheme "warm", Event.load (some "neon"), Event.changeTheme "neon"]

end ThemeContext

/-! ## The data-fetch script `fetchGPS.js` -/

namespace FetchGPS

/-- A scalar field of a destination or attraction object; a number is the decimal
`mantissa * 10 ^ exponent`. -/
inductive Field where
  | null
  | text (s : String)
  | number (mantissa : Int) (exponent : Int)
  deriving DecidableEq, Repr

/-- An attraction object: its `name` and its other own fields in order. -/
structure Attraction where
  name : String
  fields : List (String × Field)
  deriving DecidableEq, Repr

/-- A destination object: `city`, `country`, its other scalar fields, its attractions. -/
structure Destination where
  city : String
  country : String
  fields : List (String × Field)
  attractions : List Attraction
  deriving DecidableEq, Repr

/-- The coordinates `fetchGPS` resolves with, `parseFloat` already applied. -/
structure Gps where
  latitude : Field
  longitude : Field
  deriving DecidableEq, Repr

/-- What an HTTPS request to Nominatim ends with: a network error, a body `JSON.parse`
throws on, or a body with the coordinates of its matches. -/
inductive HttpOutcome where
  | networkError
  | unparsable
  | body (results : List Gps)
  deriving DecidableEq, Repr

/-- The run of one request and of the timer after it: how long the request took, how it
ended, and by how much the timer of `delay` fired late; times are in milliseconds. -/
structure Exchange where
  latency : Nat
  outcome : HttpOutcome
  lateness : Nat
  deriving DecidableEq, Repr

/-- A request as it was sent: its query text, when it started and when it was answered. -/
structure Sent where
  query : String
  startedAt : Nat
  finishedAt : Nat
  deriving DecidableEq, Repr

/-- `fetchGPS`: the value the promise resolves with; it has no rejecting path. -/
def fetchGPS (outcome : HttpOutcome) : Option Gps :=
  match outcome with
  | HttpOutcome.networkError => none
  | HttpOutcome.unparsable => none
  | HttpOutcome.body [] => none
  | HttpOutcome.body (first :: _) =>
    some { latitude := first.latitude, longitude := first.longitude }

/-- Assignment of a property in an object literal after a spread: an existing key keeps
its place and takes the new value, a new key is added at the end. -/
def setField (key : String) (v : Field) : List (String × Field) → List (String × Field)
  | [] => [(key, v)]
  | (k, old) :: rest =>
    if k = key then (key, v) :: rest else (k, old) :: setField key v rest

/-- The object pushed to `updatedAttractions`. -/
def withGps (attraction : Attraction) (gps : Option Gps) : Attraction :=
  { attraction with
    fields :=
      setField "longitude" (match gps with | some g => g.longitude | none => Field.null)
        (setField "latitude" (match gps with | some g => g.latitude | none => Field.null)
          attraction.fields) }

/-- The inner loop of `addGPSToDestinations` over the attractions of one city, started at
time `clock` with `count` requests sent before: the updated attractions, the requests sent
and the time at which the loop ends. `net` answers the requests in the order they are
sent. -/
def processAttractions (net : Nat → Exchange) (city country : String) :
    List Attraction → Nat → Nat → List Attraction × List Sent × Nat
  | [], clock, _ => ([], [], clock)
  | attraction :: rest, clock, count =>
    let exchange := net count
    let sent : Sent :=
      { query := attraction.name ++ ", " ++ city ++ ", " ++ country,
        startedAt := clock, finishedAt := clock + exchange.latency }
    let gps := fetchGPS exchange.outcome
    let afterDelay := clock + exchange.latency + 1100 + exchange.lateness
    let tail := processAttractions net city country rest afterDelay (count + 1)
    (withGps attraction gps :: tail.1, sent :: tail.2.1, tail.2.2)

/-- The outer loop of `addGPSToDestinations` over the cities to process. -/
def processCities (net : Nat → Exchange) :
    List Destination → Nat → Nat → List Destination × List Sent × Nat
  | [], clock, _ => ([], [], clock)
  | destination :: rest, clock, count =>
    let inner :=
      processAttractions net destination.city destination.country destination.attractions
        clock count
    let tail := processCities net rest inner.2.2 (count + destination.attractions.length)
    ({ destination with attractions := inner.1 } :: tail.1, inner.2.1 ++ tail.2.1, tail.2.2)

/-- What a run of the script leaves: the list written to the output file and the requests
sent. -/
structure Run where
  written : List Destination
  requests : List Sent
  deriving DecidableEq, Repr

/-- `addGPSToDestinations (testMode)` started at time `clock`; `DESTINATIONS` is the
content of the data file the script imports. -/
def addGPSToDestinations (testMode : Bool) (DESTINATIONS : List Destination)
    (net : Nat → Exchange) (clock : Nat) : Run :=
  let citiesToProcess := if testMode then DESTINATIONS.take 2 else DESTINATIONS
  let loop := processCities net citiesToProcess clock 0
  let updatedDestinations :=
    if testMode then loop.1 ++ DESTINATIONS.drop 2 else loop.1
  { written := updatedDestinations, requests := loop.2.1 }

end FetchGPS

/-! ## Itinerary request of the planner -/

/-- The body posted by `getTravelSuggestions` to `/generate-trip`. -/
structure TripRequest where
  destination : List Char
  days : Int
  interests : List (List Char)
  numPeople : Nat
  budget : Int
  deriving DecidableEq, Repr

/-- The params of the navigation to the result screen; the two dates are kept as time
values (`formatDate` is not applied) and `coordinates` and `cityData`, which the planner
state of this file does not hold, are left out. -/
structure ResultParams where
  itinerary : List Char
  destination : List Char
  days : Int
  budget : Int
  startDate : Int
  endDate : Int
  groupType : String
  members : Nat
  deriving DecidableEq, Repr

/-- What `generateItinerary` leaves: the next state, the requests sent, the navigation
made and the alerts raised. -/
structure GenerateOutcome where
  state : PlannerState
  sent : List TripRequest
  navigated : Option ResultParams
  alerts : List AlertDialog
  deriving DecidableEq, Repr

/-- The constant `interestsArray` of `generateItinerary`:
`interests.split (",").map ((i) => i.trim ()).filter ((i) => i)`. -/
def interestsArray (interests : List Char) : List (List Char) :=
  ((interests.splitOn ',').map trim).filter (fun i => decide (i ≠ []))

/-- `generateItinerary (days, budgetUSD)`; `response` is `response.itinerary` of what
`getTravelSuggestions` resolved with, `none` when the call throws. -/
def generateItinerary (s : PlannerState) (days budgetUSD : Int)
    (response : Option (List Char)) : GenerateOutcome :=
  let request : TripRequest :=
    { destination := s.destination, days := days, interests := interestsArray s.interests,
      numPeople := s.members, budget := budgetUSD }
  match response with
  | some itinerary =>
    { state := { s with loading := false }, sent := [request], alerts := [],
      navigated := some
        { itinerary := itinerary, destination := s.destination, days := days,
          budget := budgetUSD, startDate := s.startDate, endDate := s.endDate,
          groupType := s.groupType, members := s.members } }
  | none =>
    { state := { s with loading := false }, sent := [request], navigated := none,
      alerts := [{ title := "Error",
                   message := "Failed to generate itinerary. Check if backend is running.",
                   buttons := [] }] }

/-! # Theorems -/

/-! ## Binary64 arithmetic -/

theorem bitLengthAux_spec (fuel n : Nat) (h : n ≤ fuel) :
    n < 2 ^ bitLengthAux fuel n ∧ (n ≠ 0 → 2 ^ (bitLengthAux fuel n - 1) ≤ n) := by
  induction fuel generalizing n with
  | zero =>
    have : n = 0 := by omega
    subst this
    simp [bitLengthAux]
  | succ f ih =>
    unfold bitLengthAux
    by_cases h0 : n = 0
    · subst h0
      simp
    · rw [if_neg h0]
      obtain ⟨h1, h2⟩ := ih (n / 2) (by omega)
      refine ⟨?_, fun _ => ?_⟩
      · rw [pow_succ]
        omega
      · simp only [Nat.add_sub_cancel]
        by_cases h3 : n / 2 = 0
        · rw [h3]
          cases f with
          | zero => simp [bitLengthAux]; omega
          | succ g => simp [bitLengthAux]; omega
        · have h4 := h2 h3
          have h5 : 0 < bitLengthAux f (n / 2) := by
            by_contra hc
            have : bitLengthAux f (n / 2) = 0 := by omega
            rw [this] at h1
            omega
          have h6 : 2 ^ bitLengthAux f (n / 2) = 2 ^ (bitLengthAux f (n / 2) - 1) * 2 := by
            rw [← pow_succ]
            congr 1
            omega
          omega

theorem bitLength_spec (n : Nat) (h : n ≠ 0) :
    2 ^ (bitLength n - 1) ≤ n ∧ n < 2 ^ bitLength n ∧ 0 < bitLength n := by
  obtain ⟨h1, h2⟩ := bitLengthAux_spec n n le_rfl
  refine ⟨h2 h, h1, ?_⟩
  by_contra hc
  have : bitLength n = 0 := by omega
  unfold bitLength at this
  rw [this] at h1
  omega

theorem bitLength_zpow (n : Nat) (h : n ≠ 0) :
    (2 : ℚ) ^ ((bitLength n : Int) - 1) ≤ (n : ℚ) ∧ (n : ℚ) < (2 : ℚ) ^ (bitLength n : Int) := by
  obtain ⟨h1, h2, h3⟩ := bitLength_spec n h
  constructor
  · have e : ((bitLength n : Int) - 1) = ((bitLength n - 1 : Nat) : Int) := by omega
    rw [e, zpow_natCast]
    exact_mod_cast h1
  · rw [zpow_natCast]
    exact_mod_cast h2

theorem shiftLeft_cast (a k : Nat) : ((a <<< k : Nat) : ℚ) = (a : ℚ) * (2 : ℚ) ^ (k : Int) := by
  rw [Nat.shiftLeft_eq, zpow_natCast]
  push_cast
  rfl

theorem binade_spec (a b : Nat) (ha : 0 < a) (hb : 0 < b) :
    (2 : ℚ) ^ (binade a b) ≤ (a : ℚ) / b ∧ (a : ℚ) / b < (2 : ℚ) ^ (binade a b + 1) := by
  obtain ⟨a1, a2⟩ := bitLength_zpow a ha.ne'
  obtain ⟨b1, b2⟩ := bitLength_zpow b hb.ne'
  have hbq : (0 : ℚ) < b := by exact_mod_cast hb
  have haq : (0 : ℚ) < a := by exact_mod_cast ha
  have two : (0 : ℚ) < 2 := by norm_num
  set l : Int := (bitLength a : Int) - (bitLength b : Int) with hl
  -- 2^(l-1) < a/b < 2^(l+1)
  have up : (a : ℚ) / b < (2 : ℚ) ^ (l + 1) := by
    rw [div_lt_iff₀ hbq]
    have e : (2 : ℚ) ^ (l + 1) = (2 : ℚ) ^ (bitLength a : Int) / (2 : ℚ) ^ ((bitLength b : Int) - 1) := by
      rw [← zpow_sub₀ two.ne']
      congr 1
      omega
    rw [e, div_mul_eq_mul_div, lt_div_iff₀ (zpow_pos two _)]
    calc (a : ℚ) * (2 : ℚ) ^ ((bitLength b : Int) - 1) ≤ (a : ℚ) * b :=
          mul_le_mul_of_nonneg_left b1 haq.le
      _ < (2 : ℚ) ^ (bitLength a : Int) * b := mul_lt_mul_of_pos_right a2 hbq
  have low : (2 : ℚ) ^ (l - 1) ≤ (a : ℚ) / b := by
    rw [le_div_iff₀ hbq]
    have e : (2 : ℚ) ^ (l - 1) = (2 : ℚ) ^ ((bitLength a : Int) - 1) / (2 : ℚ) ^ (bitLength b : Int) := by
      rw [← zpow_sub₀ two.ne']
      congr 1
      omega
    rw [e, div_mul_eq_mul_div, div_le_iff₀ (zpow_pos two _)]
    calc (2 : ℚ) ^ ((bitLength a : Int) - 1) * b ≤ (a : ℚ) * b :=
          mul_le_mul_of_nonneg_right a1 hbq.le
      _ ≤ (a : ℚ) * (2 : ℚ) ^ (bitLength b : Int) := mul_le_mul_of_nonneg_left b2.le haq.le
  have test : ∀ c : Prop, (c ↔ (2 : ℚ) ^ l ≤ (a : ℚ) / b) → [Decidable c] →
      (2 : ℚ) ^ (if c then l else l - 1) ≤ (a : ℚ) / b ∧
        (a : ℚ) / b < (2 : ℚ) ^ ((if c then l else l - 1) + 1) := by
    intro c hc _
    by_cases h : c
    · rw [if_pos h]
      exact ⟨hc.mp h, up⟩
    · rw [if_neg h]
      refine ⟨low, ?_⟩
      rw [sub_add_cancel]
      exact not_le.mp (fun h2 => h (hc.mpr h2))
  unfold binade
  simp only [← hl]
  by_cases h0 : 0 ≤ l
  · rw [if_pos h0]
    apply test
    rw [le_div_iff₀ hbq, ← Nat.cast_le (α := ℚ), shiftLeft_cast, Int.toNat_of_nonneg h0, mul_comm]
  · rw [if_neg h0]
    apply test
    rw [le_div_iff₀ hbq, ← Nat.cast_le (α := ℚ), shiftLeft_cast,
      Int.toNat_of_nonneg (by omega : 0 ≤ -l), zpow_neg]
    rw [← div_eq_mul_inv, le_div_iff₀ (zpow_pos two _), mul_comm]

theorem binade_unique (x : ℚ) (l m : Int) (h1 : (2 : ℚ) ^ l ≤ x) (h2 : x < (2 : ℚ) ^ (l + 1))
    (h3 : (2 : ℚ) ^ m ≤ x) (h4 : x < (2 : ℚ) ^ (m + 1)) : l = m := by
  have two : (1 : ℚ) < 2 := by norm_num
  have a : l < m + 1 := (zpow_lt_zpow_iff_right₀ two).mp (lt_of_le_of_lt h1 h4)
  have b : m < l + 1 := (zpow_lt_zpow_iff_right₀ two).mp (lt_of_le_of_lt h3 h2)
  omega

theorem binade_scale (a b k : Nat) (ha : 0 < a) (hb : 0 < b) (hk : 0 < k) :
    binade (a * k) (b * k) = binade a b := by
  obtain ⟨h1, h2⟩ := binade_spec (a * k) (b * k) (Nat.mul_pos ha hk) (Nat.mul_pos hb hk)
  obtain ⟨h3, h4⟩ := binade_spec a b ha hb
  have hkq : (k : ℚ) ≠ 0 := by exact_mod_cast hk.ne'
  have e : ((a * k : Nat) : ℚ) / ((b * k : Nat) : ℚ) = (a : ℚ) / b := by
    push_cast
    rw [mul_div_mul_right _ _ hkq]
  rw [e] at h1 h2
  exact binade_unique _ _ _ h1 h2 h3 h4


theorem roundHalfEven_floor (a b : Nat) :
    a / b ≤ roundHalfEven a b ∧ roundHalfEven a b ≤ a / b + 1 := by
  unfold roundHalfEven
  split_ifs <;> omega

theorem roundHalfEven_exact (a b : Nat) (hb : 0 < b) (h : a % b = 0) :
    roundHalfEven a b = a / b := by
  unfold roundHalfEven
  rw [h, if_pos (by omega)]

theorem roundHalfEven_scale (a b k : Nat) (hk : 0 < k) :
    roundHalfEven (a * k) (b * k) = roundHalfEven a b := by
  unfold roundHalfEven
  rw [Nat.mul_div_mul_right _ _ hk, Nat.mul_mod_mul_right]
  have e1 : 2 * (a % b * k) < b * k ↔ 2 * (a % b) < b := by
    rw [← Nat.mul_assoc]
    exact Nat.mul_lt_mul_right hk
  have e2 : b * k < 2 * (a % b * k) ↔ b < 2 * (a % b) := by
    rw [← Nat.mul_assoc]
    exact Nat.mul_lt_mul_right hk
  simp only [e1, e2]

theorem roundHalfEven_nearest (a b : Nat) (hb : 0 < b) :
    2 * (roundHalfEven a b * b) ≤ 2 * a + b ∧ 2 * a ≤ 2 * (roundHalfEven a b * b) + b := by
  have hdm : a / b * b + a % b = a := by
    rw [Nat.mul_comm]
    exact Nat.div_add_mod a b
  have hlt : a % b < b := Nat.mod_lt _ hb
  unfold roundHalfEven
  split_ifs with h1 h2 h3 <;> (try simp only [Nat.add_mul, Nat.one_mul]) <;>
    generalize a / b * b = p at hdm ⊢ <;> omega

theorem roundToBinary64_scale (a b k : Nat) (hb : 0 < b) (hk : 0 < k) :
    roundToBinary64 (a * k) (b * k) = roundToBinary64 a b := by
  unfold roundToBinary64
  by_cases ha : a = 0
  · subst ha
    simp
  · have ha' : 0 < a := Nat.pos_of_ne_zero ha
    rw [if_neg ha, if_neg (Nat.mul_ne_zero ha hk.ne'), binade_scale a b k ha' hb hk]
    simp only []
    split_ifs with he
    · congr 1
      rw [Nat.shiftLeft_eq, Nat.shiftLeft_eq, Nat.mul_right_comm]
      exact roundHalfEven_scale _ _ _ hk
    · congr 1
      rw [Nat.shiftLeft_eq, Nat.shiftLeft_eq, Nat.mul_right_comm]
      exact roundHalfEven_scale _ _ _ hk


theorem binade_of_bounds (a : Nat) (l : Nat) (h1 : 2 ^ l ≤ a) (h2 : a < 2 ^ (l + 1)) :
    binade a 1 = (l : Int) := by
  have ha : 0 < a := lt_of_lt_of_le (Nat.two_pow_pos _) h1
  obtain ⟨s1, s2⟩ := binade_spec a 1 ha one_pos
  simp only [Nat.cast_one, div_one] at s1 s2
  refine binade_unique (a : ℚ) _ _ s1 s2 ?_ ?_
  · rw [zpow_natCast]
    exact_mod_cast h1
  · have : ((l : Int) + 1) = ((l + 1 : Nat) : Int) := by push_cast; rfl
    rw [this, zpow_natCast]
    exact_mod_cast h2

theorem roundToBinary64_fixed (q s : Nat) (h1 : 2 ^ 52 ≤ q) (h2 : q < 2 ^ 53) :
    roundToBinary64 (q * 2 ^ s) 1 = { mantissa := q, exponent := (s : Int) } := by
  have hb : binade (q * 2 ^ s) 1 = ((52 + s : Nat) : Int) := by
    apply binade_of_bounds
    · rw [pow_add]
      exact Nat.mul_le_mul_right _ h1
    · rw [show 52 + s + 1 = 53 + s by omega, pow_add]
      exact Nat.mul_lt_mul_of_pos_right h2 (Nat.two_pow_pos _)
  have hq : 0 < q := lt_of_lt_of_le (by norm_num) h1
  have hne : q * 2 ^ s ≠ 0 := Nat.mul_ne_zero hq.ne' (Nat.two_pow_pos _).ne'
  unfold roundToBinary64
  rw [if_neg hne, hb]
  have he : max (((52 + s : Nat) : Int) - 52) (-1074) = (s : Int) := by
    push_cast
    omega
  simp only [he]
  rw [if_pos (by omega), Int.toNat_ofNat, Nat.shiftLeft_eq, Nat.one_mul,
    roundHalfEven_exact _ _ (Nat.two_pow_pos _) (Nat.mul_mod_left _ _),
    Nat.mul_div_cancel _ (Nat.two_pow_pos _)]


theorem infinity_eq : infinity = ((2 ^ 1024 : Nat) : Int) := by
  exact congrArg Nat.cast (Nat.one_shiftLeft 1024)

theorem mathRound_nonneg_exponent (neg : Bool) (q s : Nat) :
    mathRound neg { mantissa := q, exponent := (s : Int) }
      = clampInfinity ((if neg then -(q : Int) else (q : Int)) * ((2 ^ s : Nat) : Int)) := by
  unfold mathRound
  simp only [Int.natCast_nonneg, if_true, Int.toNat_ofNat, Nat.one_shiftLeft]

theorem mathRound_fixed (neg : Bool) (q s : Nat) (h1 : 2 ^ 52 ≤ q) (h2 : q < 2 ^ 53) :
    mathRound neg (roundToBinary64 (q * 2 ^ s) 1)
      = clampInfinity ((if neg then -(q : Int) else (q : Int)) * ((2 ^ s : Nat) : Int)) := by
  rw [roundToBinary64_fixed q s h1 h2, mathRound_nonneg_exponent]

theorem toNumber_infinity : toNumber infinity = infinity := by
  have e : infinity.natAbs = 2 ^ 52 * 2 ^ 972 := by
    rw [infinity_eq, Int.natAbs_ofNat, ← pow_add]
  unfold toNumber
  rw [e, mathRound_fixed _ _ _ le_rfl (by norm_num)]
  have hneg : decide (infinity < 0) = false := by
    rw [decide_eq_false_iff_not, infinity_eq]
    exact not_lt.mpr (Int.natCast_nonneg _)
  rw [hneg]
  have e2 : ((2 ^ 52 : Nat) : Int) * ((2 ^ 972 : Nat) : Int) = infinity := by
    rw [infinity_eq, ← Nat.cast_mul, ← pow_add]
  simp only [Bool.false_eq_true, if_false, e2]
  unfold clampInfinity
  rw [if_pos le_rfl]

theorem toNumber_neg_infinity : toNumber (-infinity) = -infinity := by
  have hpos : 0 < infinity := by
    rw [infinity_eq]
    exact Int.natCast_pos.mpr (Nat.two_pow_pos 1024)
  have e : (-infinity).natAbs = 2 ^ 52 * 2 ^ 972 := by
    rw [Int.natAbs_neg, infinity_eq, Int.natAbs_ofNat, ← pow_add]
  unfold toNumber
  rw [e, mathRound_fixed _ _ _ le_rfl (by norm_num)]
  have hneg : decide (-infinity < 0) = true := by
    rw [decide_eq_true_iff]
    omega
  rw [hneg]
  have e2 : -((2 ^ 52 : Nat) : Int) * ((2 ^ 972 : Nat) : Int) = -infinity := by
    rw [infinity_eq, neg_mul, ← Nat.cast_mul, ← pow_add]
  simp only [if_true, e2]
  unfold clampInfinity
  rw [if_neg (by omega), if_pos le_rfl]


theorem infinity_pos : 0 < infinity := by
  rw [infinity_eq]
  exact Int.natCast_pos.mpr (Nat.two_pow_pos 1024)

theorem two_pow_53_lt_infinity : ((2 ^ 53 : Nat) : Int) < infinity := by
  rw [infinity_eq]
  exact Int.ofNat_lt.mpr (Nat.pow_lt_pow_right (by norm_num) (by norm_num))

theorem toNumber_small (n : Int) (h : n.natAbs < 2 ^ 53) : toNumber n = n := by
  by_cases h0 : n = 0
  · subst h0
    decide
  have ha : 0 < n.natAbs := Int.natAbs_pos.mpr h0
  obtain ⟨b1, b2, b3⟩ := bitLength_spec n.natAbs ha.ne'
  have hbl : bitLength n.natAbs ≤ 53 := by
    by_contra hc
    have : 2 ^ 53 ≤ 2 ^ (bitLength n.natAbs - 1) :=
      Nat.pow_le_pow_right (by norm_num) (by omega)
    exact absurd (lt_of_lt_of_le h (le_trans this b1)) (lt_irrefl _)
  have hb : binade n.natAbs 1 = ((bitLength n.natAbs - 1 : Nat) : Int) := by
    apply binade_of_bounds _ _ b1
    rw [show bitLength n.natAbs - 1 + 1 = bitLength n.natAbs by omega]
    exact b2
  have hl52 : bitLength n.natAbs - 1 ≤ 52 := by omega
  unfold toNumber roundToBinary64
  rw [if_neg ha.ne', hb]
  generalize bitLength n.natAbs - 1 = l at hb hl52 b1 ⊢
  have hl : l ≤ 52 := hl52
  have he : max ((l : Int) - 52) (-1074) = (l : Int) - 52 := by omega
  simp only [he]
  by_cases h52 : l = 52
  · subst h52
    simp only [Nat.cast_ofNat, sub_self, le_refl, if_true, Int.toNat_zero, Nat.shiftLeft_zero]
    rw [roundHalfEven_exact _ _ one_pos (Nat.mod_one _), Nat.div_one]
    have hm := mathRound_nonneg_exponent (decide (n < 0)) n.natAbs 0
    simp only [Nat.cast_zero, pow_zero, Nat.cast_one, mul_one] at hm
    rw [hm]
    have hlt := two_pow_53_lt_infinity
    have hcast : (n.natAbs : Int) < ((2 ^ 53 : Nat) : Int) := Int.ofNat_lt.mpr h
    unfold clampInfinity
    by_cases hn : n < 0
    · simp only [hn, decide_True, if_true]
      rw [if_neg (by omega), if_neg (by omega)]
      omega
    · simp only [hn, decide_False, Bool.false_eq_true, if_false]
      rw [if_neg (by omega), if_neg (by omega)]
      omega
  · have hneg : ¬ (0 ≤ (l : Int) - 52) := by omega
    rw [if_neg hneg]
    have hk : (-((l : Int) - 52)).toNat = 52 - l := by omega
    rw [roundHalfEven_exact _ _ one_pos (Nat.mod_one _), Nat.div_one]
    unfold mathRound
    simp only [if_neg hneg, hk]
    obtain ⟨k, hk2⟩ : ∃ k, 52 - l = k + 1 := ⟨52 - l - 1, by omega⟩
    rw [hk2, Nat.add_sub_cancel, Nat.shiftLeft_eq, Nat.one_shiftLeft, Nat.one_shiftLeft]
    have hpow : ((2 ^ (k + 1) : Nat) : Int) = 2 * ((2 ^ k : Nat) : Int) := by
      rw [pow_succ]
      push_cast
      ring
    have hkpos : (0 : Int) < ((2 ^ k : Nat) : Int) := Int.natCast_pos.mpr (Nat.two_pow_pos k)
    have hval : ∀ m : Int, (m * (2 * ((2 ^ k : Nat) : Int)) + ((2 ^ k : Nat) : Int))
        / (2 * ((2 ^ k : Nat) : Int)) = m := by
      intro m
      rw [add_comm, Int.add_mul_ediv_right _ _ (by omega)]
      rw [Int.ediv_eq_zero_of_lt hkpos.le (by omega)]
      ring
    by_cases hn : n < 0
    · simp only [hn, decide_True, if_true]
      rw [Nat.cast_mul, hpow, ← neg_mul, hval]
      omega
    · simp only [hn, decide_False, Bool.false_eq_true, if_false]
      rw [Nat.cast_mul, hpow, hval]
      omega


theorem toNumber_big (n : Int) (h : 2 ^ 53 ≤ n.natAbs) :
    ∃ q e : Nat, 2 ^ 52 ≤ q ∧ q ≤ 2 ^ 53 ∧
      toNumber n = clampInfinity ((if n < 0 then -(q : Int) else (q : Int)) * ((2 ^ e : Nat) : Int)) := by
  have ha : 0 < n.natAbs := lt_of_lt_of_le (Nat.two_pow_pos 53) h
  obtain ⟨b1, b2, b3⟩ := bitLength_spec n.natAbs ha.ne'
  have hbl : 54 ≤ bitLength n.natAbs := by
    by_contra hc
    have : 2 ^ bitLength n.natAbs ≤ 2 ^ 53 := Nat.pow_le_pow_right (by norm_num) (by omega)
    exact absurd (lt_of_lt_of_le b2 (le_trans this h)) (lt_irrefl _)
  obtain ⟨e, he⟩ : ∃ e, bitLength n.natAbs = 53 + e := ⟨bitLength n.natAbs - 53, by omega⟩
  have hb : binade n.natAbs 1 = ((52 + e : Nat) : Int) := by
    apply binade_of_bounds
    · rw [show 52 + e = bitLength n.natAbs - 1 by omega]
      exact b1
    · rw [show 52 + e + 1 = bitLength n.natAbs by omega]
      exact b2
  have hlow : 2 ^ 52 * 2 ^ e ≤ n.natAbs := by
    rw [← pow_add, show 52 + e = bitLength n.natAbs - 1 by omega]
    exact b1
  have hup : n.natAbs < 2 ^ 53 * 2 ^ e := by
    rw [← pow_add, ← he]
    exact b2
  have hpe : 0 < 2 ^ e := Nat.two_pow_pos e
  obtain ⟨f1, f2⟩ := roundHalfEven_floor n.natAbs (2 ^ e)
  have g1 : 2 ^ 52 ≤ n.natAbs / 2 ^ e := (Nat.le_div_iff_mul_le hpe).mpr hlow
  have g2 : n.natAbs / 2 ^ e < 2 ^ 53 := (Nat.div_lt_iff_lt_mul hpe).mpr hup
  refine ⟨roundHalfEven n.natAbs (2 ^ e), e, le_trans g1 f1, by omega, ?_⟩
  unfold toNumber roundToBinary64
  rw [if_neg ha.ne', hb]
  have hmax : max (((52 + e : Nat) : Int) - 52) (-1074) = (e : Int) := by
    push_cast
    omega
  simp only [hmax]
  rw [if_pos (Int.natCast_nonneg e), Int.toNat_ofNat, Nat.one_shiftLeft,
    mathRound_nonneg_exponent]
  by_cases hn : n < 0 <;> simp [hn]

theorem clampInfinity_range (v : Int) :
    -infinity ≤ clampInfinity v ∧ clampInfinity v ≤ infinity := by
  have := infinity_pos
  unfold clampInfinity
  split_ifs <;> omega

theorem toNumber_range (n : Int) : -infinity ≤ toNumber n ∧ toNumber n ≤ infinity := by
  by_cases h : n.natAbs < 2 ^ 53
  · rw [toNumber_small n h]
    have h1 := two_pow_53_lt_infinity
    have h2 : (n.natAbs : Int) < ((2 ^ 53 : Nat) : Int) := Int.ofNat_lt.mpr h
    omega
  · obtain ⟨q, e, _, _, hq⟩ := toNumber_big n (not_lt.mp h)
    rw [hq]
    exact clampInfinity_range _

theorem toNumber_idempotent (n : Int) : toNumber (toNumber n) = toNumber n := by
  by_cases h : n.natAbs < 2 ^ 53
  · rw [toNumber_small n h, toNumber_small n h]
  · obtain ⟨q, e, q1, q2, hq⟩ := toNumber_big n (not_lt.mp h)
    rw [hq]
    have hinf := infinity_pos
    have hqpos : 0 < q := lt_of_lt_of_le (Nat.two_pow_pos 52) q1
    have hprod : (0 : Int) < (q : Int) * ((2 ^ e : Nat) : Int) :=
      Int.mul_pos (Int.natCast_pos.mpr hqpos) (Int.natCast_pos.mpr (Nat.two_pow_pos e))
    generalize hv : (if n < 0 then -(q : Int) else (q : Int)) * ((2 ^ e : Nat) : Int) = v
    unfold clampInfinity
    split_ifs with c1 c2
    · exact toNumber_infinity
    · exact toNumber_neg_infinity
    · have habs : v.natAbs = q * 2 ^ e := by
        rw [← hv]
        by_cases hn : n < 0
        · rw [if_pos hn, neg_mul, Int.natAbs_neg, ← Nat.cast_mul, Int.natAbs_ofNat]
        · rw [if_neg hn, ← Nat.cast_mul, Int.natAbs_ofNat]
      have hsign : decide (v < 0) = decide (n < 0) := by
        by_cases hn : n < 0
        · rw [if_pos hn, neg_mul] at hv
          have : v < 0 := by omega
          simp [hn, this]
        · rw [if_neg hn] at hv
          have : ¬ v < 0 := by omega
          simp [hn, this]
      have hclamp : clampInfinity v = v := by
        unfold clampInfinity
        rw [if_neg c1, if_neg c2]
      have key : toNumber v = clampInfinity v := by
        unfold toNumber
        rw [habs, hsign]
        by_cases hq53 : q < 2 ^ 53
        · rw [mathRound_fixed _ q e q1 hq53, ← hv]
          by_cases hn : n < 0 <;> simp [hn]
        · have hq' : q = 2 ^ 53 := by omega
          have e1 : q * 2 ^ e = 2 ^ 52 * 2 ^ (e + 1) := by
            rw [hq', pow_succ 2 e, ← Nat.mul_assoc, Nat.mul_right_comm]
            norm_num
          rw [e1, mathRound_fixed _ (2 ^ 52) (e + 1) le_rfl (by norm_num), ← hv, hq']
          have e2 : ((2 ^ (e + 1) : Nat) : Int) = 2 * ((2 ^ e : Nat) : Int) := by
            rw [pow_succ]
            push_cast
            ring
          by_cases hn : n < 0
          · simp only [hn, decide_True, if_true, e2]
            congr 1
            push_cast
            ring
          · simp only [hn, decide_False, Bool.false_eq_true, if_false, e2]
            congr 1
            push_cast
            ring
      rw [key, hclamp]


theorem parseInt_isNumber (s : List Char) (raw : Int) (h : parseInt s = some raw) :
    ∃ n : Int, raw = toNumber n := by
  unfold parseInt at h
  simp only [] at h
  split_ifs at h
  exact ⟨_, (Option.some.inj h).symm⟩

theorem roundedQuotient_one (a : Int) (h1 : -infinity < a) (h2 : a < infinity) :
    roundedQuotient a { mantissa := 2 ^ 52, exponent := -52 } = toNumber a := by
  unfold roundedQuotient
  rw [if_neg (by omega), if_neg (by omega)]
  simp only [show ¬ (0 : Int) ≤ -52 by decide, if_false, show (-(-52 : Int)).toNat = 52 by decide,
    Nat.shiftLeft_eq]
  have := roundToBinary64_scale a.natAbs 1 (2 ^ 52) one_pos (Nat.two_pow_pos 52)
  rw [Nat.one_mul] at this
  rw [this]
  rfl

theorem roundedQuotient_one_number (n : Int) :
    roundedQuotient (toNumber n) { mantissa := 2 ^ 52, exponent := -52 } = toNumber n := by
  obtain ⟨r1, r2⟩ := toNumber_range n
  have hinf := infinity_pos
  by_cases h1 : infinity ≤ toNumber n
  · have e : toNumber n = infinity := le_antisymm r2 h1
    rw [e]
    unfold roundedQuotient
    rw [if_pos le_rfl]
  · by_cases h2 : toNumber n ≤ -infinity
    · have e : toNumber n = -infinity := le_antisymm h2 r1
      rw [e]
      unfold roundedQuotient
      rw [if_neg (by omega), if_pos le_rfl]
    · rw [roundedQuotient_one _ (by omega) (by omega), toNumber_idempotent]

theorem mathRound_nonneg (d : Binary64) : 0 ≤ mathRound false d := by
  have hinf := infinity_pos
  unfold mathRound
  simp only [Bool.false_eq_true, if_false]
  split_ifs with h
  · unfold clampInfinity
    have : (0 : Int) ≤ (d.mantissa : Int) * ((1 <<< d.exponent.toNat : Nat) : Int) :=
      Int.mul_nonneg (Int.natCast_nonneg _) (Int.natCast_nonneg _)
    split_ifs <;> omega
  · apply Int.ediv_nonneg
    · have := Int.natCast_nonneg (1 <<< ((-d.exponent).toNat - 1))
      have := Int.natCast_nonneg d.mantissa
      omega
    · exact Int.natCast_nonneg _

theorem roundedQuotient_nonneg (a : Int) (r : Binary64) (h : 0 ≤ a) :
    0 ≤ roundedQuotient a r := by
  have hinf := infinity_pos
  have hneg : decide (a < 0) = false := by
    rw [decide_eq_false_iff_not]
    omega
  unfold roundedQuotient
  rw [hneg]
  split_ifs
  · omega
  · omega
  · exact mathRound_nonneg _
  · exact mathRound_nonneg _


theorem mathRound_pos (num den : Nat) (hden : 0 < den) (h : den ≤ 2 * num) :
    1 ≤ mathRound false (roundToBinary64 num den) := by
  have hnum : 0 < num := by omega
  have hinf := infinity_pos
  unfold roundToBinary64
  rw [if_neg hnum.ne']
  simp only []
  split_ifs with he
  · -- the quotient is at least 2 ^ 52
    obtain ⟨s1, _⟩ := binade_spec num den hnum hden
    have hL : max (binade num den - 52) (-1074) = binade num den - 52 := by omega
    rw [hL] at he ⊢
    have hdq : (0 : ℚ) < den := by exact_mod_cast hden
    have hle : den * 2 ^ (binade num den - 52).toNat ≤ num := by
      have h1 : (2 : ℚ) ^ (((binade num den - 52).toNat : Nat) : Int) ≤ (2 : ℚ) ^ (binade num den) := by
        apply zpow_le_zpow_right₀ (by norm_num)
        omega
      have h2 : ((2 : ℚ) ^ (((binade num den - 52).toNat : Nat) : Int)) * den ≤ num := by
        rw [← le_div_iff₀ hdq]
        exact le_trans h1 s1
      rw [zpow_natCast] at h2
      have h3 : ((den * 2 ^ (binade num den - 52).toNat : Nat) : ℚ) ≤ (num : ℚ) := by
        push_cast
        linarith
      exact_mod_cast h3
    have hq : 1 ≤ roundHalfEven num (den <<< (binade num den - 52).toNat) := by
      refine le_trans ?_ (roundHalfEven_floor _ _).1
      rw [Nat.shiftLeft_eq]
      exact (Nat.le_div_iff_mul_le (Nat.mul_pos hden (Nat.two_pow_pos _))).mpr (by omega)
    unfold mathRound
    simp only [Bool.false_eq_true, if_false, if_pos he]
    have hp : (1 : Int) ≤ ((1 <<< (binade num den - 52).toNat : Nat) : Int) := by
      rw [Nat.one_shiftLeft]
      exact_mod_cast Nat.two_pow_pos _
    have hq' : (1 : Int) ≤ (roundHalfEven num (den <<< (binade num den - 52).toNat) : Int) := by
      exact_mod_cast hq
    have hv : (1 : Int) ≤ (roundHalfEven num (den <<< (binade num den - 52).toNat) : Int)
        * ((1 <<< (binade num den - 52).toNat : Nat) : Int) := by nlinarith
    unfold clampInfinity
    split_ifs <;> omega
  · generalize max (binade num den - 52) (-1074) = e at he ⊢
    obtain ⟨k, hk⟩ : ∃ k, (-e).toNat = k + 1 := ⟨(-e).toNat - 1, by omega⟩
    have hq : 2 ^ k ≤ roundHalfEven (num <<< (k + 1)) den := by
      refine le_trans ?_ (roundHalfEven_floor _ _).1
      rw [Nat.shiftLeft_eq, Nat.le_div_iff_mul_le hden, pow_succ]
      nlinarith [Nat.two_pow_pos k]
    unfold mathRound
    simp only [Bool.false_eq_true, if_false, if_neg he, hk, Nat.add_sub_cancel,
      Nat.one_shiftLeft]
    rw [Int.le_ediv_iff_mul_le (by exact_mod_cast Nat.two_pow_pos (k + 1))]
    have : ((2 ^ (k + 1) : Nat) : Int) = 2 * ((2 ^ k : Nat) : Int) := by
      rw [pow_succ]
      push_cast
      ring
    rw [this]
    have hq' : ((2 ^ k : Nat) : Int) ≤ (roundHalfEven (num <<< (k + 1)) den : Int) := by
      exact_mod_cast hq
    omega

theorem roundHalfEven_mono (a c b : Nat) (h : a ≤ c) :
    roundHalfEven a b ≤ roundHalfEven c b := by
  have hq : a / b ≤ c / b := Nat.div_le_div_right h
  rcases Nat.lt_or_ge (a / b) (c / b) with hlt | hge
  · exact le_trans (roundHalfEven_floor a b).2 (le_trans hlt (roundHalfEven_floor c b).1)
  · have heq : a / b = c / b := le_antisymm hq hge
    have h1 := Nat.div_add_mod a b
    have h2 := Nat.div_add_mod c b
    rw [heq] at h1
    unfold roundHalfEven
    rw [heq]
    generalize b * (c / b) = p at h1 h2
    generalize a % b = r at h1 ⊢
    generalize c % b = t at h2 ⊢
    generalize c / b = q
    split_ifs <;> omega

theorem roundHalfEven_le (a b c : Nat) (hb : 0 < b) (h : a ≤ c * b) :
    roundHalfEven a b ≤ c := by
  have h1 := roundHalfEven_mono a (c * b) b h
  rw [roundHalfEven_exact (c * b) b hb (Nat.mul_mod_left c b), Nat.mul_div_cancel c hb] at h1
  exact h1

theorem roundHalfEven_ge (a b c : Nat) (hb : 0 < b) (h : c * b ≤ a) :
    c ≤ roundHalfEven a b :=
  le_trans ((Nat.le_div_iff_mul_le hb).mpr h) (roundHalfEven_floor a b).1

theorem roundToBinary64_nearest (a b : Nat) (ha : 0 < a) (hb : 0 < b) :
    (roundToBinary64 a b).exponent = max (binade a b - 52) (-1074) ∧
    2 * (roundToBinary64 a b).value
      ≤ 2 * ((a : ℚ) / b) + (2 : ℚ) ^ (roundToBinary64 a b).exponent ∧
    2 * ((a : ℚ) / b)
      ≤ 2 * (roundToBinary64 a b).value + (2 : ℚ) ^ (roundToBinary64 a b).exponent := by
  have hbq : (0 : ℚ) < b := by exact_mod_cast hb
  unfold roundToBinary64
  rw [if_neg ha.ne']
  simp only []
  generalize max (binade a b - 52) (-1074) = e
  split_ifs with he
  · obtain ⟨k, rfl⟩ := Int.eq_ofNat_of_zero_le he
    simp only [Int.toNat_ofNat, Binary64.value, zpow_natCast]
    have hpos : 0 < b <<< k := by rw [Nat.shiftLeft_eq]; positivity
    obtain ⟨n1, n2⟩ := roundHalfEven_nearest a (b <<< k) hpos
    generalize roundHalfEven a (b <<< k) = q at n1 n2
    rw [Nat.shiftLeft_eq] at n1 n2
    have hp : (0 : ℚ) < 2 ^ k := by positivity
    have n1' : (2 : ℚ) * (q * (b * 2 ^ k)) ≤ 2 * a + b * 2 ^ k := by exact_mod_cast n1
    have n2' : (2 : ℚ) * a ≤ 2 * (q * (b * 2 ^ k)) + b * 2 ^ k := by exact_mod_cast n2
    refine ⟨trivial, ?_, ?_⟩
    · have h0 : (2 : ℚ) * (a / b) + 2 ^ k - 2 * (q * 2 ^ k)
          = (2 * a + b * 2 ^ k - 2 * (q * (b * 2 ^ k))) / b := by
        field_simp
        ring
      have h1 : 0 ≤ ((2 : ℚ) * a + b * 2 ^ k - 2 * (q * (b * 2 ^ k))) / b :=
        div_nonneg (by linarith) hbq.le
      linarith
    · have h0 : (2 : ℚ) * (q * 2 ^ k) + 2 ^ k - 2 * (a / b)
          = (2 * (q * (b * 2 ^ k)) + b * 2 ^ k - 2 * a) / b := by
        field_simp
        ring
      have h1 : 0 ≤ ((2 : ℚ) * (q * (b * 2 ^ k)) + b * 2 ^ k - 2 * a) / b :=
        div_nonneg (by linarith) hbq.le
      linarith
  · obtain ⟨k, hk⟩ : ∃ k : Nat, e = -(k : Int) := ⟨(-e).toNat, by omega⟩
    subst hk
    simp only [neg_neg, Int.toNat_ofNat, Binary64.value, zpow_neg, zpow_natCast]
    obtain ⟨n1, n2⟩ := roundHalfEven_nearest (a <<< k) b hb
    generalize roundHalfEven (a <<< k) b = q at n1 n2
    rw [Nat.shiftLeft_eq] at n1 n2
    have hp : (0 : ℚ) < 2 ^ k := by positivity
    have n1' : (2 : ℚ) * (q * b) ≤ 2 * (a * 2 ^ k) + b := by exact_mod_cast n1
    have n2' : (2 : ℚ) * (a * 2 ^ k) ≤ 2 * (q * b) + b := by exact_mod_cast n2
    refine ⟨trivial, ?_, ?_⟩
    · have h0 : (2 : ℚ) * (a / b) + (2 ^ k)⁻¹ - 2 * (q * (2 ^ k)⁻¹)
          = (2 * (a * 2 ^ k) + b - 2 * (q * b)) / (b * 2 ^ k) := by
        field_simp
        ring
      have h1 : 0 ≤ ((2 : ℚ) * (a * 2 ^ k) + b - 2 * (q * b)) / (b * 2 ^ k) :=
        div_nonneg (by linarith) (by positivity)
      linarith
    · have h0 : (2 : ℚ) * (q * (2 ^ k)⁻¹) + (2 ^ k)⁻¹ - 2 * (a / b)
          = (2 * (q * b) + b - 2 * (a * 2 ^ k)) / (b * 2 ^ k) := by
        field_simp
        ring
      have h1 : 0 ≤ ((2 : ℚ) * (q * b) + b - 2 * (a * 2 ^ k)) / (b * 2 ^ k) :=
        div_nonneg (by linarith) (by positivity)
      linarith

theorem roundToBinary64_mantissa_le (a b : Nat) (ha : 0 < a) (hb : 0 < b) :
    (roundToBinary64 a b).mantissa ≤ 2 ^ 53 := by
  obtain ⟨he, n1, _⟩ := roundToBinary64_nearest a b ha hb
  obtain ⟨_, s2⟩ := binade_spec a b ha hb
  generalize roundToBinary64 a b = d at he n1
  have hle : binade a b + 1 ≤ d.exponent + 53 := by rw [he]; omega
  have hpe : (0 : ℚ) < 2 ^ d.exponent := zpow_pos (by norm_num) _
  have h2 : (2 : ℚ) ^ (binade a b + 1) ≤ 2 ^ (d.exponent + 53) :=
    zpow_le_zpow_right₀ (by norm_num) hle
  rw [zpow_add₀ (by norm_num) d.exponent 53] at h2
  unfold Binary64.value at n1
  have h53 : (2 : ℚ) ^ (53 : Int) = 9007199254740992 := by norm_num
  rw [h53] at h2
  generalize (2 : ℚ) ^ d.exponent = p at n1 h2 hpe
  have h3 : (2 * (d.mantissa : ℚ)) * p < (2 * 9007199254740992 + 1) * p := by linarith
  have h4 : 2 * (d.mantissa : ℚ) < 2 * 9007199254740992 + 1 :=
    lt_of_mul_lt_mul_right h3 hpe.le
  have h5 : 2 * d.mantissa < 2 * 9007199254740992 + 1 := by exact_mod_cast h4
  omega

theorem roundToBinary64_mantissa_ge (a b : Nat) (ha : 0 < a) (hb : 0 < b)
    (h : -1074 ≤ binade a b - 52) : 2 ^ 52 ≤ (roundToBinary64 a b).mantissa := by
  obtain ⟨he, _, n2⟩ := roundToBinary64_nearest a b ha hb
  obtain ⟨s1, _⟩ := binade_spec a b ha hb
  generalize roundToBinary64 a b = d at he n2
  have hle : binade a b = d.exponent + 52 := by rw [he]; omega
  have hpe : (0 : ℚ) < 2 ^ d.exponent := zpow_pos (by norm_num) _
  rw [hle, zpow_add₀ (by norm_num) d.exponent 52] at s1
  unfold Binary64.value at n2
  have h52 : (2 : ℚ) ^ (52 : Int) = 4503599627370496 := by norm_num
  rw [h52] at s1
  generalize (2 : ℚ) ^ d.exponent = p at n2 s1 hpe
  have h3 : (2 * 4503599627370496) * p ≤ (2 * (d.mantissa : ℚ) + 1) * p := by linarith
  have h4 : 2 * 4503599627370496 ≤ 2 * (d.mantissa : ℚ) + 1 :=
    le_of_mul_le_mul_right h3 hpe
  have h5 : 2 * 4503599627370496 ≤ 2 * d.mantissa + 1 := by exact_mod_cast h4
  omega

theorem clampInfinity_mono (v w : Int) (h : v ≤ w) : clampInfinity v ≤ clampInfinity w := by
  have := infinity_pos
  unfold clampInfinity
  split_ifs <;> omega

theorem clampInfinity_small (v : Int) (h1 : -infinity < v) (h2 : v < infinity) :
    clampInfinity v = v := by
  unfold clampInfinity
  split_ifs <;> omega

theorem mathRound_eq_floor (d : Binary64) (hm : d.mantissa ≤ 2 ^ 53) :
    mathRound false d = clampInfinity ⌊d.value + 1 / 2⌋ := by
  unfold mathRound Binary64.value
  simp only [Bool.false_eq_true, if_false]
  split_ifs with he
  · obtain ⟨k, hk⟩ := Int.eq_ofNat_of_zero_le he
    rw [hk]
    simp only [Int.toNat_ofNat, zpow_natCast, Nat.one_shiftLeft]
    congr 1
    have h0 : ((d.mantissa : ℚ) * 2 ^ k + 1 / 2)
        = (((d.mantissa : Int) * ((2 ^ k : Nat) : Int) : Int) : ℚ) + 1 / 2 := by
      push_cast
      ring
    rw [h0, Int.floor_int_add]
    norm_num
  · obtain ⟨k, hk⟩ : ∃ k : Nat, d.exponent = -((k : Int) + 1) :=
      ⟨(-d.exponent).toNat - 1, by omega⟩
    rw [hk]
    have ht : (- -((k : Int) + 1)).toNat = k + 1 := by omega
    simp only [ht, Nat.add_sub_cancel, Nat.one_shiftLeft]
    have h0 : (d.mantissa : ℚ) * 2 ^ (-((k : Int) + 1)) + 1 / 2
        = (((d.mantissa : Int) + ((2 ^ k : Nat) : Int) : Int) : ℚ) / ((2 ^ (k + 1) : Nat) : ℚ) := by
      rw [zpow_neg]
      have : (2 : ℚ) ^ ((k : Int) + 1) = 2 ^ (k + 1) := by
        rw [← zpow_natCast]
        push_cast
        rfl
      rw [this]
      push_cast
      field_simp
      ring
    rw [h0, Rat.floor_intCast_div_natCast]
    have hnn : (0 : Int) ≤ ((d.mantissa : Int) + ((2 ^ k : Nat) : Int)) / ((2 ^ (k + 1) : Nat) : Int) :=
      Int.ediv_nonneg (by positivity) (by positivity)
    have hub : ((d.mantissa : Int) + ((2 ^ k : Nat) : Int)) / ((2 ^ (k + 1) : Nat) : Int)
        ≤ ((2 ^ 53 : Nat) : Int) := by
      have hp : (0 : Int) < ((2 ^ (k + 1) : Nat) : Int) := by positivity
      have h1 : ((d.mantissa : Int) + ((2 ^ k : Nat) : Int)) / ((2 ^ (k + 1) : Nat) : Int)
          < ((2 ^ 53 : Nat) : Int) + 1 := by
        rw [Int.ediv_lt_iff_lt_mul hp]
        have hm' : (d.mantissa : Int) ≤ ((2 ^ 53 : Nat) : Int) := by exact_mod_cast hm
        have e1 : ((2 ^ (k + 1) : Nat) : Int) = 2 * ((2 ^ k : Nat) : Int) := by
          rw [pow_succ]
          push_cast
          ring
        have hk1 : (1 : Int) ≤ ((2 ^ k : Nat) : Int) := by
          exact_mod_cast Nat.one_le_two_pow
        rw [e1]
        nlinarith
      omega
    have := two_pow_53_lt_infinity
    have := infinity_pos
    rw [clampInfinity_small _ (by omega) (by omega)]

theorem binade_mono (a c b : Nat) (ha : 0 < a) (hb : 0 < b) (h : a ≤ c) :
    binade a b ≤ binade c b := by
  obtain ⟨s1, _⟩ := binade_spec a b ha hb
  obtain ⟨_, t2⟩ := binade_spec c b (lt_of_lt_of_le ha h) hb
  have hbq : (0 : ℚ) < b := by exact_mod_cast hb
  have hq : (a : ℚ) / b ≤ (c : ℚ) / b :=
    div_le_div_of_nonneg_right (by exact_mod_cast h) hbq.le
  have h1 : (2 : ℚ) ^ (binade a b) < 2 ^ (binade c b + 1) :=
    lt_of_le_of_lt (le_trans s1 hq) t2
  have h2 := (zpow_lt_zpow_iff_right₀ (by norm_num : (1 : ℚ) < 2)).mp h1
  omega

theorem roundToBinary64_value_mono (a c b : Nat) (ha : 0 < a) (hb : 0 < b) (h : a ≤ c) :
    (roundToBinary64 a b).value ≤ (roundToBinary64 c b).value := by
  have hc := lt_of_lt_of_le ha h
  have hL := binade_mono a c b ha hb h
  rcases eq_or_lt_of_le
    (show max (binade a b - 52) (-1074) ≤ max (binade c b - 52) (-1074) by omega) with heq | hlt
  · unfold roundToBinary64
    rw [if_neg ha.ne', if_neg hc.ne']
    simp only []
    rw [← heq]
    generalize max (binade a b - 52) (-1074) = e
    have hp : (0 : ℚ) ≤ 2 ^ e := (zpow_pos (by norm_num) _).le
    split_ifs with he
    · unfold Binary64.value
      simp only []
      apply mul_le_mul_of_nonneg_right _ hp
      exact_mod_cast roundHalfEven_mono _ _ _ h
    · unfold Binary64.value
      simp only []
      apply mul_le_mul_of_nonneg_right _ hp
      have hs : a <<< (-e).toNat ≤ c <<< (-e).toNat := by
        rw [Nat.shiftLeft_eq, Nat.shiftLeft_eq]
        exact Nat.mul_le_mul_right _ h
      exact_mod_cast roundHalfEven_mono _ _ _ hs
  · have e1 := (roundToBinary64_nearest a b ha hb).1
    have e2 := (roundToBinary64_nearest c b hc hb).1
    have m1 := roundToBinary64_mantissa_le a b ha hb
    have m2 := roundToBinary64_mantissa_ge c b hc hb (by omega)
    rw [← e1, ← e2] at hlt
    generalize roundToBinary64 a b = d1 at hlt m1 e1
    generalize roundToBinary64 c b = d2 at hlt m2 e2
    unfold Binary64.value
    have hp1 : (0 : ℚ) < 2 ^ d1.exponent := zpow_pos (by norm_num) _
    have hp2 : (0 : ℚ) < 2 ^ d2.exponent := zpow_pos (by norm_num) _
    have hstep : (2 : ℚ) ^ (d1.exponent + 1) ≤ 2 ^ d2.exponent :=
      zpow_le_zpow_right₀ (by norm_num) (by omega)
    rw [zpow_add₀ (by norm_num) d1.exponent 1, zpow_one] at hstep
    have q1 : (d1.mantissa : ℚ) ≤ 9007199254740992 := by exact_mod_cast m1
    have q2 : (4503599627370496 : ℚ) ≤ d2.mantissa := by exact_mod_cast m2
    calc (d1.mantissa : ℚ) * 2 ^ d1.exponent
        ≤ 9007199254740992 * 2 ^ d1.exponent := mul_le_mul_of_nonneg_right q1 hp1.le
      _ = 4503599627370496 * (2 ^ d1.exponent * 2) := by ring
      _ ≤ 4503599627370496 * 2 ^ d2.exponent := by
          apply mul_le_mul_of_nonneg_left hstep (by norm_num)
      _ ≤ (d2.mantissa : ℚ) * 2 ^ d2.exponent := mul_le_mul_of_nonneg_right q2 hp2.le

theorem mathRound_mono (d1 d2 : Binary64) (h1 : d1.mantissa ≤ 2 ^ 53)
    (h2 : d2.mantissa ≤ 2 ^ 53) (h : d1.value ≤ d2.value) :
    mathRound false d1 ≤ mathRound false d2 := by
  rw [mathRound_eq_floor d1 h1, mathRound_eq_floor d2 h2]
  exact clampInfinity_mono _ _ (Int.floor_mono (by linarith))

theorem mathRound_quotient_mono (a c b : Nat) (hb : 0 < b) (h : a ≤ c) :
    mathRound false (roundToBinary64 a b) ≤ mathRound false (roundToBinary64 c b) := by
  rcases Nat.eq_zero_or_pos a with h0 | ha
  · subst h0
    have hz : mathRound false (roundToBinary64 0 b) = 0 := by
      unfold roundToBinary64 mathRound clampInfinity
      have := infinity_pos
      simp only [if_true, Bool.false_eq_true, if_false, le_refl, Int.toNat_zero,
        Nat.shiftLeft_zero, Nat.cast_zero, zero_mul]
      split_ifs <;> omega
    rw [hz]
    exact mathRound_nonneg _
  · have hc := lt_of_lt_of_le ha h
    exact mathRound_mono _ _ (roundToBinary64_mantissa_le a b ha hb)
      (roundToBinary64_mantissa_le c b hc hb) (roundToBinary64_value_mono a c b ha hb h)

theorem half_rounding_agree (m x n H r : Int) (hn : 0 < n) (hH : 0 < H) (key : n < 2 * H)
    (n1 : 2 * (m * n) ≤ 2 * (x * (2 * H)) + n) (n2 : 2 * (x * (2 * H)) ≤ 2 * (m * n) + n)
    (r1 : r * (2 * n) ≤ 2 * x + n) (r2 : 2 * x + n < (r + 1) * (2 * n)) :
    (m + H) / (2 * H) = r := by
  have h1 : r ≤ (m + H) / (2 * H) := by
    rw [Int.le_ediv_iff_mul_le (by omega)]
    by_contra hc
    have hc' : m + H + 1 ≤ r * (2 * H) := by omega
    nlinarith [mul_le_mul_of_nonneg_right hc' hn.le, mul_le_mul_of_nonneg_right r1 hH.le]
  have h2 : (m + H) / (2 * H) < r + 1 := by
    rw [Int.ediv_lt_iff_lt_mul (by omega)]
    by_contra hc
    have hc' : (r + 1) * (2 * H) ≤ m + H := by omega
    have r2' : 2 * x + n + 1 ≤ (r + 1) * (2 * n) := by omega
    nlinarith [mul_le_mul_of_nonneg_right hc' hn.le, mul_le_mul_of_nonneg_right r2' hH.le]
  omega

theorem binade_range_of_small (a n : Nat) (ha : 0 < a) (ha2 : a < 2 ^ 52) (hn : 0 < n)
    (hn2 : n < 2 ^ 53) :
    ∃ k : Nat, binade a n - 52 = -((k : Int) + 1) ∧ k < 106 ∧ n < 2 ^ (k + 1) := by
  obtain ⟨s1, s2⟩ := binade_spec a n ha hn
  have hnq : (0 : ℚ) < n := by exact_mod_cast hn
  have haq : (a : ℚ) < 4503599627370496 := by exact_mod_cast ha2
  have hnq2 : (n : ℚ) < 9007199254740992 := by exact_mod_cast hn2
  have ha1 : (1 : ℚ) ≤ a := by exact_mod_cast ha
  have hn1 : (1 : ℚ) ≤ n := by exact_mod_cast hn
  have hL1 : binade a n < 52 := by
    have h1 : (a : ℚ) / n ≤ a := div_le_self (by positivity) hn1
    have h2 : (2 : ℚ) ^ (binade a n) < 2 ^ (52 : Int) := by
      calc (2 : ℚ) ^ (binade a n) ≤ (a : ℚ) / n := s1
        _ ≤ a := h1
        _ < 2 ^ (52 : Int) := by
          have : (2 : ℚ) ^ (52 : Int) = 4503599627370496 := by norm_num
          rw [this]
          exact haq
    exact (zpow_lt_zpow_iff_right₀ (by norm_num : (1 : ℚ) < 2)).mp h2
  have hL2 : -54 < binade a n + 1 := by
    have h1 : (2 : ℚ) ^ (-54 : Int) < (a : ℚ) / n := by
      rw [lt_div_iff₀ hnq]
      have : (2 : ℚ) ^ (-54 : Int) = 1 / 18014398509481984 := by norm_num
      rw [this]
      linarith
    have h2 := lt_trans h1 s2
    exact (zpow_lt_zpow_iff_right₀ (by norm_num : (1 : ℚ) < 2)).mp h2
  refine ⟨(51 - binade a n).toNat, by omega, by omega, ?_⟩
  have hk : ((((51 - binade a n).toNat + 1 : Nat)) : Int) = 52 - binade a n := by omega
  generalize (51 - binade a n).toNat + 1 = K at hk
  have hp : (0 : ℚ) < 2 ^ (binade a n) := zpow_pos (by norm_num) _
  have h3 : (2 : ℚ) ^ (binade a n) * 2 ^ (K : Int) = 4503599627370496 := by
    rw [← zpow_add₀ (by norm_num), hk]
    have : binade a n + (52 - binade a n) = 52 := by ring
    rw [this]
    norm_num
  rw [le_div_iff₀ hnq] at s1
  have h4 : (n : ℚ) * 2 ^ (binade a n) < 2 ^ (K : Int) * 2 ^ (binade a n) := by
    rw [mul_comm] at s1
    nlinarith
  have h5 : (n : ℚ) < 2 ^ (K : Int) := lt_of_mul_lt_mul_right h4 hp.le
  rw [zpow_natCast] at h5
  exact_mod_cast h5

theorem mathRound_exact (neg : Bool) (a n : Nat) (ha : 0 < a) (ha2 : a < 2 ^ 52)
    (hn : 0 < n) (hn2 : n < 2 ^ 53) :
    mathRound neg (roundToBinary64 a n)
      = roundDiv (if neg then -(a : Int) else (a : Int)) n 1 := by
  obtain ⟨k, hk, _, key⟩ := binade_range_of_small a n ha ha2 hn hn2
  obtain ⟨n1, n2⟩ := roundHalfEven_nearest (a <<< (k + 1)) n hn
  have he : max (binade a n - 52) (-1074) = -((k : Int) + 1) := by omega
  have ht : (- -((k : Int) + 1)).toNat = k + 1 := by omega
  have hr : roundToBinary64 a n
      = { mantissa := roundHalfEven (a <<< (k + 1)) n, exponent := -((k : Int) + 1) } := by
    unfold roundToBinary64
    rw [if_neg ha.ne']
    simp only [he]
    rw [if_neg (by omega), ht]
  rw [hr]
  unfold mathRound roundDiv
  simp only []
  rw [if_neg (by omega)]
  simp only [ht, Nat.add_sub_cancel, Nat.one_shiftLeft]
  generalize roundHalfEven (a <<< (k + 1)) n = q at n1 n2
  rw [Nat.shiftLeft_eq, pow_succ] at n1 n2
  have hH : (0 : Int) < ((2 ^ k : Nat) : Int) := by exact_mod_cast Nat.two_pow_pos k
  have e1 : ((2 ^ (k + 1) : Nat) : Int) = 2 * ((2 ^ k : Nat) : Int) := by
    rw [pow_succ]
    push_cast
    ring
  have key' : (n : Int) < 2 * ((2 ^ k : Nat) : Int) := by
    rw [← e1]
    exact_mod_cast key
  have hn' : (0 : Int) < n := by exact_mod_cast hn
  have n1' : 2 * ((q : Int) * n) ≤ 2 * ((a : Int) * (2 * ((2 ^ k : Nat) : Int))) + n := by
    have : 2 * (q * n) ≤ 2 * (a * (2 * 2 ^ k)) + n := by
      rw [show a * (2 * 2 ^ k) = a * (2 ^ k * 2) by ring]
      exact n1
    exact_mod_cast this
  have n2' : 2 * ((a : Int) * (2 * ((2 ^ k : Nat) : Int))) ≤ 2 * ((q : Int) * n) + n := by
    have : 2 * (a * (2 * 2 ^ k)) ≤ 2 * (q * n) + n := by
      rw [show a * (2 * 2 ^ k) = a * (2 ^ k * 2) by ring]
      exact n2
    exact_mod_cast this
  rw [e1]
  generalize ((2 ^ k : Nat) : Int) = H at hH key' n1' n2'
  cases neg
  · simp only [Bool.false_eq_true, if_false]
    apply half_rounding_agree (q : Int) (a : Int) (n : Int) H _ hn' hH key' n1' n2'
    · have := Int.ediv_mul_le (2 * (a : Int) * 1 + n) (show (2 * (n : Int)) ≠ 0 by omega)
      linarith
    · have := Int.lt_ediv_add_one_mul_self (2 * (a : Int) * 1 + n) (show (0 : Int) < 2 * n by omega)
      linarith
  · simp only [if_true]
    apply half_rounding_agree (-(q : Int)) (-(a : Int)) (n : Int) H _ hn' hH key'
      (by linarith) (by linarith)
    · have := Int.ediv_mul_le (2 * (-(a : Int)) * 1 + n) (show (2 * (n : Int)) ≠ 0 by omega)
      linarith
    · have := Int.lt_ediv_add_one_mul_self (2 * (-(a : Int)) * 1 + n)
        (show (0 : Int) < 2 * n by omega)
      linarith

theorem roundDiv_lt_iff (b n k : Int) (hn : 0 < n) :
    roundDiv b n 1 < k ↔ 2 * b < (2 * k - 1) * n := by
  unfold roundDiv
  rw [Int.ediv_lt_iff_lt_mul (by omega)]
  constructor <;> intro h <;> nlinarith

theorem roundDiv_mono (b1 b2 n : Int) (hn : 0 < n) (h : b1 ≤ b2) :
    roundDiv b1 n 1 ≤ roundDiv b2 n 1 := by
  unfold roundDiv
  exact Int.ediv_le_ediv (by omega) (by omega)

theorem roundedQuotient_integer (b n : Int) (h1 : -infinity < b)
    (h2 : b < infinity) :
    roundedQuotient b { mantissa := n.toNat, exponent := 0 }
      = mathRound (decide (b < 0)) (roundToBinary64 b.natAbs n.toNat) := by
  unfold roundedQuotient
  rw [if_neg (by omega), if_neg (by omega)]
  simp

theorem roundToBinary64_zero (b : Nat) :
    roundToBinary64 0 b = { mantissa := 0, exponent := 0 } := by
  unfold roundToBinary64
  simp

theorem mathRound_zero (neg : Bool) : mathRound neg { mantissa := 0, exponent := 0 } = 0 := by
  have := infinity_pos
  unfold mathRound clampInfinity
  cases neg <;> simp <;> omega

theorem two_pow_52_lt_infinity : (4503599627370496 : Int) < infinity := by
  have := two_pow_53_lt_infinity
  norm_num at this
  omega

theorem perPersonPerDay_exact (b n : Int) (hn : 0 < n) (hb : |b| < 4503599627370496) :
    perPersonPerDay b n = roundDiv b n 1 := by
  unfold perPersonPerDay
  split_ifs with h
  · have hinf := two_pow_52_lt_infinity
    have hb' := abs_lt.mp hb
    rw [roundedQuotient_integer b n (by omega) (by omega)]
    rcases Nat.eq_zero_or_pos b.natAbs with h0 | hpos
    · have hb0 : b = 0 := Int.natAbs_eq_zero.mp h0
      subst hb0
      rw [h0, roundToBinary64_zero, mathRound_zero]
      unfold roundDiv
      rw [Int.ediv_eq_zero_of_lt (by omega) (by omega)]
    · rw [mathRound_exact _ b.natAbs n.toNat hpos (by omega) (by omega) (by omega)]
      congr 1
      · by_cases hneg : b < 0
        · simp only [hneg, decide_True, if_true]
          omega
        · simp only [hneg, decide_False, Bool.false_eq_true, if_false]
          omega
      · omega
  · rfl

theorem mathRound_le_infinity (a b : Nat) (hb : 0 < b) :
    mathRound false (roundToBinary64 a b) ≤ infinity := by
  rcases Nat.eq_zero_or_pos a with h0 | ha
  · rw [h0, roundToBinary64_zero, mathRound_zero]
    exact infinity_pos.le
  · rw [mathRound_eq_floor _ (roundToBinary64_mantissa_le a b ha hb)]
    exact (clampInfinity_range _).2

theorem perPersonPerDay_mono (b1 b2 n : Int) (hn : 0 < n) (h0 : 0 ≤ b1) (h : b1 ≤ b2) :
    perPersonPerDay b1 n ≤ perPersonPerDay b2 n := by
  unfold perPersonPerDay
  split_ifs with hlt
  · have hinf := infinity_pos
    by_cases hb2 : infinity ≤ b2
    · have e2 : roundedQuotient b2 { mantissa := n.toNat, exponent := 0 } = infinity := by
        unfold roundedQuotient
        rw [if_pos hb2]
      rw [e2]
      by_cases hb1 : infinity ≤ b1
      · unfold roundedQuotient
        rw [if_pos hb1]
      · rw [roundedQuotient_integer b1 n (by omega) (by omega)]
        have hd : decide (b1 < 0) = false := by simp; omega
        rw [hd]
        exact mathRound_le_infinity _ _ (by omega)
    · rw [roundedQuotient_integer b1 n (by omega) (by omega),
        roundedQuotient_integer b2 n (by omega) (by omega)]
      have hd1 : decide (b1 < 0) = false := by simp; omega
      have hd2 : decide (b2 < 0) = false := by simp; omega
      rw [hd1, hd2]
      exact mathRound_quotient_mono _ _ _ (by omega) (by omega)
  · exact roundDiv_mono b1 b2 n hn h

theorem perPersonPerDay_lt_iff (b n k : Int) (hn : 0 < n) (hb : 0 < b) (hk : k ≤ 150) :
    perPersonPerDay b n < k ↔ 2 * b < (2 * k - 1) * n := by
  by_cases hsmall : b < 4503599627370496
  · rw [perPersonPerDay_exact b n hn (abs_lt.mpr ⟨by omega, hsmall⟩)]
    exact roundDiv_lt_iff b n k hn
  · by_cases hlt : n < 17592186044416
    · have h1 := perPersonPerDay_mono 4503599627370495 b n hn (by norm_num) (by omega)
      rw [perPersonPerDay_exact 4503599627370495 n hn (by norm_num)] at h1
      have h2 : ¬ roundDiv 4503599627370495 n 1 < 150 := by
        rw [roundDiv_lt_iff _ n 150 hn]
        omega
      constructor
      · intro h
        omega
      · intro h
        exfalso
        nlinarith
    · unfold perPersonPerDay
      rw [if_neg hlt]
      exact roundDiv_lt_iff b n k hn

/-! ## Arithmetic of the primitives -/

theorem roundDiv_eq_floor (a : Int) (num den : Nat) (hn : 0 < num) (hd : 0 < den) :
    roundDiv a num den = ⌊(a : ℚ) / ((num : ℚ) / (den : ℚ)) + 1 / 2⌋ := by
  have hn' : (num : ℚ) ≠ 0 := by exact_mod_cast hn.ne'
  have hd' : (den : ℚ) ≠ 0 := by exact_mod_cast hd.ne'
  have h : (a : ℚ) / ((num : ℚ) / (den : ℚ)) + 1 / 2
      = ((2 * a * den + num : Int) : ℚ) / ((2 * num : Nat) : ℚ) := by
    push_cast
    field_simp
    ring
  rw [h, Rat.floor_intCast_div_natCast]
  simp [roundDiv]

theorem ceilDiv_lt_one_iff (a : Int) : ceilDiv a msPerDay < 1 ↔ a ≤ 0 := by
  unfold ceilDiv msPerDay
  omega

theorem one_le_calculateDays (s : PlannerState) : 1 ≤ calculateDays s := by
  unfold calculateDays
  have h := abs_nonneg (s.endDate - s.startDate)
  generalize |s.endDate - s.startDate| = d at h
  simp only []
  unfold ceilDiv msPerDay
  split_ifs with h0 <;> omega

theorem rate_pos_of_mem (c : Currency) (hc : c ∈ CURRENCIES) : 0 < c.rateNum ∧ 0 < c.rateDen := by
  simp only [CURRENCIES, List.mem_cons, List.mem_singleton, List.not_mem_nil, or_false] at hc
  rcases hc with h | h | h | h | h | h | h | h | h | h <;> subst h <;> decide

theorem usd_of_mem (c : Currency) (hc : c ∈ CURRENCIES) (hu : c.code = "USD") :
    c.rateNum = 1 ∧ c.rateDen = 1 := by
  simp only [CURRENCIES, List.mem_cons, List.mem_singleton, List.not_mem_nil, or_false] at hc
  rcases hc with h | h | h | h | h | h | h | h | h | h <;> subst h <;>
    first
      | exact ⟨rfl, rfl⟩
      | exact absurd hu (by decide)

/-- C1. With at least one traveller (the day count is always at least 1),
`getBudgetTier` returns `null` exactly when the budget in US dollars is 0; otherwise it
returns one tier whose `ppd` is `Math.round (budgetUSD / (days * members))`, the quotient
being taken in binary64, and whose label is Very Tight exactly when `ppd < 15`, Budget
Travel exactly when `15 ≤ ppd < 50`, Mid-Range exactly when `50 ≤ ppd < 150` and Luxury
exactly when `150 ≤ ppd`. For a budget below `2 ^ 52` US dollars in magnitude the binary64
quotient rounds as the exact one: `ppd` is the floor of
`budgetUSD / (days * members) + 1 / 2`. -/
theorem getBudgetTier_tiers (primary : String) (s : PlannerState) (hm : 1 ≤ s.members) :
    (getBudgetTier primary s = none ↔ getBudgetInUSD s = 0) ∧
    (getBudgetInUSD s ≠ 0 →
      ∃ t, getBudgetTier primary s = some t ∧
        t.ppd = perPersonPerDay (getBudgetInUSD s) (calculateDays s * (s.members : Int)) ∧
        (|getBudgetInUSD s| < 4503599627370496 →
          t.ppd
            = ⌊(getBudgetInUSD s : ℚ) / ((calculateDays s : ℚ) * (s.members : ℚ)) + 1 / 2⌋) ∧
        (t.label = "⚠️ Very Tight" ↔ t.ppd < 15) ∧
        (t.label = "🎒 Budget Travel" ↔ 15 ≤ t.ppd ∧ t.ppd < 50) ∧
        (t.label = "✈️ Mid-Range" ↔ 50 ≤ t.ppd ∧ t.ppd < 150) ∧
        (t.label = "💎 Luxury" ↔ 150 ≤ t.ppd)) := by
  have hd := one_le_calculateDays s
  have hd0 : calculateDays s ≠ 0 := by omega
  have hm0 : s.members ≠ 0 := by omega
  have hpos : 0 < calculateDays s * (s.members : Int) := by positivity
  have hfloor : |getBudgetInUSD s| < 4503599627370496 →
      perPersonPerDay (getBudgetInUSD s) (calculateDays s * (s.members : Int))
        = ⌊(getBudgetInUSD s : ℚ) / ((calculateDays s : ℚ) * (s.members : ℚ)) + 1 / 2⌋ := by
    intro hsmall
    rw [perPersonPerDay_exact _ _ hpos hsmall]
    obtain ⟨n, hn⟩ := Int.eq_ofNat_of_zero_le (le_trans zero_le_one hd)
    have hpos' : 0 < n * s.members := by
      have : 0 < n := by omega
      positivity
    have h := roundDiv_eq_floor (getBudgetInUSD s) (n * s.members) 1 hpos' one_pos
    rw [hn]
    push_cast at h ⊢
    simpa using h
  constructor
  · unfold getBudgetTier
    simp only [hd0, hm0, or_false]
    split_ifs <;> simp_all
  · intro hb
    unfold getBudgetTier
    simp only [hd0, hm0, or_false, hb, if_false]
    generalize perPersonPerDay (getBudgetInUSD s) (calculateDays s * (s.members : Int)) = p
      at hfloor
    split_ifs with h1 h2 h3
    · refine ⟨_, rfl, rfl, hfloor, ?_, ?_, ?_, ?_⟩ <;> simp <;> omega
    · refine ⟨_, rfl, rfl, hfloor, ?_, ?_, ?_, ?_⟩ <;> simp <;> omega
    · refine ⟨_, rfl, rfl, hfloor, ?_, ?_, ?_, ?_⟩ <;> simp <;> omega
    · refine ⟨_, rfl, rfl, hfloor, ?_, ?_, ?_, ?_⟩ <;> simp <;> omega

theorem validateBudget_state (s : PlannerState) :
    (validateBudget s).1 = { s with budgetError := (validateBudget s).1.budgetError } := by
  unfold validateBudget
  split_ifs
  · rfl
  · split
    · rfl
    · split_ifs <;> rfl

theorem calculateDays_validateBudget (s : PlannerState) :
    calculateDays (validateBudget s).1 = calculateDays s := by
  rw [validateBudget_state]; rfl

theorem getBudgetInUSD_validateBudget (s : PlannerState) :
    getBudgetInUSD (validateBudget s).1 = getBudgetInUSD s := by
  rw [validateBudget_state]; rfl

theorem roundToBinary64_relative (a b : Nat) (ha : 0 < a) (hb : 0 < b)
    (h : -1074 ≤ binade a b - 52) :
    (a : ℚ) / b * (1 - 1 / 9007199254740992) ≤ (roundToBinary64 a b).value ∧
    (roundToBinary64 a b).value ≤ (a : ℚ) / b * (1 + 1 / 9007199254740992) := by
  obtain ⟨he, n1, n2⟩ := roundToBinary64_nearest a b ha hb
  obtain ⟨s1, _⟩ := binade_spec a b ha hb
  have hL : binade a b = (roundToBinary64 a b).exponent + 52 := by rw [he]; omega
  rw [hL, zpow_add₀ (by norm_num) _ 52] at s1
  have h52 : (2 : ℚ) ^ (52 : Int) = 4503599627370496 := by norm_num
  rw [h52] at s1
  generalize (roundToBinary64 a b).value = v at n1 n2
  generalize (2 : ℚ) ^ (roundToBinary64 a b).exponent = p at n1 n2 s1
  generalize (a : ℚ) / b = x at n1 n2 s1
  constructor <;> linarith

theorem value_pos_of_mantissa (d : Binary64) (h : 0 < d.mantissa) : 0 < d.value := by
  unfold Binary64.value
  have h1 : (0 : ℚ) < d.mantissa := by exact_mod_cast h
  have h2 : (0 : ℚ) < 2 ^ d.exponent := zpow_pos (by norm_num) _
  positivity

theorem roundedQuotient_ratio (raw : Int) (r : Binary64) (hraw : 0 < raw)
    (hfin : raw < infinity) (hr : r.exponent < 0) (hm : 0 < r.mantissa) :
    roundedQuotient raw r
      = mathRound false (roundToBinary64 (raw.natAbs <<< (-r.exponent).toNat) r.mantissa) ∧
    ((raw.natAbs <<< (-r.exponent).toNat : Nat) : ℚ) / r.mantissa = (raw : ℚ) / r.value := by
  have hinf := infinity_pos
  constructor
  · unfold roundedQuotient
    rw [if_neg (by omega), if_neg (by omega), if_neg (by omega)]
    have hd : decide (raw < 0) = false := by simp; omega
    rw [hd]
  · obtain ⟨k, hk⟩ : ∃ k : Nat, r.exponent = -(k : Int) := ⟨(-r.exponent).toNat, by omega⟩
    have hmq : (0 : ℚ) < r.mantissa := by exact_mod_cast hm
    have hp : (0 : ℚ) < 2 ^ k := by positivity
    have hrawq : ((raw.natAbs : Nat) : ℚ) = (raw : ℚ) := by
      rw [← Int.cast_natCast, Int.natAbs_of_nonneg hraw.le]
    unfold Binary64.value
    rw [hk, neg_neg, Int.toNat_ofNat, Nat.shiftLeft_eq, zpow_neg, zpow_natCast]
    push_cast
    rw [hrawq]
    field_simp

theorem two_roundings_within_one (raw R rv y : ℚ) (h1 : 1 ≤ raw)
    (h2 : raw < 1125899906842624) (hR : 1 / 2 ≤ R)
    (r1 : R * (1 - 1 / 9007199254740992) ≤ rv) (r2 : rv ≤ R * (1 + 1 / 9007199254740992))
    (y1 : raw / rv * (1 - 1 / 9007199254740992) ≤ y)
    (y2 : y ≤ raw / rv * (1 + 1 / 9007199254740992)) :
    raw / R - 1 < y ∧ y < raw / R + 1 := by
  have hRpos : 0 < R := by linarith
  have hrv : 0 < rv := by nlinarith
  have hx : raw / rv * rv = raw := div_mul_cancel₀ raw hrv.ne'
  have hz : raw / R * R = raw := div_mul_cancel₀ raw hRpos.ne'
  generalize raw / rv = x at hx y1 y2
  generalize raw / R = z at hz
  have hxpos : 0 < x := by
    by_contra hc
    have : x * rv ≤ 0 := mul_nonpos_of_nonpos_of_nonneg (not_lt.mp hc) hrv.le
    linarith
  have hzpos : 0 < z := by
    by_contra hc
    have : z * R ≤ 0 := mul_nonpos_of_nonpos_of_nonneg (not_lt.mp hc) hRpos.le
    linarith
  constructor
  · -- (z - 1) * rv < x * rv * (1 - u)
    have key : (z - 1) * rv < x * (1 - 1 / 9007199254740992) * rv := by
      by_cases hz1 : z ≤ 1
      · have a1 : (z - 1) * rv ≤ 0 := mul_nonpos_of_nonpos_of_nonneg (by linarith) hrv.le
        have a2 : 0 < x * (1 - 1 / 9007199254740992) * rv := by positivity
        linarith
      · have a1 : (z - 1) * rv ≤ (z - 1) * (R * (1 + 1 / 9007199254740992)) :=
          mul_le_mul_of_nonneg_left r2 (by linarith)
        nlinarith
    have := lt_of_mul_lt_mul_right key hrv.le
    linarith
  · have key : x * (1 + 1 / 9007199254740992) * rv < (z + 1) * rv := by
      have a1 : (z + 1) * (R * (1 - 1 / 9007199254740992)) ≤ (z + 1) * rv :=
        mul_le_mul_of_nonneg_left r1 (by linarith)
      nlinarith
    have := lt_of_mul_lt_mul_right key hrv.le
    linarith

theorem rateDouble_facts (c : Currency) (hc : c ∈ CURRENCIES) :
    c.rateDouble.exponent < 0 ∧ 0 < c.rateDouble.mantissa ∧
    -1074 ≤ binade c.rateNum c.rateDen - 52 ∧ c.rateDen ≤ 2 * c.rateNum ∧
    c.rateNum ≤ 256 * c.rateDen := by
  simp only [CURRENCIES, List.mem_cons, List.mem_singleton, List.not_mem_nil, or_false] at hc
  rcases hc with h | h | h | h | h | h | h | h | h | h <;> subst h <;> decide

theorem conversion_accuracy (c : Currency) (hc : c ∈ CURRENCIES) (raw : Int) (h0 : 0 ≤ raw)
    (h1 : raw < 1125899906842624) :
    |roundedQuotient raw c.rateDouble - ⌊(raw : ℚ) / c.rate + 1 / 2⌋| ≤ 1 := by
  obtain ⟨f1, f2, f3, f4, f5⟩ := rateDouble_facts c hc
  obtain ⟨pn, pd⟩ := rate_pos_of_mem c hc
  have hinf := infinity_pos
  have h52 := two_pow_52_lt_infinity
  rcases eq_or_lt_of_le h0 with hz | hpos
  · subst hz
    have e : roundedQuotient 0 c.rateDouble = 0 := by
      unfold roundedQuotient
      rw [if_neg (by omega), if_neg (by omega), if_neg (by omega)]
      simp [roundToBinary64_zero, mathRound_zero]
    rw [e]
    norm_num
  · obtain ⟨q1, q2⟩ := roundedQuotient_ratio raw c.rateDouble hpos (by omega) f1 f2
    obtain ⟨r1, r2⟩ := roundToBinary64_relative c.rateNum c.rateDen pn pd f3
    have pdq : (0 : ℚ) < c.rateDen := by exact_mod_cast pd
    have hRlo : (1 : ℚ) / 2 ≤ c.rate := by
      unfold Currency.rate
      rw [le_div_iff₀ pdq]
      have : (c.rateDen : ℚ) ≤ 2 * c.rateNum := by exact_mod_cast f4
      linarith
    have hRhi : c.rate ≤ 256 := by
      unfold Currency.rate
      rw [div_le_iff₀ pdq]
      exact_mod_cast f5
    have hraw1 : (1 : ℚ) ≤ raw := by exact_mod_cast hpos
    have hraw2 : (raw : ℚ) < 1125899906842624 := by exact_mod_cast h1
    have hrvpos : 0 < c.rateDouble.value := value_pos_of_mantissa _ f2
    have hrvhi : c.rateDouble.value < 512 := by
      have : c.rateDouble.value ≤ c.rate * (1 + 1 / 9007199254740992) := r2
      nlinarith
    have hA : 0 < raw.natAbs <<< (-c.rateDouble.exponent).toNat := by
      rw [Nat.shiftLeft_eq]
      have : 0 < raw.natAbs := by omega
      positivity
    have hb : -1074 ≤ binade (raw.natAbs <<< (-c.rateDouble.exponent).toNat)
        c.rateDouble.mantissa - 52 := by
      obtain ⟨_, s2⟩ := binade_spec _ _ hA f2
      rw [q2] at s2
      have hx : (2 : ℚ) ^ (-10 : Int) < (raw : ℚ) / c.rateDouble.value := by
        rw [lt_div_iff₀ hrvpos]
        have : (2 : ℚ) ^ (-10 : Int) = 1 / 1024 := by norm_num
        rw [this]
        linarith
      have h3 := (zpow_lt_zpow_iff_right₀ (by norm_num : (1 : ℚ) < 2)).mp (lt_trans hx s2)
      omega
    obtain ⟨y1, y2⟩ := roundToBinary64_relative _ _ hA f2 hb
    rw [q2] at y1 y2
    have hmle := roundToBinary64_mantissa_le _ _ hA f2
    rw [q1, mathRound_eq_floor _ hmle]
    obtain ⟨b1, b2⟩ := two_roundings_within_one (raw : ℚ) c.rate c.rateDouble.value _
      hraw1 hraw2 hRlo r1 r2 y1 y2
    generalize (roundToBinary64 (raw.natAbs <<< (-c.rateDouble.exponent).toNat)
      c.rateDouble.mantissa).value = y at b1 b2
    have hzlo : (0 : ℚ) < (raw : ℚ) / c.rate := by
      have : (0 : ℚ) < c.rate := by linarith
      positivity
    have hzhi : (raw : ℚ) / c.rate < 2251799813685248 := by
      rw [div_lt_iff₀ (by linarith)]
      nlinarith
    generalize (raw : ℚ) / c.rate = z at b1 b2 hzlo hzhi
    have u1 : ⌊y + 1 / 2⌋ ≤ ⌊z + 1 / 2⌋ + 1 := by
      rw [← Int.floor_add_one]
      exact Int.floor_mono (by linarith)
    have u2 : ⌊z + 1 / 2⌋ - 1 ≤ ⌊y + 1 / 2⌋ := by
      rw [← Int.floor_sub_one]
      exact Int.floor_mono (by linarith)
    have u3 : (0 : Int) ≤ ⌊z + 1 / 2⌋ := Int.floor_nonneg.mpr (by linarith)
    have u4 : ⌊z + 1 / 2⌋ < 2251799813685249 := by
      rw [Int.floor_lt]
      push_cast
      linarith
    rw [clampInfinity_small _ (by omega) (by omega), abs_le]
    constructor <;> omega

/-- C2. For every budget text and every currency of `CURRENCIES`, `getBudgetInUSD`
returns 0 when `parseInt (budget)` is `NaN`, and otherwise
`Math.round (parseInt (budget) / rate)`: the parsed amount is divided in binary64 by the
binary64 value of the decimal rate, and `Math.round` is applied to the binary64 quotient.
For a parsed amount from 0 to `2 ^ 50` that result is within one of the floor of the exact
quotient plus one half. With USD selected the parsed amount is returned unchanged. -/
theorem getBudgetInUSD_conversion (s : PlannerState) (hc : s.selectedCurrency ∈ CURRENCIES) :
    (parseInt s.budget = none → getBudgetInUSD s = 0) ∧
    (∀ raw, parseInt s.budget = some raw →
      getBudgetInUSD s
        = roundedQuotient raw
            (roundToBinary64 s.selectedCurrency.rateNum s.selectedCurrency.rateDen)) ∧
    (∀ raw, parseInt s.budget = some raw → 0 ≤ raw → raw < 1125899906842624 →
      |getBudgetInUSD s - ⌊(raw : ℚ) / s.selectedCurrency.rate + 1 / 2⌋| ≤ 1) ∧
    (s.selectedCurrency.code = "USD" →
      ∀ raw, parseInt s.budget = some raw → getBudgetInUSD s = raw) := by
  refine ⟨?_, ?_, ?_, ?_⟩
  · intro h
    simp [getBudgetInUSD, h]
  · intro raw h
    simp only [getBudgetInUSD, h, Currency.rateDouble]
  · intro raw h h0 h1
    have e : getBudgetInUSD s = roundedQuotient raw s.selectedCurrency.rateDouble := by
      simp only [getBudgetInUSD, h]
    rw [e]
    exact conversion_accuracy _ hc raw h0 h1
  · intro hu raw h
    obtain ⟨h1, h2⟩ := usd_of_mem _ hc hu
    obtain ⟨n, hn⟩ := parseInt_isNumber _ _ h
    have e : roundToBinary64 1 1 = { mantissa := 2 ^ 52, exponent := -52 } := by decide
    simp only [getBudgetInUSD, h, Currency.rateDouble, h1, h2]
    rw [e, hn]
    exact roundedQuotient_one_number n

/-- Budgets for which binary64 shows. 17 Canadian dollars are 12 US dollars, since
`17 / 1.36` is `12.499999999999998` in binary64, where the exact quotient `12.5` rounds to
13; 4879 Canadian dollars are 3587 US dollars, which for 2 days and 12 travellers is 149 a
day each, "Mid-Range"; `10 ^ 20` US dollars for one day and 3 travellers are
`33333333333333331968` a day each; the digits `9007199254740993` read as
`9007199254740992`; a one followed by 400 zeros reads as `Infinity`. -/
theorem binary64_examples :
    getBudgetInUSD { sampleCanadianState with budget := "17".toList } = 12 ∧
    roundDiv 17 136 100 = 13 ∧
    getBudgetInUSD sampleCanadianState = 3587 ∧
    (getBudgetTier "#6200ee" sampleCanadianState).map (fun t => (t.label, t.ppd))
      = some ("✈️ Mid-Range", 149) ∧
    (getBudgetTier "#6200ee"
      { sampleState with budget := "100000000000000000000".toList, members := 3 }).map
      (fun t => (t.label, t.ppd)) = some ("💎 Luxury", 33333333333333331968) ∧
    parseInt "9007199254740993".toList = some 9007199254740992 ∧
    parseInt ('1' :: List.replicate 400 '0') = some infinity := by
  refine ⟨by decide, by decide, by decide, by decide, ?_, by decide, ?_⟩
  · set_option maxRecDepth 100000 in decide
  · set_option maxRecDepth 100000 in decide

/-- C3. For every start date and every selected date, `onEndDateChange` raises no alert
exactly when the selected date is strictly later than `startDate`, and then it sets
`endDate` to the selected date; otherwise it raises the alert "End date must be after start
date." and leaves `endDate` unchanged. In both cases only the picker flag changes besides. -/
theorem onEndDateChange_later_only (s : PlannerState) (d : Int) :
    ((onEndDateChange s (some d)).2 = [] ↔ s.startDate < d) ∧
    (s.startDate < d →
      onEndDateChange s (some d) = ({ s with showEndPicker := false, endDate := d }, [])) ∧
    (¬ s.startDate < d →
      onEndDateChange s (some d) =
        ({ s with showEndPicker := false },
         [{ title := "Invalid Date", message := "End date must be after start date.",
            buttons := [] }])) := by
  have key := ceilDiv_lt_one_iff (d - s.startDate)
  refine ⟨?_, ?_, ?_⟩
  · unfold onEndDateChange
    simp only []
    split_ifs with h
    · simp only [List.cons_ne_nil, false_iff, not_lt]
      have := key.mp h
      omega
    · simp only [true_iff]
      by_contra hlt
      exact h (key.mpr (by omega))
  · intro hlt
    have : ¬ ceilDiv (d - s.startDate) msPerDay < 1 := fun h => by
      have := key.mp h
      omega
    simp [onEndDateChange, this]
  · intro hlt
    have : ceilDiv (d - s.startDate) msPerDay < 1 := key.mpr (by omega)
    simp [onEndDateChange, this]

theorem trim_nil_of_nil (b : List Char) (h : b = []) : trim b = [] := by
  rw [h]; rfl

theorem validateBudget_blank (s : PlannerState) (hb : trim s.budget = []) :
    validateBudget s = ({ s with budgetError := "Budget is required" }, false) := by
  unfold validateBudget
  rw [if_pos (Or.inr hb)]

theorem validateBudget_nan (s : PlannerState) (hb : trim s.budget ≠ [])
    (hp : parseInt s.budget = none) :
    validateBudget s = ({ s with budgetError := "Enter a valid amount" }, false) := by
  unfold validateBudget
  rw [if_neg (fun h => h.elim (fun h => hb (trim_nil_of_nil _ h)) hb), hp]

theorem validateBudget_nonpos (s : PlannerState) (hb : trim s.budget ≠ []) (raw : Int)
    (hp : parseInt s.budget = some raw) (hr : raw ≤ 0) :
    validateBudget s = ({ s with budgetError := "Enter a valid amount" }, false) := by
  unfold validateBudget
  rw [if_neg (fun h => h.elim (fun h => hb (trim_nil_of_nil _ h)) hb), hp]
  simp only [if_pos hr]

theorem validateBudget_pos (s : PlannerState) (hb : trim s.budget ≠ []) (raw : Int)
    (hp : parseInt s.budget = some raw) (hr : 0 < raw) :
    validateBudget s = ({ s with budgetError := "" }, true) := by
  unfold validateBudget
  rw [if_neg (fun h => h.elim (fun h => hb (trim_nil_of_nil _ h)) hb), hp]
  simp only [if_neg (not_le.mpr hr)]

/-- C6. For every budget text, `validateBudget` returns `true` exactly when the text is
not blank and `parseInt (budget)` is a number greater than 0; it sets `budgetError` to
"Budget is required" for an empty or whitespace-only text, to "Enter a valid amount" for a
non-blank text whose amount is `NaN` or not positive, and to the empty string when it
accepts. -/
theorem validateBudget_accepts_iff (s : PlannerState) :
    ((validateBudget s).2 = true ↔
      trim s.budget ≠ [] ∧ ∃ n, parseInt s.budget = some n ∧ 0 < n) ∧
    (trim s.budget = [] → (validateBudget s).1.budgetError = "Budget is required") ∧
    (trim s.budget ≠ [] → (parseInt s.budget = none ∨ ∃ n, parseInt s.budget = some n ∧ n ≤ 0) →
      (validateBudget s).1.budgetError = "Enter a valid amount") ∧
    ((validateBudget s).2 = true → (validateBudget s).1.budgetError = "") := by
  by_cases hb : trim s.budget = []
  · rw [validateBudget_blank s hb]
    simp [hb]
  · cases hp : parseInt s.budget with
    | none =>
      rw [validateBudget_nan s hb hp]
      simp [hb]
    | some raw =>
      by_cases hr : raw ≤ 0
      · rw [validateBudget_nonpos s hb raw hp hr]
        simp [hb]
        omega
      · rw [validateBudget_pos s hb raw hp (by omega)]
        simp [hb]
        omega

/-- C5. When the destination is blank after trimming, or no user is signed in, or
`validateBudget` rejects the budget, `handleGenerate` starts nothing itself, raises exactly
one alert (the one of the first failing check, in the order destination, login, budget),
and no button the user can press in it starts `generateItinerary`. -/
theorem handleGenerate_guards (s : PlannerState) (user : Option User) (choice : Option Nat)
    (h : trim s.destination = [] ∨ user = none ∨ (validateBudget s).2 = false) :
    (∀ a ∈ actionsAfterChoice s user choice, a.isGenerate = false) ∧
    (handleGenerate s user).started = [] ∧
    (handleGenerate s user).alerts.map (fun a => a.title) =
      [if trim s.destination = [] then "Missing Destination"
       else if user = none then "Login Required ✈️" else "Budget Required"] := by
  by_cases hd : trim s.destination = []
  · simp [actionsAfterChoice, handleGenerate, hd, pressButton]
    cases choice <;> simp
  · cases user with
    | none =>
      simp only [actionsAfterChoice, handleGenerate, hd, if_false, List.nil_append,
        List.flatMap_cons, List.flatMap_nil, List.append_nil, List.map_cons, List.map_nil,
        if_true, and_true, true_and]
      intro a ha
      match choice, ha with
      | some 0, ha => simp [pressButton] at ha
      | some 1, ha => simp [pressButton] at ha; subst ha; rfl
      | some (n + 2), ha => simp [pressButton] at ha
      | none, ha => simp [pressButton] at ha
    | some u =>
      have hv : (validateBudget s).2 = false := by
        rcases h with h | h | h
        · exact absurd h hd
        · cases h
        · exact h
      simp [actionsAfterChoice, handleGenerate, hd, hv, pressButton]
      cases choice <;> simp

theorem handleGenerate_accepted (s : PlannerState) (u : User)
    (hd : trim s.destination ≠ []) (hv : (validateBudget s).2 = true) :
    handleGenerate s (some u) =
      if getBudgetInUSD s < calculateDays s * (s.members : Int) * 15 then
        { state := (validateBudget s).1, started := [],
          alerts := [{ title := "Budget Too Low ⚠️",
                       message := budgetTooLowMessage (calculateDays s) s.members
                         (calculateDays s * (s.members : Int) * 15) (getBudgetInUSD s),
                       buttons := [{ text := "Adjust Budget", onPress := none },
                                   { text := "Continue Anyway",
                                     onPress := some (Action.generateItinerary (calculateDays s)
                                       (getBudgetInUSD s)) }] }] }
      else if calculateDays s < 2 then
        { state := (validateBudget s).1, started := [],
          alerts := [{ title := "Too Short! ⏱️",
                       message := "Pick at least 2 days to explore a city!",
                       buttons := [{ text := "OK, fix dates", onPress := none }] }] }
      else
        { state := (validateBudget s).1, alerts := [],
          started := [Action.generateItinerary (calculateDays s) (getBudgetInUSD s)] } := by
  unfold handleGenerate
  rw [if_neg hd]
  simp only [hv, Bool.true_eq_false, if_false, calculateDays_validateBudget,
    getBudgetInUSD_validateBudget]

/-- C7. For a signed-in user with a non-blank destination and an accepted budget: when
`budgetUSD < days * members * 15`, `handleGenerate` raises exactly the "Budget Too Low"
alert with the buttons "Adjust Budget" and "Continue Anyway", starts nothing itself, and
`generateItinerary (days, budgetUSD)` is started exactly when the user presses the second
button, "Continue Anyway"; when `budgetUSD ≥ days * members * 15` no "Budget Too Low"
alert is raised. -/
theorem handleGenerate_budget_floor (s : PlannerState) (u : User) (choice : Option Nat)
    (hd : trim s.destination ≠ []) (hv : (validateBudget s).2 = true) :
    (getBudgetInUSD s < calculateDays s * (s.members : Int) * 15 →
      (handleGenerate s (some u)).alerts.map (fun a => (a.title, a.buttons.map (fun b => b.text)))
        = [("Budget Too Low ⚠️", ["Adjust Budget", "Continue Anyway"])] ∧
      (handleGenerate s (some u)).started = [] ∧
      actionsAfterChoice s (some u) choice =
        if choice = some 1 then [Action.generateItinerary (calculateDays s) (getBudgetInUSD s)]
        else []) ∧
    (calculateDays s * (s.members : Int) * 15 ≤ getBudgetInUSD s →
      ∀ a ∈ (handleGenerate s (some u)).alerts, a.title ≠ "Budget Too Low ⚠️") := by
  constructor
  · intro hlow
    unfold actionsAfterChoice
    rw [handleGenerate_accepted s u hd hv, if_pos hlow]
    refine ⟨rfl, rfl, ?_⟩
    match choice with
    | none => simp [pressButton]
    | some 0 => simp [pressButton]
    | some 1 => simp [pressButton]
    | some (n + 2) => simp [pressButton]
  · intro hok a ha
    rw [handleGenerate_accepted s u hd hv, if_neg (not_lt.mpr hok)] at ha
    split_ifs at ha
    · simp only [List.mem_singleton] at ha
      subst ha
      decide
    · simp at ha

/-- C4, the code at the failing input. In the sample state (start and end on the same
day, one traveller, 10 US dollars) the day count is 1, `handleGenerate` raises the
"Budget Too Low" alert for a signed-in user, and pressing "Continue Anyway" starts
`generateItinerary (1, 10)`: an itinerary for a trip shorter than 2 days. -/
theorem handleGenerate_one_day_continue_anyway :
    calculateDays sampleState = 1 ∧
    (handleGenerate sampleState (some { id := "user-1" })).alerts.map (fun a => a.title)
      = ["Budget Too Low ⚠️"] ∧
    actionsAfterChoice sampleState (some { id := "user-1" }) (some 1)
      = [Action.generateItinerary 1 10] := by
  decide

/-! ## Slicing of the recommendation text -/

theorem indexOfFrom_not_mem (c : Char) (s : List Char) (i : Nat) (h : c ∉ s) :
    indexOfFrom c s i = -1 := by
  induction s generalizing i with
  | nil => rfl
  | cons x xs ih =>
    simp only [List.mem_cons, not_or] at h
    simp only [indexOfFrom, if_neg (Ne.symm h.1)]
    exact ih _ h.2

theorem indexOfFrom_append (c : Char) (pre rest : List Char) (i : Nat) (h : c ∉ pre) :
    indexOfFrom c (pre ++ c :: rest) i = ((i + pre.length : Nat) : Int) := by
  induction pre generalizing i with
  | nil => simp [indexOfFrom]
  | cons x xs ih =>
    simp only [List.mem_cons, not_or] at h
    rw [List.cons_append, indexOfFrom, if_neg (Ne.symm h.1), ih _ h.2, List.length_cons]
    congr 1
    omega

theorem lastIndexOfFrom_not_mem (c : Char) (s : List Char) (i : Nat) (f : Int) (h : c ∉ s) :
    lastIndexOfFrom c s i f = f := by
  induction s generalizing i f with
  | nil => rfl
  | cons x xs ih =>
    simp only [List.mem_cons, not_or] at h
    simp only [lastIndexOfFrom, if_neg (Ne.symm h.1)]
    exact ih _ _ h.2

theorem lastIndexOfFrom_append (c : Char) (a b : List Char) (i : Nat) (f : Int) :
    lastIndexOfFrom c (a ++ b) i f
      = lastIndexOfFrom c b (i + a.length) (lastIndexOfFrom c a i f) := by
  induction a generalizing i f with
  | nil => simp [lastIndexOfFrom]
  | cons x xs ih =>
    rw [List.cons_append, lastIndexOfFrom, ih, lastIndexOfFrom, List.length_cons]
    congr 1
    omega

theorem lastIndexOf_append (c : Char) (a suf : List Char) (h : c ∉ suf) :
    lastIndexOf c (a ++ c :: suf) = (a.length : Int) := by
  unfold lastIndexOf
  rw [lastIndexOfFrom_append]
  simp only [lastIndexOfFrom, if_true, Nat.zero_add]
  exact lastIndexOfFrom_not_mem c suf _ _ h

theorem substring_middle (pre a suf : List Char) :
    substring (pre ++ a ++ suf) (pre.length : Int) ((pre.length + a.length : Nat) : Int) = a := by
  unfold substring
  simp only [List.length_append]
  have h1 : max 0 (min (pre.length : Int) ((pre.length + a.length + suf.length : Nat) : Int))
      = (pre.length : Int) := by omega
  have h2 : max 0 (min ((pre.length + a.length : Nat) : Int)
      ((pre.length + a.length + suf.length : Nat) : Int)) = ((pre.length + a.length : Nat) : Int) := by
    omega
  rw [h1, h2]
  have h3 : min (pre.length : Int) ((pre.length + a.length : Nat) : Int) = (pre.length : Int) := by
    omega
  have h4 : max (pre.length : Int) ((pre.length + a.length : Nat) : Int)
      = ((pre.length + a.length : Nat) : Int) := by omega
  rw [h3, h4]
  have h5 : (((pre.length + a.length : Nat) : Int) - (pre.length : Int)).toNat = a.length := by
    omega
  rw [h5, Int.toNat_ofNat, List.append_assoc, List.drop_left, List.take_left]

theorem sliceBetween_embedded (o c : Char) (pre mid suf : List Char)
    (hp : o ∉ pre) (hs : c ∉ suf) :
    sliceBetween o c (pre ++ (o :: (mid ++ [c])) ++ suf) = o :: (mid ++ [c]) := by
  have hi : indexOf o (pre ++ (o :: (mid ++ [c])) ++ suf) = (pre.length : Int) := by
    unfold indexOf
    rw [List.append_assoc, List.cons_append, indexOfFrom_append o pre _ 0 hp]
    simp
  have hl : lastIndexOf c (pre ++ (o :: (mid ++ [c])) ++ suf)
      = ((pre.length + mid.length + 1 : Nat) : Int) := by
    have e : pre ++ (o :: (mid ++ [c])) ++ suf = (pre ++ o :: mid) ++ c :: suf := by simp
    rw [e, lastIndexOf_append c _ suf hs]
    simp
    omega
  unfold sliceBetween
  simp only [hi, hl]
  rw [if_pos (by constructor <;> omega)]
  have e2 : (((pre.length + mid.length + 1 : Nat) : Int) + 1)
      = ((pre.length + (o :: (mid ++ [c])).length : Nat) : Int) := by
    simp
    omega
  rw [e2]
  exact substring_middle pre _ suf

theorem sliceBetween_absent (o c : Char) (raw : List Char) (h : o ∉ raw ∨ c ∉ raw) :
    sliceBetween o c raw = raw := by
  unfold sliceBetween indexOf lastIndexOf
  rcases h with h | h
  · simp [indexOfFrom_not_mem o raw 0 h]
  · simp [lastIndexOfFrom_not_mem c raw 0 (-1) h]

/-- C8. For every text `pre ++ A ++ suf` in which `A` starts with `[` and ends with `]`,
`pre` has no `[` and `suf` has no `]`, the slicing of `fetchHotels`, `fetchFood` and
`fetchActivities` yields exactly `A`, and what these functions leave is decided by
`JSON.parse (A)`; `fetchTransport` does the same for `A` delimited by the two braces; a text
with neither delimiter is sliced to itself. -/
theorem slicing_passes_embedded_json {J : Type} (parse : List Char → Option J)
    (p : RouteParams) (s : DetailState J) (pre A suf : List Char) :
    (A.head? = some '[' → A.getLast? = some ']' → '[' ∉ pre → ']' ∉ suf →
      sliceBetween '[' ']' (pre ++ A ++ suf) = A ∧
      ∀ f ∈ [fetchHotels parse p, fetchFood parse p, fetchActivities parse p],
        (f (BackendOutcome.json { success := true, data := some (pre ++ A ++ suf) }) s).state =
          { result := (parse A).getD s.result, loading := false,
            error := if (parse A).isSome then none else some "Network error — check backend" }) ∧
    (A.head? = some '\x7b' → A.getLast? = some '\x7d' → '\x7b' ∉ pre → '\x7d' ∉ suf →
      sliceBetween '\x7b' '\x7d' (pre ++ A ++ suf) = A ∧
      (fetchTransport parse p
          (BackendOutcome.json { success := true, data := some (pre ++ A ++ suf) }) s).state =
        { result := (parse A).getD s.result, loading := false,
          error := if (parse A).isSome then none else some "Network error — check backend" }) ∧
    ('[' ∉ A → ']' ∉ A → sliceBetween '[' ']' A = A) ∧
    ('\x7b' ∉ A → '\x7d' ∉ A → sliceBetween '\x7b' '\x7d' A = A) := by
  have shape : ∀ (o c : Char), o ≠ c → A.head? = some o → A.getLast? = some c →
      ∃ mid, A = o :: (mid ++ [c]) := by
    intro o c hoc hh hl
    cases A with
    | nil => simp at hh
    | cons x xs =>
      simp only [List.head?_cons, Option.some.injEq] at hh
      subst hh
      rcases List.eq_nil_or_concat xs with hx | ⟨mid, y, hx⟩
      · subst hx
        simp at hl
        exact absurd hl hoc
      · subst hx
        simp only [List.concat_eq_append] at hl ⊢
        rw [← List.cons_append, List.getLast?_append] at hl
        simp at hl
        subst hl
        exact ⟨mid, rfl⟩
  refine ⟨?_, ?_, ?_, ?_⟩
  · intro hh hl hp hs
    obtain ⟨mid, rfl⟩ := shape '[' ']' (by decide) hh hl
    have e := sliceBetween_embedded '[' ']' pre mid suf hp hs
    refine ⟨e, ?_⟩
    intro f hf
    simp only [List.mem_cons, List.mem_singleton, List.not_mem_nil, or_false] at hf
    rcases hf with rfl | rfl | rfl
    · simp only [fetchHotels, if_true, e]
      cases parse ('[' :: (mid ++ [']'])) <;> rfl
    · simp only [fetchFood, if_true, e]
      cases parse ('[' :: (mid ++ [']'])) <;> rfl
    · simp only [fetchActivities, if_true, e]
      cases parse ('[' :: (mid ++ [']'])) <;> rfl
  · intro hh hl hp hs
    obtain ⟨mid, rfl⟩ := shape '\x7b' '\x7d' (by decide) hh hl
    have e := sliceBetween_embedded '\x7b' '\x7d' pre mid suf hp hs
    refine ⟨e, ?_⟩
    simp only [fetchTransport, if_true, e]
    cases parse ('\x7b' :: (mid ++ ['\x7d'])) <;> rfl
  · intro h _
    exact sliceBetween_absent _ _ _ (Or.inl h)
  · intro h _
    exact sliceBetween_absent _ _ _ (Or.inl h)

/-- C9. For each of `fetchHotels`, `fetchFood`, `fetchActivities` and `fetchTransport` and
every backend outcome: exactly one request is sent, `loading` is `false` at the end,
`error` is `null` exactly when the response had a true `success` and its sliced `data`
parsed as JSON, and whenever `error` is set the result held before is unchanged. -/
theorem fetch_settles_every_outcome {J : Type} (parse : List Char → Option J)
    (p : RouteParams) (outcome : BackendOutcome) (s : DetailState J) :
    ∀ fc ∈ [(fetchHotels parse p, '[', ']'), (fetchFood parse p, '[', ']'),
            (fetchActivities parse p, '[', ']'), (fetchTransport parse p, '\x7b', '\x7d')],
      (fc.1 outcome s).sent.length = 1 ∧
      (fc.1 outcome s).state.loading = false ∧
      ((fc.1 outcome s).state.error = none ↔
        ∃ raw v, outcome = BackendOutcome.json { success := true, data := some raw } ∧
          parse (sliceBetween fc.2.1 fc.2.2 raw) = some v) ∧
      ((fc.1 outcome s).state.error ≠ none → (fc.1 outcome s).state.result = s.result) := by
  intro fc hfc
  simp only [List.mem_cons, List.mem_singleton, List.not_mem_nil, or_false] at hfc
  rcases hfc with rfl | rfl | rfl | rfl
  all_goals
    refine ⟨rfl, rfl, ?_, ?_⟩
    · cases outcome with
      | networkFailure => simp [fetchHotels, fetchFood, fetchActivities, fetchTransport]
      | nonJsonBody => simp [fetchHotels, fetchFood, fetchActivities, fetchTransport]
      | json body =>
        obtain ⟨success, data⟩ := body
        cases success
        · simp [fetchHotels, fetchFood, fetchActivities, fetchTransport]
        · cases data with
          | none => simp [fetchHotels, fetchFood, fetchActivities, fetchTransport]
          | some raw =>
            simp only [fetchHotels, fetchFood, fetchActivities, fetchTransport, if_true,
              BackendOutcome.json.injEq, ResponseBody.mk.injEq, true_and, Option.some.injEq,
              exists_and_left, exists_eq_left']
            cases parse (sliceBetween _ _ raw) <;> simp
    · cases outcome with
      | networkFailure => simp [fetchHotels, fetchFood, fetchActivities, fetchTransport]
      | nonJsonBody => simp [fetchHotels, fetchFood, fetchActivities, fetchTransport]
      | json body =>
        obtain ⟨success, data⟩ := body
        cases success
        · simp [fetchHotels, fetchFood, fetchActivities, fetchTransport]
        · cases data with
          | none => simp [fetchHotels, fetchFood, fetchActivities, fetchTransport]
          | some raw =>
            simp only [fetchHotels, fetchFood, fetchActivities, fetchTransport, if_true]
            cases parse (sliceBetween _ _ raw) <;> simp

/-- The query of `deleteTrip` filters on the row id alone, whoever is signed in. -/
theorem deleteTrip_query (id : Value) (reply : DbReply) :
    (deleteTrip id reply).queries =
      [{ table := "Trips", verb := Verb.delete, filters := [("id", id)], order := none }] :=
  rfl

/-- C10 as stated fails. With nobody signed in, `getTrips` and `getTripCount` issue a query
without any filter and `saveTrip` inserts a row whose `user_id` is `null`; with the user
`alice` signed in, the query of `deleteTrip` is not scoped to `alice`. -/
theorem trips_queries_unscoped :
    (getTrips (AuthReply.resolved none) (DbReply.resolved none none none)).queries.map
        (fun q => q.filters) = [[]] ∧
    (getTripCount (AuthReply.resolved none) (DbReply.resolved none none none)).queries.map
        (fun q => q.filters) = [[]] ∧
    (saveTrip (AuthReply.resolved none) "Paris" 3 "plan"
        (DbReply.resolved none none none)).queries.map (fun q => q.verb) =
      [Verb.insert [[("destination", Value.text "Paris"), ("days", Value.num 3),
                     ("itinerary", Value.text "plan"), ("user_id", Value.null)]]] ∧
    getCurrentUser (AuthReply.resolved (some { id := "alice" })) = some { id := "alice" } ∧
    (deleteTrip (Value.num 7) (DbReply.resolved none none none)).queries.map
        (Query.scopedTo "alice") = [false] := by
  decide

/-- C10, amended. The four favorites operations issue no query when nobody is signed in,
and for a signed-in user each issues exactly one query, scoped to that user id. `getTrips`
and `getTripCount` issue exactly one query, scoped to the user id when a user with a
non-empty id is signed in and without any filter otherwise; `saveTrip` inserts exactly one
row, carrying the user id in the first case and a `null` user id otherwise. -/
theorem favorites_and_trips_scoping (auth : AuthReply) (reply : DbReply)
    (destination itinerary destinationName : String) (days : Int) (destinationId : Value) :
    (getCurrentUser auth = none →
      (addFavorite auth destinationId destinationName reply).queries = [] ∧
      (removeFavorite auth destinationId reply).queries = [] ∧
      (getFavorites auth reply).queries = [] ∧
      (getFavoriteCount auth reply).queries = []) ∧
    (∀ u, getCurrentUser auth = some u →
      (addFavorite auth destinationId destinationName reply).queries.map
          (Query.scopedTo u.id) = [true] ∧
      (removeFavorite auth destinationId reply).queries.map (Query.scopedTo u.id) = [true] ∧
      (getFavorites auth reply).queries.map (Query.scopedTo u.id) = [true] ∧
      (getFavoriteCount auth reply).queries.map (Query.scopedTo u.id) = [true]) ∧
    (∀ u, getCurrentUser auth = some u → u.id ≠ "" →
      (getTrips auth reply).queries.map (Query.scopedTo u.id) = [true] ∧
      (getTripCount auth reply).queries.map (Query.scopedTo u.id) = [true] ∧
      (saveTrip auth destination days itinerary reply).queries.map (Query.scopedTo u.id)
        = [true]) ∧
    ((getCurrentUser auth = none ∨ getCurrentUser auth = some { id := "" }) →
      (getTrips auth reply).queries.map (fun q => q.filters) = [[]] ∧
      (getTripCount auth reply).queries.map (fun q => q.filters) = [[]] ∧
      (saveTrip auth destination days itinerary reply).queries.map (fun q => q.verb) =
        [Verb.insert [[("destination", Value.text destination), ("days", Value.num days),
                       ("itinerary", Value.text itinerary), ("user_id", Value.null)]]]) := by
  refine ⟨?_, ?_, ?_, ?_⟩
  · intro h
    simp [addFavorite, removeFavorite, getFavorites, getFavoriteCount, h]
  · intro u h
    simp [addFavorite, removeFavorite, getFavorites, getFavoriteCount, h, Query.scopedTo]
  · intro u h hid
    simp [getTrips, getTripCount, saveTrip, h, hid, Query.scopedTo]
  · intro h
    rcases h with h | h <;> simp [getTrips, getTripCount, saveTrip, h]

/-! ## The theorems at concrete inputs -/

/-- The tier theorem at the second sample state: 3587 US dollars for 2 days and 12
travellers are 149 a day each, the floor of `3587 / 24 + 1 / 2`. -/
theorem getBudgetTier_tiers_witness :
    1 ≤ sampleCanadianState.members ∧ getBudgetInUSD sampleCanadianState ≠ 0 ∧
    ∃ t, getBudgetTier "#6200ee" sampleCanadianState = some t ∧
      t.ppd = perPersonPerDay (getBudgetInUSD sampleCanadianState)
        (calculateDays sampleCanadianState * (sampleCanadianState.members : Int)) ∧
      (|getBudgetInUSD sampleCanadianState| < 4503599627370496 →
        t.ppd = ⌊(getBudgetInUSD sampleCanadianState : ℚ)
          / ((calculateDays sampleCanadianState : ℚ) * (sampleCanadianState.members : ℚ))
          + 1 / 2⌋) :=
  ⟨by decide, by decide,
   ((getBudgetTier_tiers "#6200ee" sampleCanadianState (by decide)).2 (by decide)).imp
     (fun _ h => ⟨h.1, h.2.1, h.2.2.1⟩)⟩

/-- The conversion theorem at two states: 17 Canadian dollars are 12 US dollars, and 10 US
dollars stay 10. -/
theorem getBudgetInUSD_conversion_witness :
    sampleCanadianState.selectedCurrency ∈ CURRENCIES ∧
    getBudgetInUSD { sampleCanadianState with budget := "17".toList } = 12 ∧
    sampleState.selectedCurrency ∈ CURRENCIES ∧ getBudgetInUSD sampleState = 10 :=
  ⟨by decide,
   ((getBudgetInUSD_conversion { sampleCanadianState with budget := "17".toList }
      (by decide)).2.1 17 (by decide)).trans (by decide),
   by decide,
   (getBudgetInUSD_conversion sampleState (by decide)).2.2.2 (by decide) 10 (by decide)⟩

/-- The end-date theorem at the sample state with the next day selected. -/
theorem onEndDateChange_later_only_witness :
    sampleState.startDate < 1700086400000 ∧
    onEndDateChange sampleState (some 1700086400000) =
      ({ sampleState with showEndPicker := false, endDate := 1700086400000 }, []) :=
  ⟨by decide, (onEndDateChange_later_only sampleState 1700086400000).2.1 (by decide)⟩

/-- The guard theorem at the sample state with a blank destination, "Continue Anyway"
position pressed. -/
theorem handleGenerate_guards_witness :
    trim ({ sampleState with destination := "  ".toList }).destination = [] ∧
    (handleGenerate { sampleState with destination := "  ".toList } none).started = [] :=
  ⟨by decide,
   (handleGenerate_guards { sampleState with destination := "  ".toList } none (some 1)
      (Or.inl (by decide))).2.1⟩

/-- The budget validation theorem at the sample state, whose budget text is "10". -/
theorem validateBudget_accepts_iff_witness :
    parseInt sampleState.budget = some 10 ∧ (validateBudget sampleState).2 = true :=
  ⟨by decide,
   (validateBudget_accepts_iff sampleState).1.mpr ⟨by decide, 10, by decide, by decide⟩⟩

/-- The minimum-budget theorem at the sample state: 10 US dollars for one day and one
traveller is below 15. -/
theorem handleGenerate_budget_floor_witness :
    trim sampleState.destination ≠ [] ∧ (validateBudget sampleState).2 = true ∧
    getBudgetInUSD sampleState < calculateDays sampleState * (sampleState.members : Int) * 15 ∧
    (handleGenerate sampleState (some { id := "user-1" })).started = [] :=
  ⟨by decide, by decide, by decide,
   ((handleGenerate_budget_floor sampleState { id := "user-1" } (some 1) (by decide)
      (by decide)).1 (by decide)).2.1⟩

/-- The slicing theorem at the text `Here: [1,2] ok`. -/
theorem slicing_passes_embedded_json_witness :
    "[1,2]".toList.head? = some '[' ∧ "[1,2]".toList.getLast? = some ']' ∧
    sliceBetween '[' ']' ("Here: ".toList ++ "[1,2]".toList ++ " ok".toList) = "[1,2]".toList :=
  ⟨by decide, by decide,
   ((slicing_passes_embedded_json (fun t => some t)
      { destination := "Paris", budget := 250, days := 3, members := none }
      { result := [], loading := true, error := none }
      "Here: ".toList "[1,2]".toList " ok".toList).1
      (by decide) (by decide) (by decide) (by decide)).1⟩

/-- The fetch theorem for `fetchHotels` on a network failure. -/
theorem fetch_settles_every_outcome_witness :
    (fetchHotels (fun t => some t)
        { destination := "Paris", budget := 250, days := 3, members := none }
        BackendOutcome.networkFailure
        { result := [], loading := true, error := none }).state.loading = false :=
  (fetch_settles_every_outcome (fun t => some t)
      { destination := "Paris", budget := 250, days := 3, members := none }
      BackendOutcome.networkFailure { result := [], loading := true, error := none }
      (fetchHotels (fun t => some t)
        { destination := "Paris", budget := 250, days := 3, members := none }, '[', ']')
      (List.mem_cons_self _ _)).2.1

/-- The scoping theorem with the user `alice` signed in. -/
theorem favorites_and_trips_scoping_witness :
    getCurrentUser (AuthReply.resolved (some { id := "alice" })) = some { id := "alice" } ∧
    (getTrips (AuthReply.resolved (some { id := "alice" }))
        (DbReply.resolved none none none)).queries.map (Query.scopedTo "alice") = [true] :=
  ⟨rfl,
   ((favorites_and_trips_scoping (AuthReply.resolved (some { id := "alice" }))
      (DbReply.resolved none none none) "Paris" "plan" "Paris" 3 (Value.num 7)).2.2.1
      { id := "alice" } rfl (by decide)).1⟩

/-! ## Supabase service: failures -/

/-- C11. `getTrips` never throws: for every outcome of the user lookup and of the query it
returns a list; the list is empty when the query rejected, when it resolved with an error
and when it resolved with `null` data, and it is the data otherwise. -/
theorem getTrips_always_returns_list (auth : AuthReply) (reply : DbReply) :
    ∃ rows, (getTrips auth reply).result = Except.ok rows ∧
      (∀ e, reply = DbReply.rejected e → rows = []) ∧
      (∀ data count e, reply = DbReply.resolved data count (some e) → rows = []) ∧
      (∀ count, reply = DbReply.resolved none count none → rows = []) ∧
      (∀ data count, reply = DbReply.resolved (some data) count none → rows = data) := by
  cases reply with
  | rejected e => exact ⟨[], rfl, by simp⟩
  | resolved data count error =>
    cases error with
    | some e => exact ⟨[], rfl, by simp⟩
    | none =>
      cases data with
      | none => exact ⟨[], rfl, by simp⟩
      | some d => exact ⟨d, rfl, by simp⟩

/-- C12. When no user is signed in, `addFavorite` and `removeFavorite` throw "Not logged
in" and issue no query, `getFavorites` returns the empty list and `getFavoriteCount`
returns 0, both without a query. -/
theorem favorites_without_user (auth : AuthReply) (reply : DbReply) (destinationId : Value)
    (destinationName : String) (h : getCurrentUser auth = none) :
    (addFavorite auth destinationId destinationName reply).result = Except.error "Not logged in" ∧
    (addFavorite auth destinationId destinationName reply).queries = [] ∧
    (removeFavorite auth destinationId reply).result = Except.error "Not logged in" ∧
    (removeFavorite auth destinationId reply).queries = [] ∧
    (getFavorites auth reply).result = Except.ok (some []) ∧
    (getFavorites auth reply).queries = [] ∧
    (getFavoriteCount auth reply).result = Except.ok 0 ∧
    (getFavoriteCount auth reply).queries = [] := by
  simp [addFavorite, removeFavorite, getFavorites, getFavoriteCount, h]

/-- The theorem on favourites without a user, when the user lookup rejects. -/
theorem favorites_without_user_witness :
    getCurrentUser AuthReply.rejected = none ∧
    (addFavorite AuthReply.rejected (Value.text "7") "Paris"
        (DbReply.resolved none none none)).queries = [] :=
  ⟨rfl, (favorites_without_user AuthReply.rejected (DbReply.resolved none none none)
    (Value.text "7") "Paris" rfl).2.1⟩

/-- The theorem on `getTrips` when the query rejects. -/
theorem getTrips_always_returns_list_witness :
    ∃ rows, (getTrips AuthReply.rejected (DbReply.rejected "offline")).result = Except.ok rows ∧
      rows = [] :=
  (getTrips_always_returns_list AuthReply.rejected (DbReply.rejected "offline")).imp
    (fun _ h => ⟨h.1, h.2.1 "offline" rfl⟩)

/-! ## Tier and type filters -/

/-- C13 as stated fails. The food screen offers the tiers affordable / midrange /
finedining, not budget or luxury, and with the diet "Veg" selected the tier "midrange"
hides a midrange restaurant that is "Non-Veg" while "all" does not show the whole list;
the activities screen selects on the `type` field: with an attraction of type "budget" and
tier "luxury" and a museum of tier "budget", selecting "budget" shows the first, not the
one whose tier is "budget". -/
theorem tier_filter_not_uniform :
    "budget" ∉ FoodDetail.tiers ∧ "luxury" ∉ FoodDetail.tiers ∧
    FoodDetail.filtered
        [{ name := "Grill", tier := some "midrange", dietary := some "Non-Veg", type := none }]
        "midrange" "Veg" = [] ∧
    FoodDetail.filtered
        [{ name := "Grill", tier := some "midrange", dietary := some "Non-Veg", type := none }]
        "all" "Veg" = [] ∧
    some "budget" ∈ ActivitiesDetail.types
        [{ name := "Bazaar", tier := some "luxury", dietary := none, type := some "budget" },
         { name := "Museum", tier := some "budget", dietary := none, type := some "Museum" }] ∧
    ActivitiesDetail.filtered
        [{ name := "Bazaar", tier := some "luxury", dietary := none, type := some "budget" },
         { name := "Museum", tier := some "budget", dietary := none, type := some "Museum" }]
        "budget" =
      [{ name := "Bazaar", tier := some "luxury", dietary := none, type := some "budget" }] := by
  decide

/-- Multiplicity in a filtered list: kept elements keep their multiplicity. -/
theorem count_filter_eq (p : Recommendation → Bool) (l : List Recommendation)
    (x : Recommendation) :
    (l.filter p).count x = if p x = true then l.count x else 0 := by
  split_ifs with h
  · exact List.count_filter h
  · rw [List.count_eq_zero]
    intro hx
    exact h (List.mem_filter.mp hx).2

/-- C13, amended. On the accommodation screen, selecting budget, midrange or luxury shows
exactly the hotels whose `tier` equals it, in their original order, and "all" shows the
whole list. On the food screen the tiers are affordable, midrange and finedining, and the
list shown is exactly the restaurants that match the tier ("all" matches every one) and the
selected diet (the diet "Both" matches every one, another diet matches a restaurant whose
`dietary` is that diet or "Both"), in their original order. On the activities screen the
selection is on `type`: a type other than "All" shows exactly the attractions whose `type`
equals it, in their original order, and "All" shows the whole list. -/
theorem filters_by_screen (items : List Recommendation) (selected diet : String) :
    AccommodationDetail.tiers = ["all", "budget", "midrange", "luxury"] ∧
    AccommodationDetail.filtered items "all" = items ∧
    (selected ∈ ["budget", "midrange", "luxury"] →
      (AccommodationDetail.filtered items selected).Sublist items ∧
      ∀ x, (AccommodationDetail.filtered items selected).count x =
        if x.tier = some selected then items.count x else 0) ∧
    FoodDetail.tiers = ["all", "affordable", "midrange", "finedining"] ∧
    ((FoodDetail.filtered items selected diet).Sublist items ∧
      ∀ x, (FoodDetail.filtered items selected diet).count x =
        if (selected = "all" ∨ x.tier = some selected) ∧
            (diet = "Both" ∨ x.dietary = some diet ∨ x.dietary = some "Both")
        then items.count x else 0) ∧
    FoodDetail.filtered items "all" "Both" = items ∧
    ActivitiesDetail.filtered items "All" = items ∧
    (selected ≠ "All" →
      (ActivitiesDetail.filtered items selected).Sublist items ∧
      ∀ x, (ActivitiesDetail.filtered items selected).count x =
        if x.type = some selected then items.count x else 0) := by
  refine ⟨rfl, rfl, ?_, rfl, ⟨?_, ?_⟩, ?_, rfl, ?_⟩
  · intro hsel
    have hne : selected ≠ "all" := by
      rintro rfl
      revert hsel
      decide
    simp only [AccommodationDetail.filtered, if_neg hne]
    refine ⟨List.filter_sublist _, fun x => ?_⟩
    rw [count_filter_eq]
    simp
  · exact List.filter_sublist _
  · intro x
    simp only [FoodDetail.filtered]
    rw [count_filter_eq]
    simp [or_assoc]
  · simp [FoodDetail.filtered]
  · intro hne
    simp only [ActivitiesDetail.filtered, if_neg hne]
    refine ⟨List.filter_sublist _, fun x => ?_⟩
    rw [count_filter_eq]
    simp

/-! ## The data-fetch script -/

namespace FetchGPS

theorem processAttractions_timing (net : Nat → Exchange) (city country : String)
    (l : List Attraction) (clock count : Nat) :
    clock ≤ (processAttractions net city country l clock count).2.2 ∧
    (∀ s ∈ (processAttractions net city country l clock count).2.1,
      clock ≤ s.startedAt ∧ s.startedAt ≤ s.finishedAt ∧
      s.finishedAt + 1100 ≤ (processAttractions net city country l clock count).2.2) ∧
    List.Pairwise (fun a b => a.startedAt ≤ a.finishedAt ∧ a.finishedAt + 1100 ≤ b.startedAt)
      (processAttractions net city country l clock count).2.1 := by
  induction l generalizing clock count with
  | nil => simp [processAttractions]
  | cons a rest ih =>
    obtain ⟨h1, h2, h3⟩ := ih (clock + (net count).latency + 1100 + (net count).lateness)
      (count + 1)
    simp only [processAttractions, List.mem_cons, List.pairwise_cons]
    refine ⟨by omega, ?_, ?_, h3⟩
    · rintro s (rfl | hs)
      · simp only
        omega
      · have := h2 s hs
        omega
    · intro b hb
      have := h2 b hb
      omega

theorem processCities_timing (net : Nat → Exchange) (l : List Destination)
    (clock count : Nat) :
    clock ≤ (processCities net l clock count).2.2 ∧
    (∀ s ∈ (processCities net l clock count).2.1,
      clock ≤ s.startedAt ∧ s.startedAt ≤ s.finishedAt ∧
      s.finishedAt + 1100 ≤ (processCities net l clock count).2.2) ∧
    List.Pairwise (fun a b => a.startedAt ≤ a.finishedAt ∧ a.finishedAt + 1100 ≤ b.startedAt)
      (processCities net l clock count).2.1 := by
  induction l generalizing clock count with
  | nil => simp [processCities]
  | cons d rest ih =>
    obtain ⟨a1, a2, a3⟩ := processAttractions_timing net d.city d.country d.attractions
      clock count
    obtain ⟨h1, h2, h3⟩ := ih (processAttractions net d.city d.country d.attractions
      clock count).2.2 (count + d.attractions.length)
    simp only [processCities, List.mem_append, List.pairwise_append]
    refine ⟨by omega, ?_, a3, h3, ?_⟩
    · rintro s (hs | hs)
      · have := a2 s hs
        omega
      · have := h2 s hs
        omega
    · intro a ha b hb
      have := a2 a ha
      have := h2 b hb
      omega

end FetchGPS

/-- C14. In every run of `addGPSToDestinations`, for any two requests in the order they
were sent, the earlier one was answered before the later one started, and at least 1100 ms
(the delay of the script, more than the 1000 ms claimed) lie between the answer to the
earlier and the start of the later; so their starts are more than 1000 ms apart. Time is a
logical clock on which a request takes its latency and `delay (1100)` takes at least
1100 ms. -/
theorem requests_one_per_second (testMode : Bool) (DESTINATIONS : List FetchGPS.Destination)
    (net : Nat → FetchGPS.Exchange) (clock : Nat) :
    List.Pairwise
      (fun a b => a.finishedAt ≤ b.startedAt ∧ a.finishedAt + 1000 ≤ b.startedAt ∧
        a.startedAt + 1000 < b.startedAt)
      (FetchGPS.addGPSToDestinations testMode DESTINATIONS net clock).requests := by
  unfold FetchGPS.addGPSToDestinations
  simp only []
  refine List.Pairwise.imp ?_ (FetchGPS.processCities_timing net _ clock 0).2.2
  intro a b h
  omega

namespace FetchGPS

theorem lookup_setField_ne (key k : String) (v : Field) (o : List (String × Field))
    (h : k ≠ key) : (setField key v o).lookup k = o.lookup k := by
  induction o with
  | nil =>
    simp only [setField, List.lookup_cons, List.lookup_nil]
    have : (k == key) = false := by simpa using h
    rw [this]
  | cons p rest ih =>
    obtain ⟨k1, old⟩ := p
    simp only [setField]
    split_ifs with hk
    · subst hk
      have : (k == k1) = false := by simpa using h
      simp only [List.lookup_cons, this]
    · simp only [List.lookup_cons, ih]

theorem withGps_keeps (a : Attraction) (gps : Option Gps) :
    (withGps a gps).name = a.name ∧
    ∀ k, k ≠ "latitude" → k ≠ "longitude" →
      (withGps a gps).fields.lookup k = a.fields.lookup k := by
  refine ⟨rfl, fun k h1 h2 => ?_⟩
  simp only [withGps]
  rw [lookup_setField_ne _ _ _ _ h2, lookup_setField_ne _ _ _ _ h1]

theorem processAttractions_frame (net : Nat → Exchange) (city country : String)
    (l : List Attraction) (clock count : Nat) :
    List.Forall₂
      (fun a u => u.name = a.name ∧
        ∀ k, k ≠ "latitude" → k ≠ "longitude" → u.fields.lookup k = a.fields.lookup k)
      l (processAttractions net city country l clock count).1 ∧
    (processAttractions net city country l clock count).2.1.length = l.length := by
  induction l generalizing clock count with
  | nil => simp [processAttractions]
  | cons a rest ih =>
    obtain ⟨h1, h2⟩ := ih (clock + (net count).latency + 1100 + (net count).lateness)
      (count + 1)
    simp only [processAttractions, List.length_cons, h2, and_true]
    exact List.Forall₂.cons (withGps_keeps a _) h1

theorem processCities_frame (net : Nat → Exchange) (l : List Destination)
    (clock count : Nat) :
    List.Forall₂
      (fun d w => w.city = d.city ∧ w.country = d.country ∧ w.fields = d.fields ∧
        List.Forall₂
          (fun a u => u.name = a.name ∧
            ∀ k, k ≠ "latitude" → k ≠ "longitude" → u.fields.lookup k = a.fields.lookup k)
          d.attractions w.attractions)
      l (processCities net l clock count).1 ∧
    (processCities net l clock count).2.1.length
      = (l.map (fun d => d.attractions.length)).sum := by
  induction l generalizing clock count with
  | nil => simp [processCities]
  | cons d rest ih =>
    obtain ⟨a1, a2⟩ := processAttractions_frame net d.city d.country d.attractions clock count
    obtain ⟨h1, h2⟩ := ih (processAttractions net d.city d.country d.attractions
      clock count).2.2 (count + d.attractions.length)
    simp only [processCities, List.length_append, a2, h2, List.map_cons, List.sum_cons,
      and_true]
    exact List.Forall₂.cons ⟨rfl, rfl, rfl, a1⟩ h1

end FetchGPS

/-- C15. With `testMode = true`, `addGPSToDestinations` sends one request for each
attraction of the first 2 destinations and no other, and writes a list of the length of
`DESTINATIONS` whose entries from index 2 onward are those of `DESTINATIONS` unchanged;
the first entries are the first destinations in order, each with its city, country and
other fields unchanged and its attractions in the same number and order, every attraction
keeping its name and every field other than `latitude` and `longitude`. -/
theorem testMode_frame (DESTINATIONS : List FetchGPS.Destination)
    (net : Nat → FetchGPS.Exchange) (clock : Nat) :
    (FetchGPS.addGPSToDestinations true DESTINATIONS net clock).requests.length
      = ((DESTINATIONS.take 2).map (fun d => d.attractions.length)).sum ∧
    (FetchGPS.addGPSToDestinations true DESTINATIONS net clock).written.length
      = DESTINATIONS.length ∧
    (FetchGPS.addGPSToDestinations true DESTINATIONS net clock).written.drop 2
      = DESTINATIONS.drop 2 ∧
    List.Forall₂
      (fun d w => w.city = d.city ∧ w.country = d.country ∧ w.fields = d.fields ∧
        List.Forall₂
          (fun a u => u.name = a.name ∧
            ∀ k, k ≠ "latitude" → k ≠ "longitude" → u.fields.lookup k = a.fields.lookup k)
          d.attractions w.attractions)
      (DESTINATIONS.take 2)
      ((FetchGPS.addGPSToDestinations true DESTINATIONS net clock).written.take 2) := by
  obtain ⟨h1, h2⟩ := FetchGPS.processCities_frame net (DESTINATIONS.take 2) clock 0
  have hlen : (FetchGPS.processCities net (DESTINATIONS.take 2) clock 0).1.length
      = (DESTINATIONS.take 2).length := h1.length_eq.symm
  have hlen2 : (FetchGPS.processCities net (DESTINATIONS.take 2) clock 0).1.length ≤ 2 := by
    rw [hlen, List.length_take]
    omega
  simp only [FetchGPS.addGPSToDestinations, if_true]
  refine ⟨h2, ?_, ?_, ?_⟩
  · rw [List.length_append, hlen, List.length_take, List.length_drop]
    omega
  · by_cases hD : 2 ≤ DESTINATIONS.length
    · have : (FetchGPS.processCities net (DESTINATIONS.take 2) clock 0).1.length = 2 := by
        rw [hlen, List.length_take]
        omega
      rw [List.drop_append_eq_append_drop, this, List.drop_of_length_le (le_of_eq this)]
      simp
    · have hd0 : DESTINATIONS.drop 2 = [] := List.drop_of_length_le (by omega)
      rw [hd0, List.append_nil]
      exact List.drop_of_length_le hlen2
  · rw [List.take_append_eq_append_take, List.take_of_length_le hlen2]
    have : 2 - (FetchGPS.processCities net (DESTINATIONS.take 2) clock 0).1.length = 0
        ∨ DESTINATIONS.drop 2 = [] := by
      by_cases hD : 2 ≤ DESTINATIONS.length
      · left
        rw [hlen, List.length_take]
        omega
      · right
        exact List.drop_of_length_le (by omega)
    rcases this with h | h
    · rw [h]
      simpa using h1
    · rw [h]
      simpa using h1

/-! ## Favourite toggles -/

/-- C16, the code at the failing inputs. For the signed-in user `alice`, when the service
call fails (here the query rejects), `handleSave` raises the alert "Error" and leaves
`isSaved` at the flipped value: `false` after a tap on a saved destination, `true` after a
tap on one that was not saved. The value before the tap is not restored. -/
theorem handleSave_failure_not_rolled_back :
    (DestinationDetail.handleSave { currentUser := some { id := "alice" }, isSaved := true }
        { id := 7, city := "Paris" } (AuthReply.resolved (some { id := "alice" }))
        (DbReply.rejected "offline")).state.isSaved = false ∧
    (DestinationDetail.handleSave { currentUser := some { id := "alice" }, isSaved := true }
        { id := 7, city := "Paris" } (AuthReply.resolved (some { id := "alice" }))
        (DbReply.rejected "offline")).alerts.map (fun a => a.title) = ["Error"] ∧
    (DestinationDetail.handleSave { currentUser := some { id := "alice" }, isSaved := false }
        { id := 7, city := "Paris" } (AuthReply.resolved (some { id := "alice" }))
        (DbReply.rejected "offline")).state.isSaved = true ∧
    (DestinationDetail.handleSave { currentUser := some { id := "alice" }, isSaved := false }
        { id := 7, city := "Paris" } (AuthReply.resolved (some { id := "alice" }))
        (DbReply.rejected "offline")).alerts.map (fun a => a.title) = ["Error"] := by
  decide

/-- C17. In `handleToggleFavorite`, with no signed-in user the state is unchanged. For a
signed-in user: when the tapped id is a favourite and `removeFavorite` succeeds, the new
set holds exactly the previous ids other than the tapped one; when it is not a favourite
and `addFavorite` succeeds, the new set holds exactly the previous ids and the tapped one;
when the service call fails, the set is the previous set. -/
theorem handleToggleFavorite_sets (s : Explore.State) (destination : DestinationRef)
    (auth : AuthReply) (reply : DbReply) :
    (s.currentUser = none →
      (Explore.handleToggleFavorite s destination auth reply).state = s) ∧
    (s.currentUser ≠ none → toString destination.id ∈ s.favoriteIds →
      (∀ r, (removeFavorite auth (Value.text (toString destination.id)) reply).result
            = Except.ok r →
        ∀ x, x ∈ (Explore.handleToggleFavorite s destination auth reply).state.favoriteIds ↔
          x ∈ s.favoriteIds ∧ x ≠ toString destination.id) ∧
      (∀ e, (removeFavorite auth (Value.text (toString destination.id)) reply).result
            = Except.error e →
        (Explore.handleToggleFavorite s destination auth reply).state.favoriteIds
          = s.favoriteIds)) ∧
    (s.currentUser ≠ none → toString destination.id ∉ s.favoriteIds →
      (∀ r, (addFavorite auth (Value.text (toString destination.id)) destination.city
            reply).result = Except.ok r →
        ∀ x, x ∈ (Explore.handleToggleFavorite s destination auth reply).state.favoriteIds ↔
          x ∈ s.favoriteIds ∨ x = toString destination.id) ∧
      (∀ e, (addFavorite auth (Value.text (toString destination.id)) destination.city
            reply).result = Except.error e →
        (Explore.handleToggleFavorite s destination auth reply).state.favoriteIds
          = s.favoriteIds)) := by
  refine ⟨?_, ?_, ?_⟩
  · intro h
    simp [Explore.handleToggleFavorite, h]
  · intro hu hin
    obtain ⟨u, hu⟩ := Option.ne_none_iff_exists'.mp hu
    refine ⟨?_, ?_⟩
    · intro r hr x
      simp [Explore.handleToggleFavorite, hu, hin, hr, Explore.setDelete]
    · intro e he
      simp [Explore.handleToggleFavorite, hu, hin, he]
  · intro hu hin
    obtain ⟨u, hu⟩ := Option.ne_none_iff_exists'.mp hu
    refine ⟨?_, ?_⟩
    · intro r hr x
      simp [Explore.handleToggleFavorite, hu, hin, hr, Explore.setAdd]
    · intro e he
      simp [Explore.handleToggleFavorite, hu, hin, he]

/-! ## Trip detail screen -/

/-- C18, the code at the failing input. For the itinerary text `]5[` the first `[` comes
after the last `]`, `substring` swaps its arguments and `JSON.parse` is handed `5`; when
`JSON.parse` reads that text as the number 5, `days` is the number 5 and not a list. -/
theorem days_not_a_list (parse : List Char → Option Json) (stringify : Json → List Char)
    (trip : Trip) (hi : trip.itinerary = ItineraryValue.text "]5[".toList)
    (hp : parse "5".toList = some (Json.num 5)) :
    TripDetail.days parse stringify trip = Json.num 5 ∧
    ∀ items, TripDetail.days parse stringify trip ≠ Json.arr items := by
  have hs : substring "]5[".toList (indexOf '[' "]5[".toList)
      (lastIndexOf ']' "]5[".toList + 1) = "5".toList := by decide
  have hc : indexOf '[' "]5[".toList ≠ -1 ∧ lastIndexOf ']' "]5[".toList ≠ -1 := by decide
  have h : TripDetail.days parse stringify trip = Json.num 5 := by
    simp only [TripDetail.days, hi, if_pos hc, hs, hp]
  rw [h]
  exact ⟨rfl, fun items => by simp⟩

/-- The evaluation for C18 with a parser that reads the text `5` as the number 5. -/
theorem days_not_a_list_witness :
    TripDetail.days (fun t => if t = "5".toList then some (Json.num 5) else none)
      (fun _ => [])
      { destination := "Paris", days := 3, budget := none, num_people := none,
        group_type := none, itinerary := ItineraryValue.text "]5[".toList } = Json.num 5 :=
  (days_not_a_list (fun t => if t = "5".toList then some (Json.num 5) else none)
    (fun _ => [])
    { destination := "Paris", days := 3, budget := none, num_people := none,
      group_type := none, itinerary := ItineraryValue.text "]5[".toList } rfl (if_pos rfl)).1

/-- C19. For each of the four detail screens, `navigateToDetail` navigates to that screen
with the trip's destination and days, with `budget = Math.round (0.25 * B)` where `B` is
`trip.budget`, or 1000 when the trip has no budget (absent or 0), and with `members` equal
to `trip.num_people`, or 1 when that is absent or 0. -/
theorem navigateToDetail_params (trip : Trip) (screen : String)
    (hs : screen ∈ TripDetail.pillScreens) :
    screen ∈ ["AccommodationDetail", "FoodDetail", "ActivitiesDetail", "TransportDetail"] ∧
    (TripDetail.navigateToDetail trip screen).screen = screen ∧
    (TripDetail.navigateToDetail trip screen).params.destination = trip.destination ∧
    (TripDetail.navigateToDetail trip screen).params.days = trip.days ∧
    (trip.budget = none ∨ trip.budget = some 0 →
      (TripDetail.navigateToDetail trip screen).params.budget
        = ⌊(1000 : ℚ) * (1 / 4) + 1 / 2⌋) ∧
    (∀ b, trip.budget = some b → b ≠ 0 →
      (TripDetail.navigateToDetail trip screen).params.budget
        = ⌊(b : ℚ) * (1 / 4) + 1 / 2⌋) ∧
    (trip.num_people = none ∨ trip.num_people = some 0 →
      (TripDetail.navigateToDetail trip screen).params.members = some 1) ∧
    (∀ n, trip.num_people = some n → n ≠ 0 →
      (TripDetail.navigateToDetail trip screen).params.members = some n) := by
  have hround : ∀ b : Int, roundDiv b 4 1 = ⌊(b : ℚ) * (1 / 4) + 1 / 2⌋ := by
    intro b
    have h := roundDiv_eq_floor b 4 1 (by decide) (by decide)
    rw [show ((4 : Nat) : Int) = 4 from rfl, show ((1 : Nat) : Int) = 1 from rfl] at h
    rw [h]
    congr 1
    push_cast
    ring
  refine ⟨hs, rfl, rfl, rfl, ?_, ?_, ?_, ?_⟩
  · intro h
    have hb : TripDetail.budget trip = 1000 := by
      rcases h with h | h <;> simp [TripDetail.budget, h]
    simp only [TripDetail.navigateToDetail, hb, hround]
    push_cast
    rfl
  · intro b h hb
    have hb2 : TripDetail.budget trip = b := by simp [TripDetail.budget, h, hb]
    simp only [TripDetail.navigateToDetail, hb2, hround]
  · intro h
    rcases h with h | h <;> simp [TripDetail.navigateToDetail, TripDetail.members, h]
  · intro n h hn
    simp [TripDetail.navigateToDetail, TripDetail.members, h, hn]

/-- The navigation theorem for the food screen and a trip without a budget: a quarter of
1000 is passed. -/
theorem navigateToDetail_params_witness :
    "FoodDetail" ∈ TripDetail.pillScreens ∧
    (TripDetail.navigateToDetail
      { destination := "Paris", days := 3, budget := none, num_people := none,
        group_type := none, itinerary := ItineraryValue.undefined } "FoodDetail").params.days
      = 3 :=
  ⟨by decide,
   (navigateToDetail_params
      { destination := "Paris", days := 3, budget := none, num_people := none,
        group_type := none, itinerary := ItineraryValue.undefined } "FoodDetail"
      (by decide)).2.2.2.1⟩

/-! ## Theme context -/

theorem mem_of_lookup {β : Type} (l : List (String × β)) (a : String) (b : β)
    (h : l.lookup a = some b) : (a, b) ∈ l := by
  induction l with
  | nil => simp at h
  | cons p l ih =>
    obtain ⟨k, v⟩ := p
    by_cases hk : a = k
    · subst hk
      simp only [List.lookup_cons, beq_self_eq_true] at h
      simp [← Option.some.inj h]
    · have hb : (a == k) = false := by simpa using hk
      simp only [List.lookup_cons, hb] at h
      exact List.mem_cons_of_mem _ (ih h)

theorem themesGet_plain (id : String)
    (h : id ∈ ThemeContext.THEMES.map Prod.fst ∨ id ∉ ThemeContext.objectPrototypeMembers) :
    ThemeContext.themesGet id = none ∨
      ∃ e ∈ ThemeContext.THEMES, id = e.1 ∧
        ThemeContext.themesGet id = some (ThemeContext.Member.entry e.2) := by
  rcases h with h | h
  · right
    simp only [ThemeContext.THEMES, List.map_cons, List.map_nil, List.mem_cons,
      List.mem_singleton, List.not_mem_nil, or_false] at h
    rcases h with h | h | h | h | h <;> subst h <;> decide
  · cases hl : ThemeContext.THEMES.lookup id with
    | none =>
      left
      have hp : id ≠ "__proto__" := fun hp => h (by rw [hp]; decide)
      simp [ThemeContext.themesGet, hl, hp, h]
    | some t =>
      right
      have hmem : (id, t) ∈ ThemeContext.THEMES := mem_of_lookup _ _ _ hl
      exact ⟨(id, t), hmem, rfl, by simp [ThemeContext.themesGet, hl]⟩

/-- The invariant of the provider under plain ids: mounted, an entry as the theme, and a
stored value that is absent or the id and the colours of an entry. -/
theorem step_plain (s : ThemeContext.ProviderState) (e : ThemeContext.Event)
    (hid : ∀ id, e.id = some id →
      id ∈ ThemeContext.THEMES.map Prod.fst ∨ id ∉ ThemeContext.objectPrototypeMembers)
    (h1 : s.unmounted = false)
    (h2 : ∃ t ∈ ThemeContext.THEMES, s.theme = ThemeContext.ThemeValue.entry t.2)
    (h3 : ∀ st, s.stored = some st →
      ∃ t ∈ ThemeContext.THEMES, st = { id := t.1, fields := some t.2 }) :
    (ThemeContext.step s e).unmounted = false ∧
    (∃ t ∈ ThemeContext.THEMES,
      (ThemeContext.step s e).theme = ThemeContext.ThemeValue.entry t.2) ∧
    (∀ st, (ThemeContext.step s e).stored = some st →
      ∃ t ∈ ThemeContext.THEMES, st = { id := t.1, fields := some t.2 }) := by
  cases e with
  | changeTheme themeId =>
    rcases themesGet_plain themeId (hid themeId rfl) with hg | ⟨t, ht, hi, hg⟩
    · simp only [ThemeContext.step, ThemeContext.changeTheme, hg]
      exact ⟨h1, h2, h3⟩
    · simp only [ThemeContext.step, ThemeContext.changeTheme, hg, ThemeContext.setTheme, h1,
        Bool.false_eq_true, if_false, ThemeContext.Member.spread]
      refine ⟨trivial, ⟨t, ht, rfl⟩, ?_⟩
      intro st hst
      exact ⟨t, ht, by rw [← Option.some.inj hst, hi]⟩
  | load savedId =>
    cases savedId with
    | none =>
      simp only [ThemeContext.step, ThemeContext.loadStored]
      exact ⟨h1, h2, h3⟩
    | some id =>
      rcases themesGet_plain id (hid id rfl) with hg | ⟨t, ht, _, hg⟩
      · simp only [ThemeContext.step, ThemeContext.loadStored, hg]
        exact ⟨h1, h2, h3⟩
      · simp only [ThemeContext.step, ThemeContext.loadStored, hg, ThemeContext.setTheme, h1,
          Bool.false_eq_true, if_false]
        exact ⟨trivial, ⟨t, ht, rfl⟩, h3⟩

theorem run_plain (events : List ThemeContext.Event) (s : ThemeContext.ProviderState)
    (hid : ∀ e ∈ events, ∀ id, e.id = some id →
      id ∈ ThemeContext.THEMES.map Prod.fst ∨ id ∉ ThemeContext.objectPrototypeMembers)
    (h1 : s.unmounted = false)
    (h2 : ∃ t ∈ ThemeContext.THEMES, s.theme = ThemeContext.ThemeValue.entry t.2)
    (h3 : ∀ st, s.stored = some st →
      ∃ t ∈ ThemeContext.THEMES, st = { id := t.1, fields := some t.2 }) :
    (ThemeContext.run events s).unmounted = false ∧
    (∃ t ∈ ThemeContext.THEMES,
      (ThemeContext.run events s).theme = ThemeContext.ThemeValue.entry t.2) ∧
    (∀ st, (ThemeContext.run events s).stored = some st →
      ∃ t ∈ ThemeContext.THEMES, st = { id := t.1, fields := some t.2 }) := by
  induction events generalizing s with
  | nil => exact ⟨h1, h2, h3⟩
  | cons e es ih =>
    obtain ⟨a, b, c⟩ := step_plain s e (hid e (List.mem_cons_self _ _)) h1 h2 h3
    exact ih (ThemeContext.step s e)
      (fun e' he' => hid e' (List.mem_cons_of_mem _ he')) a b c

/-- C20 as stated fails. The id "constructor" is not one of the five theme ids, yet
`THEMES["constructor"]` is the inherited function `Object`, a truthy value, so the guard
`if (t)` of `changeTheme` passes. `setTheme (Object)` is an updater call, `Object (theme)`
is the theme itself, so the theme stays; but the value `{ id: "constructor" }` is written
under `selectedTheme`, so the stored value changes. -/
theorem changeTheme_inherited_member :
    "constructor" ∉ ThemeContext.THEMES.map Prod.fst ∧
    (ThemeContext.changeTheme "constructor" ThemeContext.initial).theme
      = ThemeContext.initial.theme ∧
    (ThemeContext.changeTheme "constructor" ThemeContext.initial).stored
      = some { id := "constructor", fields := none } ∧
    (ThemeContext.changeTheme "constructor" ThemeContext.initial).stored
      ≠ ThemeContext.initial.stored := by
  decide

/-- C20, amended. After any sequence of `changeTheme` calls and stored-theme loads on a
fresh provider in which every id is one of the five theme ids or is no property name of
`Object.prototype`, the provider is mounted, its theme is one of the five entries of
`THEMES`, and the stored value is absent or is the id and the colours of one entry; and
`changeTheme` with an id that is neither one of the five theme ids nor a property name of
`Object.prototype` changes neither the theme nor the stored value. -/
theorem changeTheme_plain_ids (events : List ThemeContext.Event)
    (hid : ∀ e ∈ events, ∀ id, e.id = some id →
      id ∈ ThemeContext.THEMES.map Prod.fst ∨ id ∉ ThemeContext.objectPrototypeMembers) :
    (ThemeContext.run events ThemeContext.initial).unmounted = false ∧
    (∃ t ∈ ThemeContext.THEMES,
      (ThemeContext.run events ThemeContext.initial).theme
        = ThemeContext.ThemeValue.entry t.2) ∧
    (∀ st, (ThemeContext.run events ThemeContext.initial).stored = some st →
      ∃ t ∈ ThemeContext.THEMES, st = { id := t.1, fields := some t.2 }) ∧
    (∀ id s, id ∉ ThemeContext.THEMES.map Prod.fst →
      id ∉ ThemeContext.objectPrototypeMembers → ThemeContext.changeTheme id s = s) := by
  obtain ⟨a, b, c⟩ := run_plain events ThemeContext.initial hid rfl
    ⟨("default", _), by decide, rfl⟩ (fun st hst => by cases hst)
  refine ⟨a, b, c, ?_⟩
  intro id s h1 h2
  rcases themesGet_plain id (Or.inr h2) with hg | ⟨t, ht, hi, _⟩
  · simp only [ThemeContext.changeTheme, hg]
  · exact absurd (List.mem_map.mpr ⟨t, ht, hi.symm⟩) h1

/-- The amended theme theorem for a switch to "warm", a load of the unknown id "neon" and
a switch to "neon": the provider is mounted and its theme is an entry of `THEMES`. -/
theorem changeTheme_plain_ids_witness :
    (∀ e ∈ ThemeContext.sampleEvents, ∀ id, e.id = some id →
      id ∈ ThemeContext.THEMES.map Prod.fst ∨ id ∉ ThemeContext.objectPrototypeMembers) ∧
    (ThemeContext.run ThemeContext.sampleEvents ThemeContext.initial).unmounted = false ∧
    (∃ t ∈ ThemeContext.THEMES,
      (ThemeContext.run ThemeContext.sampleEvents ThemeContext.initial).theme
        = ThemeContext.ThemeValue.entry t.2) :=
  ⟨by decide,
   (changeTheme_plain_ids ThemeContext.sampleEvents (by decide)).1,
   (changeTheme_plain_ids ThemeContext.sampleEvents (by decide)).2.1⟩

/-- The filter theorem on the accommodation screen with the tier "budget" selected. -/
theorem filters_by_screen_witness :
    "budget" ∈ ["budget", "midrange", "luxury"] ∧
    (AccommodationDetail.filtered
      [{ name := "Hostel", tier := some "budget", dietary := none, type := none },
       { name := "Palace", tier := some "luxury", dietary := none, type := none }]
      "budget").Sublist
      [{ name := "Hostel", tier := some "budget", dietary := none, type := none },
       { name := "Palace", tier := some "luxury", dietary := none, type := none }] :=
  ⟨by decide,
   ((filters_by_screen
      [{ name := "Hostel", tier := some "budget", dietary := none, type := none },
       { name := "Palace", tier := some "luxury", dietary := none, type := none }]
      "budget" "Both").2.2.1 (by decide)).1⟩

/-- The toggle theorem with nobody signed in: the favourite ids stay as they are. -/
theorem handleToggleFavorite_sets_witness :
    (Explore.handleToggleFavorite { currentUser := none, favoriteIds := ["3"] }
        { id := 7, city := "Paris" } (AuthReply.resolved none)
        (DbReply.resolved none none none)).state
      = { currentUser := none, favoriteIds := ["3"] } :=
  (handleToggleFavorite_sets { currentUser := none, favoriteIds := ["3"] }
    { id := 7, city := "Paris" } (AuthReply.resolved none)
    (DbReply.resolved none none none)).1 rfl

/-! ## Itinerary request -/

theorem trim_eq_rdropWhile (p : List Char) :
    trim p = (p.dropWhile isWhiteSpace).rdropWhile isWhiteSpace :=
  rfl

theorem trim_ends (p : List Char) (h : trim p ≠ []) :
    isWhiteSpace ((trim p).head h) = false ∧ isWhiteSpace ((trim p).getLast h) = false := by
  constructor
  · have hpre : trim p <+: p.dropWhile isWhiteSpace := by
      rw [trim_eq_rdropWhile]
      exact List.rdropWhile_prefix _ _
    have hne : p.dropWhile isWhiteSpace ≠ [] := by
      intro h0
      rw [h0] at hpre
      exact h (List.prefix_nil.mp hpre)
    rw [hpre.head h]
    exact List.head_dropWhile_not _ _ hne
  · have := List.rdropWhile_last_not isWhiteSpace (p.dropWhile isWhiteSpace) h
    simpa using this

theorem trim_removes_blank_ends (p : List Char) :
    ∃ a b, p = a ++ trim p ++ b ∧ (∀ c ∈ a, isWhiteSpace c = true) ∧
      (∀ c ∈ b, isWhiteSpace c = true) := by
  refine ⟨p.takeWhile isWhiteSpace, (p.dropWhile isWhiteSpace).rtakeWhile isWhiteSpace,
    ?_, fun c hc => List.mem_takeWhile_imp hc, fun c hc => List.mem_rtakeWhile_imp hc⟩
  have h2 : ∀ l : List Char,
      l.rdropWhile isWhiteSpace ++ l.rtakeWhile isWhiteSpace = l := by
    intro l
    unfold List.rdropWhile List.rtakeWhile
    rw [← List.reverse_append, List.takeWhile_append_dropWhile, List.reverse_reverse]
  rw [trim_eq_rdropWhile, List.append_assoc, h2, List.takeWhile_append_dropWhile]

theorem not_mem_of_mem_splitOn (c : Char) (xs : List Char) :
    ∀ p ∈ xs.splitOn c, c ∉ p := by
  induction xs with
  | nil => simp
  | cons hd tl ih =>
    simp only [List.splitOn, List.splitOnP_cons] at ih ⊢
    split_ifs with h
    · intro p hp
      rcases List.mem_cons.mp hp with rfl | hp
      · simp
      · exact ih p hp
    · cases h' : List.splitOnP (fun x => x == c) tl with
      | nil => simp [List.modifyHead]
      | cons a rest =>
        rw [h'] at ih
        intro p hp
        simp only [List.modifyHead, List.mem_cons] at hp
        rcases hp with rfl | hp
        · have ha := ih a (List.mem_cons_self _ _)
          simp only [List.mem_cons, not_or]
          exact ⟨fun e => h (by simp [e]), ha⟩
        · exact ih p (List.mem_cons_of_mem _ hp)

/-- C21. For every interests text, `generateItinerary` sends exactly one request, whose
`interests` are the comma-separated pieces of the text (joined by commas they give the
text back, and no piece holds a comma), each trimmed (stripped of the white space at its
two ends and of nothing else), with the empty ones removed and the order kept; no element
sent is empty or starts or ends with white space. -/
theorem interests_sent_trimmed (s : PlannerState) (days budgetUSD : Int)
    (response : Option (List Char)) :
    (generateItinerary s days budgetUSD response).sent.map (fun r => r.interests)
      = [interestsArray s.interests] ∧
    [','].intercalate (s.interests.splitOn ',') = s.interests ∧
    (∀ p ∈ s.interests.splitOn ',', ',' ∉ p) ∧
    interestsArray s.interests
      = ((s.interests.splitOn ',').map trim).filter (fun i => decide (i ≠ [])) ∧
    (∀ p : List Char, ∃ a b, p = a ++ trim p ++ b ∧ (∀ c ∈ a, isWhiteSpace c = true) ∧
      (∀ c ∈ b, isWhiteSpace c = true)) ∧
    (∀ x ∈ interestsArray s.interests, ∃ h : x ≠ [],
      isWhiteSpace (x.head h) = false ∧ isWhiteSpace (x.getLast h) = false) := by
  refine ⟨?_, List.intercalate_splitOn _ _, ?_, rfl, trim_removes_blank_ends, ?_⟩
  · cases response <;> rfl
  · exact not_mem_of_mem_splitOn ',' s.interests
  · intro x hx
    simp only [interestsArray, List.mem_filter, List.mem_map, decide_eq_true_eq] at hx
    obtain ⟨⟨p, _, rfl⟩, hne⟩ := hx
    exact ⟨hne, trim_ends p hne⟩

/-! ## The data-fetch script: attractions without a match -/

/-- C22, the code at the failing input. When Nominatim answers with an empty list of
matches, `fetchGPS` resolves (with `null`), and the attraction that
`addGPSToDestinations` writes has `latitude` and `longitude` set to `null`, although the
city carries the coordinates of its centre. -/
theorem not_found_writes_null :
    FetchGPS.fetchGPS (FetchGPS.HttpOutcome.body []) = none ∧
    (FetchGPS.addGPSToDestinations false
        [{ city := "Paris", country := "France",
           fields := [("latitude", FetchGPS.Field.number 488566 (-4)),
                      ("longitude", FetchGPS.Field.number 23522 (-4))],
           attractions := [{ name := "Louvre",
                             fields := [("type", FetchGPS.Field.text "Museum")] }] }]
        (fun _ => { latency := 200, outcome := FetchGPS.HttpOutcome.body [], lateness := 0 })
        0).written =
      [{ city := "Paris", country := "France",
         fields := [("latitude", FetchGPS.Field.number 488566 (-4)),
                    ("longitude", FetchGPS.Field.number 23522 (-4))],
         attractions := [{ name := "Louvre",
                           fields := [("type", FetchGPS.Field.text "Museum"),
                                      ("latitude", FetchGPS.Field.null),
                                      ("longitude", FetchGPS.Field.null)] }] }] := by
  decide

/-! ## Budget tier against the minimum-budget check -/

/-- C23 as stated fails. For 2 days, one traveller and 29 US dollars the card shows
"Budget Travel" (`ppd = Math.round (14.5) = 15`), while `handleGenerate` raises the
"Budget Too Low" alert (`29 < 2 * 1 * 15`). -/
theorem budget_travel_yet_too_low :
    calculateDays { sampleState with endDate := 1700172800000, budget := "29".toList } = 2 ∧
    getBudgetInUSD { sampleState with endDate := 1700172800000, budget := "29".toList } = 29 ∧
    (getBudgetTier "#6200ee"
        { sampleState with endDate := 1700172800000, budget := "29".toList }).map
      (fun t => (t.label, t.ppd)) = some ("🎒 Budget Travel", 15) ∧
    (handleGenerate { sampleState with endDate := 1700172800000, budget := "29".toList }
        (some { id := "user-1" })).alerts.map (fun a => a.title) = ["Budget Too Low ⚠️"] := by
  decide

/-- C23, amended. For at least one traveller and a positive budget in US dollars, the card
shows "Very Tight" exactly when `budgetUSD < 14.5 * days * members`, and for a signed-in
user with a non-blank destination and an accepted budget `handleGenerate` raises the
"Budget Too Low" alert exactly when `budgetUSD < 15 * days * members`. So every budget
shown as "Very Tight" raises the alert, and the alert is raised without the label exactly
for `14.5 * days * members ≤ budgetUSD < 15 * days * members`. -/
theorem very_tight_implies_too_low (primary : String) (s : PlannerState) (u : User)
    (hm : 1 ≤ s.members) (hb : 0 < getBudgetInUSD s) (hd : trim s.destination ≠ [])
    (hv : (validateBudget s).2 = true) :
    ∃ t, getBudgetTier primary s = some t ∧
      (t.label = "⚠️ Very Tight" ↔
        2 * getBudgetInUSD s < 29 * (calculateDays s * (s.members : Int))) ∧
      ((∃ a ∈ (handleGenerate s (some u)).alerts, a.title = "Budget Too Low ⚠️") ↔
        getBudgetInUSD s < calculateDays s * (s.members : Int) * 15) ∧
      (t.label = "⚠️ Very Tight" →
        ∃ a ∈ (handleGenerate s (some u)).alerts, a.title = "Budget Too Low ⚠️") ∧
      (((∃ a ∈ (handleGenerate s (some u)).alerts, a.title = "Budget Too Low ⚠️") ∧
          t.label ≠ "⚠️ Very Tight") ↔
        29 * (calculateDays s * (s.members : Int)) ≤ 2 * getBudgetInUSD s ∧
          getBudgetInUSD s < calculateDays s * (s.members : Int) * 15) := by
  have hdays := one_le_calculateDays s
  have hpos : 0 < calculateDays s * (s.members : Int) := by positivity
  have hkey := perPersonPerDay_lt_iff (getBudgetInUSD s) _ 15 hpos hb (by norm_num)
  have halert : (∃ a ∈ (handleGenerate s (some u)).alerts, a.title = "Budget Too Low ⚠️") ↔
      getBudgetInUSD s < calculateDays s * (s.members : Int) * 15 := by
    rw [handleGenerate_accepted s u hd hv]
    split_ifs with h1 h2
    · simp [h1]
    · simp [h1]
    · simp [h1]
  have htier : ∃ t, getBudgetTier primary s = some t ∧
      (t.label = "⚠️ Very Tight" ↔
        perPersonPerDay (getBudgetInUSD s) (calculateDays s * (s.members : Int)) < 15) := by
    unfold getBudgetTier
    have h0 : ¬ (getBudgetInUSD s = 0 ∨ calculateDays s = 0 ∨ s.members = 0) := by omega
    simp only [h0, if_false]
    split_ifs with h1 h2 h3
    · exact ⟨_, rfl, by simp [h1]⟩
    · exact ⟨_, rfl, by simp [h1]⟩
    · exact ⟨_, rfl, by simp [h1]⟩
    · exact ⟨_, rfl, by simp [h1]⟩
  obtain ⟨t, ht, hlabel⟩ := htier
  have hlabel2 : t.label = "⚠️ Very Tight" ↔
      2 * getBudgetInUSD s < 29 * (calculateDays s * (s.members : Int)) := by
    rw [hlabel, hkey]
    constructor <;> intro h <;> linarith
  refine ⟨t, ht, hlabel2, halert, ?_, ?_⟩
  · intro h
    rw [halert]
    have := hlabel2.mp h
    linarith
  · rw [halert]
    constructor
    · rintro ⟨h1, h2⟩
      exact ⟨not_lt.mp (fun h => h2 (hlabel2.mpr h)), h1⟩
    · rintro ⟨h1, h2⟩
      exact ⟨h2, fun h => absurd (hlabel2.mp h) (not_lt.mpr h1)⟩

/-! ## Accepted budgets in US dollars -/

/-- C24 as stated fails. The budget text "1" with the Japanese yen selected is accepted by
`validateBudget`, and `getBudgetInUSD` returns `Math.round (1 / 149.5) = 0`. -/
theorem accepted_budget_rounds_to_zero :
    ({ code := "JPY", symbol := "¥", label := "Japanese Yen", rateNum := 1495, rateDen := 10 }
      : Currency) ∈ CURRENCIES ∧
    (validateBudget
      { sampleState with
        budget := "1".toList,
        selectedCurrency := { code := "JPY", symbol := "¥", label := "Japanese Yen",
                              rateNum := 1495, rateDen := 10 } }).2 = true ∧
    getBudgetInUSD
      { sampleState with
        budget := "1".toList,
        selectedCurrency := { code := "JPY", symbol := "¥", label := "Japanese Yen",
                              rateNum := 1495, rateDen := 10 } } = 0 := by
  decide

theorem roundedQuotient_pos (raw : Int) (r : Binary64) (least : Nat) (hr : r.exponent < 0)
    (hm : 0 < r.mantissa) (hmin : r.mantissa ≤ 2 * (least <<< (-r.exponent).toNat))
    (h : (least : Int) ≤ raw) : 0 < roundedQuotient raw r := by
  have hinf := infinity_pos
  unfold roundedQuotient
  split_ifs with h1 h2 h3
  · exact hinf
  · omega
  · omega
  · have hd : decide (raw < 0) = false := by simp; omega
    rw [hd]
    have hle : least <<< (-r.exponent).toNat ≤ raw.natAbs <<< (-r.exponent).toNat := by
      rw [Nat.shiftLeft_eq, Nat.shiftLeft_eq]
      exact Nat.mul_le_mul_right _ (by omega)
    exact mathRound_pos _ _ hm (by omega)

set_option maxRecDepth 4000 in
theorem conversion_pos_iff (c : Currency) (hc : c ∈ CURRENCIES) (raw : Int) (hr : 0 < raw) :
    0 < roundedQuotient raw c.rateDouble ↔ (c.rateNum : Int) ≤ 2 * raw * c.rateDen := by
  simp only [CURRENCIES, List.mem_cons, List.mem_singleton, List.not_mem_nil, or_false] at hc
  rcases hc with h | h | h | h | h | h | h | h | h | h <;> subst h <;>
    simp only [Currency.rateDouble]
  · have e : roundToBinary64 1 1 = { mantissa := 4503599627370496, exponent := -52 } := by
      decide
    rw [e]
    exact ⟨fun _ => by omega,
      fun _ => roundedQuotient_pos raw _ 1 (by decide) (by decide) (by decide) (by omega)⟩
  · have e : roundToBinary64 835 10 = { mantissa := 5875790138834944, exponent := -46 } := by
      decide
    rw [e]
    by_cases hbig : 42 ≤ raw
    · exact ⟨fun _ => by omega,
        fun _ => roundedQuotient_pos raw _ 42 (by decide) (by decide) (by decide) hbig⟩
    · have hsmall : raw ≤ 41 := by omega
      interval_cases raw <;> decide
  · have e : roundToBinary64 92 100 = { mantissa := 8286623314361713, exponent := -53 } := by
      decide
    rw [e]
    exact ⟨fun _ => by omega,
      fun _ => roundedQuotient_pos raw _ 1 (by decide) (by decide) (by decide) (by omega)⟩
  · have e : roundToBinary64 79 100 = { mantissa := 7115687411245384, exponent := -53 } := by
      decide
    rw [e]
    exact ⟨fun _ => by omega,
      fun _ => roundedQuotient_pos raw _ 1 (by decide) (by decide) (by decide) (by omega)⟩
  · have e : roundToBinary64 1495 10 = { mantissa := 5260063627280384, exponent := -45 } := by
      decide
    rw [e]
    by_cases hbig : 75 ≤ raw
    · exact ⟨fun _ => by omega,
        fun _ => roundedQuotient_pos raw _ 75 (by decide) (by decide) (by decide) hbig⟩
    · have hsmall : raw ≤ 74 := by omega
      interval_cases raw <;> decide
  · have e : roundToBinary64 153 100 = { mantissa := 6890507429876859, exponent := -52 } := by
      decide
    rw [e]
    exact ⟨fun _ => by omega,
      fun _ => roundedQuotient_pos raw _ 1 (by decide) (by decide) (by decide) (by omega)⟩
  · have e : roundToBinary64 136 100 = { mantissa := 6124895493223875, exponent := -52 } := by
      decide
    rw [e]
    exact ⟨fun _ => by omega,
      fun _ => roundedQuotient_pos raw _ 1 (by decide) (by decide) (by decide) (by omega)⟩
  · have e : roundToBinary64 134 100 = { mantissa := 6034823500676465, exponent := -52 } := by
      decide
    rw [e]
    exact ⟨fun _ => by omega,
      fun _ => roundedQuotient_pos raw _ 1 (by decide) (by decide) (by decide) (by omega)⟩
  · have e : roundToBinary64 367 100 = { mantissa := 8264105316224860, exponent := -51 } := by
      decide
    rw [e]
    by_cases hbig : 2 ≤ raw
    · exact ⟨fun _ => by omega,
        fun _ => roundedQuotient_pos raw _ 2 (by decide) (by decide) (by decide) hbig⟩
    · have hsmall : raw ≤ 1 := by omega
      interval_cases raw
      decide
  · have e : roundToBinary64 351 10 = { mantissa := 4939885841272013, exponent := -47 } := by
      decide
    rw [e]
    by_cases hbig : 18 ≤ raw
    · exact ⟨fun _ => by omega,
        fun _ => roundedQuotient_pos raw _ 18 (by decide) (by decide) (by decide) hbig⟩
    · have hsmall : raw ≤ 17 := by omega
      interval_cases raw <;> decide

theorem validateBudget_accepted (s : PlannerState) (hv : (validateBudget s).2 = true) :
    ∃ raw, parseInt s.budget = some raw ∧ 0 < raw := by
  by_cases hb : trim s.budget = []
  · rw [validateBudget_blank s hb] at hv
    cases hv
  · cases hp : parseInt s.budget with
    | none =>
      rw [validateBudget_nan s hb hp] at hv
      cases hv
    | some raw =>
      by_cases hr : raw ≤ 0
      · rw [validateBudget_nonpos s hb raw hp hr] at hv
        cases hv
      · exact ⟨raw, rfl, by omega⟩

/-- C24, amended. For every budget text accepted by `validateBudget` and every currency of
`CURRENCIES`, `getBudgetInUSD` returns an amount that is at least 0, and greater than 0
exactly when the parsed amount is at least half the rate of the currency; that is the case
for every accepted budget in a currency whose rate is at most 2. -/
theorem accepted_budget_nonneg (s : PlannerState) (hv : (validateBudget s).2 = true)
    (hc : s.selectedCurrency ∈ CURRENCIES) :
    ∃ raw, parseInt s.budget = some raw ∧ 0 < raw ∧ 0 ≤ getBudgetInUSD s ∧
      (0 < getBudgetInUSD s ↔ s.selectedCurrency.rate / 2 ≤ (raw : ℚ)) ∧
      (s.selectedCurrency.rate ≤ 2 → 0 < getBudgetInUSD s) := by
  obtain ⟨raw, hp, hr⟩ := validateBudget_accepted s hv
  obtain ⟨hn, hd⟩ := rate_pos_of_mem _ hc
  have hn' : (0 : Int) < s.selectedCurrency.rateNum := by exact_mod_cast hn
  have hd' : (0 : Int) < s.selectedCurrency.rateDen := by exact_mod_cast hd
  have hprod : 0 < raw * (s.selectedCurrency.rateDen : Int) := Int.mul_pos hr hd'
  have husd : getBudgetInUSD s = roundedQuotient raw s.selectedCurrency.rateDouble := by
    simp [getBudgetInUSD, hp]
  have hiff : 0 < getBudgetInUSD s ↔
      (s.selectedCurrency.rateNum : Int) ≤ 2 * raw * s.selectedCurrency.rateDen := by
    rw [husd]
    exact conversion_pos_iff _ hc raw hr
  have hrat : s.selectedCurrency.rate / 2 ≤ (raw : ℚ) ↔
      (s.selectedCurrency.rateNum : Int) ≤ 2 * raw * s.selectedCurrency.rateDen := by
    have hdq : (0 : ℚ) < (s.selectedCurrency.rateDen : ℚ) := by exact_mod_cast hd
    unfold Currency.rate
    rw [div_le_iff₀ (by norm_num : (0 : ℚ) < 2), div_le_iff₀ hdq]
    constructor
    · intro h
      have h2 : ((s.selectedCurrency.rateNum : Int) : ℚ)
          ≤ ((2 * raw * s.selectedCurrency.rateDen : Int) : ℚ) := by
        push_cast
        linarith
      exact_mod_cast h2
    · intro h
      have h2 : ((s.selectedCurrency.rateNum : Int) : ℚ)
          ≤ ((2 * raw * s.selectedCurrency.rateDen : Int) : ℚ) := by exact_mod_cast h
      push_cast at h2
      linarith
  refine ⟨raw, hp, hr, ?_, hiff.trans hrat.symm, ?_⟩
  · rw [husd]
    exact roundedQuotient_nonneg raw _ hr.le
  · intro hle
    rw [hiff.trans hrat.symm]
    have h1 : (1 : ℚ) ≤ (raw : ℚ) := by exact_mod_cast hr
    linarith

/-! ## Monotonicity of the budget tier -/

/-- C25. For two planner states with the same number of days and the same number (at least
one) of travellers and budgets in US dollars `0 < b1 ≤ b2`, `getBudgetTier` returns a tier
for both, the per-person-per-day amount of the second is at least that of the first, and
the label of the second is the same as or higher than the label of the first in the order
Very Tight, Budget Travel, Mid-Range, Luxury. -/
theorem getBudgetTier_monotone (primary : String) (s1 s2 : PlannerState)
    (hm : 1 ≤ s1.members) (hmem : s1.members = s2.members)
    (hdays : calculateDays s1 = calculateDays s2)
    (hpos : 0 < getBudgetInUSD s1) (hle : getBudgetInUSD s1 ≤ getBudgetInUSD s2) :
    ∃ t1 t2, getBudgetTier primary s1 = some t1 ∧ getBudgetTier primary s2 = some t2 ∧
      t1.ppd ≤ t2.ppd ∧
      (t1.label = "⚠️ Very Tight" ∨ t1.label = "🎒 Budget Travel" ∨
        t1.label = "✈️ Mid-Range" ∨ t1.label = "💎 Luxury") ∧
      (t2.label = "⚠️ Very Tight" → t1.label = "⚠️ Very Tight") ∧
      (t1.label = "🎒 Budget Travel" →
        t2.label = "🎒 Budget Travel" ∨ t2.label = "✈️ Mid-Range" ∨ t2.label = "💎 Luxury") ∧
      (t1.label = "✈️ Mid-Range" → t2.label = "✈️ Mid-Range" ∨ t2.label = "💎 Luxury") ∧
      (t1.label = "💎 Luxury" → t2.label = "💎 Luxury") := by
  have hd1 := one_le_calculateDays s1
  have hn : 0 < calculateDays s1 * (s1.members : Int) := by positivity
  have hmono := perPersonPerDay_mono _ _ _ hn hpos.le hle
  have h1 : ¬ (getBudgetInUSD s1 = 0 ∨ calculateDays s1 = 0 ∨ s1.members = 0) := by omega
  have h2 : ¬ (getBudgetInUSD s2 = 0 ∨ calculateDays s2 = 0 ∨ s2.members = 0) := by omega
  unfold getBudgetTier
  simp only [h1, h2, if_false]
  rw [← hdays, ← hmem]
  generalize perPersonPerDay (getBudgetInUSD s1) (calculateDays s1 * (s1.members : Int)) = p1
    at hmono
  generalize perPersonPerDay (getBudgetInUSD s2) (calculateDays s1 * (s1.members : Int)) = p2
    at hmono
  by_cases a1 : p1 < 15 <;> by_cases a2 : p1 < 50 <;> by_cases a3 : p1 < 150 <;>
    by_cases b1 : p2 < 15 <;> by_cases b2 : p2 < 50 <;> by_cases b3 : p2 < 150 <;>
    first
      | omega
      | (simp only [a1, a2, a3, b1, b2, b3, if_true, if_false]
         exact ⟨_, _, rfl, rfl, hmono, by simp⟩)

/-- The monotonicity theorem for budgets of 10 and 29 US dollars, one day, one traveller. -/
theorem getBudgetTier_monotone_witness :
    getBudgetInUSD sampleState ≤ getBudgetInUSD { sampleState with budget := "29".toList } ∧
    ∃ t1 t2, getBudgetTier "#6200ee" sampleState = some t1 ∧
      getBudgetTier "#6200ee" { sampleState with budget := "29".toList } = some t2 ∧
      t1.ppd ≤ t2.ppd :=
  ⟨by decide,
   (getBudgetTier_monotone "#6200ee" sampleState { sampleState with budget := "29".toList }
      (by decide) rfl (by decide) (by decide) (by decide)).imp
     (fun _ h => h.imp (fun _ h2 => ⟨h2.1, h2.2.1, h2.2.2.1⟩))⟩

/-- The amended tier theorem at the sample state: 10 US dollars, one day, one traveller. -/
theorem very_tight_implies_too_low_witness :
    1 ≤ sampleState.members ∧ 0 < getBudgetInUSD sampleState ∧
    trim sampleState.destination ≠ [] ∧ (validateBudget sampleState).2 = true ∧
    ∃ t, getBudgetTier "#6200ee" sampleState = some t ∧
      (t.label = "⚠️ Very Tight" ↔
        2 * getBudgetInUSD sampleState
          < 29 * (calculateDays sampleState * (sampleState.members : Int))) :=
  ⟨by decide, by decide, by decide, by decide,
   (very_tight_implies_too_low "#6200ee" sampleState { id := "user-1" } (by decide)
      (by decide) (by decide) (by decide)).imp (fun _ h => ⟨h.1, h.2.1⟩)⟩

/-- The amended conversion theorem at the sample state: 10 US dollars stay positive. -/
theorem accepted_budget_nonneg_witness :
    (validateBudget sampleState).2 = true ∧ sampleState.selectedCurrency ∈ CURRENCIES ∧
    ∃ raw, parseInt sampleState.budget = some raw ∧ 0 < raw ∧
      0 ≤ getBudgetInUSD sampleState :=
  ⟨by decide, by decide,
   (accepted_budget_nonneg sampleState (by decide) (by decide)).imp
     (fun _ h => ⟨h.1, h.2.1, h.2.2.1⟩)⟩

end VoyageHub
